import Mathlib

/-!
FUnrealBrushTranslator::CreateInputNodeForBrush.

A shallow embedding of `Source/HoudiniEngine/Private/UnrealBrushTranslator.cpp`.

* Scalars (`float`, `double`) are rationals, as every finite float is one.  The float
  operations that round (the quotient of a vector by a scalar, the difference of two
  vectors, the dot product, the quotient of two scalars) are fields of `World`, like the
  other engine math; permuting components and negating are exact.  `okWorld` computes
  them exactly, `floatWorld` rounds each to the nearest binary32 float.
* `int32` values are `Int`; array positions are `Nat`.
* `TArray` is `List`.  `TArray::operator[]` range-checks its index, so a read or a
  write outside the array stops the run: buffers are accessed through `readAt` and
  `writeAt`, which answer `none` there.  Signed overflow of the `int` accumulator
  `NumIndices` is undefined behaviour and stops the run in the same way.
* Everything the function calls outside this file (the remote engine, the input
  registry, the engine's math and CSG helpers, the constants of the private
  header) is a field of `World`; the calls that act on the remote engine or on the
  registry are recorded, in order, in a trace.
* The bake-after-next-cook setting of `UHoudiniAssetComponent`
  (`Source/HoudiniEngineRuntime/Private/HoudiniAssetComponent.h`) is embedded from its
  inline accessors.
* `FHoudiniInputTranslator::CreateMergeSOP` is declared in
  `Source/HoudiniEngine/Private/HoudiniInputTranslator.h` and defined elsewhere; its
  model follows the comment of the declaration and the specification.
-/

namespace HoudiniBrush

/-! ## Data model -/

/-- FVector3f / FVector3d. -/
structure FVector3f where
  X : ℚ
  Y : ℚ
  Z : ℚ
deriving DecidableEq, Repr

namespace FVector3f

/-- The difference of two vectors, in exact arithmetic. -/
def sub (a b : FVector3f) : FVector3f := ⟨a.X - b.X, a.Y - b.Y, a.Z - b.Z⟩

/-- The quotient of a vector by a scalar, in exact arithmetic. -/
def div (a : FVector3f) (s : ℚ) : FVector3f := ⟨a.X / s, a.Y / s, a.Z / s⟩

/-- The dot product, in exact arithmetic; of a vector with itself, the square of its
length. -/
def DotProduct (a b : FVector3f) : ℚ := a.X * b.X + a.Y * b.Y + a.Z * b.Z

end FVector3f

/-- UMaterialInterface*, an address; 0 is nullptr. -/
abbrev UMaterialInterface := Nat

/-- FBspNode, the fields the translator reads. NumVertices is a uint8. -/
structure FBspNode where
  iVertPool : Int
  iSurf : Int
  NumVertices : Nat
deriving DecidableEq, Repr

/-- FVert, the field the translator reads. -/
structure FVert where
  pVertex : Int
deriving DecidableEq, Repr

/-- FBspSurf, the fields the translator reads. -/
structure FBspSurf where
  Material : UMaterialInterface
  pBase : Int
  vNormal : Int
  vTextureU : Int
  vTextureV : Int
deriving DecidableEq, Repr

/-- UModel, the arrays the translator reads. -/
structure UModel where
  Points : List FVector3f
  Nodes : List FBspNode
  Surfs : List FBspSurf
  Verts : List FVert
  Vectors : List FVector3f
deriving DecidableEq, Repr

/-- FTransform, kept abstract: a name for the actor's transform. -/
abbrev FTransform := Nat

/-- HAPI_NodeId. -/
abbrev HAPI_NodeId := Int

/-- HAPI_Result: success, or any other code. -/
inductive HAPI_Result where
  | HAPI_RESULT_SUCCESS
  | HAPI_RESULT_FAILURE (code : Nat)
deriving DecidableEq, Repr

/-- The test `HAPI_RESULT_SUCCESS == Result`. -/
def HAPI_Result.isSuccess : HAPI_Result → Bool
  | .HAPI_RESULT_SUCCESS => true
  | .HAPI_RESULT_FAILURE _ => false

/-- FUnrealObjectInputIdentifier(Object, Options, bIsLeaf) with default options. -/
structure FUnrealObjectInputIdentifier where
  Object : Nat
  bIsLeaf : Bool
deriving DecidableEq, Repr

/-- FUnrealObjectInputHandle: `none` is the default-constructed, invalid handle. -/
abbrev FUnrealObjectInputHandle := Option Nat

/-- FUnrealObjectInputHandle::IsValid. -/
def FUnrealObjectInputHandle.IsValid (h : FUnrealObjectInputHandle) : Bool := h.isSome

/-- HAPI_PartInfo, the fields the translator sets. -/
structure HAPI_PartInfo where
  id : Int
  nameSH : Int
  pointAttributeCount : Int
  primAttributeCount : Int
  vertexAttributeCount : Int
  detailAttributeCount : Int
  vertexCount : Int
  faceCount : Int
  pointCount : Int
deriving DecidableEq, Repr

/-- HAPI_AttributeOwner. -/
inductive HAPI_AttributeOwner where
  | HAPI_ATTROWNER_VERTEX
  | HAPI_ATTROWNER_POINT
  | HAPI_ATTROWNER_PRIM
  | HAPI_ATTROWNER_DETAIL
  | HAPI_ATTROWNER_INVALID
deriving DecidableEq, Repr

/-- HAPI_AttributeInfo, the fields the translator sets (storage is always float). -/
structure HAPI_AttributeInfo where
  count : Int
  tupleSize : Int
  exists_ : Bool
  owner : HAPI_AttributeOwner
  originalOwner : HAPI_AttributeOwner
deriving DecidableEq, Repr

/-- The four material parameter maps handed to CreateHoudiniMeshAttributes. -/
structure MaterialParameters where
  ScalarMaterialParameters : List (String × List ℚ)
  VectorMaterialParameters : List (String × List ℚ)
  TextureMaterialParameters : List (String × List String)
  BoolMaterialParameters : List (String × List Int)
deriving DecidableEq, Repr

/-- The four maps as declared at lines 406-409: empty. -/
def MaterialParameters.empty : MaterialParameters := ⟨[], [], [], []⟩

/-- A call on the remote engine or on the input registry, with its arguments. -/
inductive Call where
  | CreateInputNode (NodeName : String) (ParentNodeId : HAPI_NodeId)
  | CreateNode (ParentNodeId : HAPI_NodeId) (OperatorName : String) (NodeLabel : String)
  | ConnectNodeInput (NodeId : HAPI_NodeId) (InputIndex : Int) (NodeIdToConnect : HAPI_NodeId)
      (OutputIndex : Int)
  | SetNodeDisplay (NodeId : HAPI_NodeId) (OnOff : Int)
  | DeleteNode (NodeId : HAPI_NodeId)
  | SetObjectTransform (NodeId : HAPI_NodeId) (Transform : FTransform)
  | SetPartInfo (NodeId : HAPI_NodeId) (PartId : Int) (Part : HAPI_PartInfo)
  | AddAttribute (NodeId : HAPI_NodeId) (PartId : Int) (Name : String) (Info : HAPI_AttributeInfo)
  | SetAttributeData (NodeId : HAPI_NodeId) (PartId : Int) (Name : String)
      (Info : HAPI_AttributeInfo) (Data : List FVector3f)
  | HapiSetVertexList (Indices : List Int) (NodeId : HAPI_NodeId) (PartId : Int)
  | HapiSetFaceCounts (FaceCounts : List Int) (NodeId : HAPI_NodeId) (PartId : Int)
  | CreateHoudiniMeshAttributes (NodeId : HAPI_NodeId) (PartId : Int) (Count : Int)
      (OutMaterials : List String) (Parameters : MaterialParameters)
  | HapiCommitGeo (NodeId : HAPI_NodeId)
  | EnsureParentsExist (Identifier : FUnrealObjectInputIdentifier) (bCanBeDeleted : Bool)
  | UpdateInputNodeCanBeDeleted (Handle : FUnrealObjectInputHandle) (bCanBeDeleted : Bool)
  | AddNodeOrUpdateNode (Identifier : FUnrealObjectInputIdentifier) (NodeId : HAPI_NodeId)
      (ObjectNodeId : HAPI_NodeId) (bCanBeDeleted : Bool)
deriving DecidableEq, Repr

/-- The calls that go to the remote engine (FHoudiniApi, FHoudiniEngineUtils,
FHoudiniHapiAccessor, FUnrealMeshTranslator); the other three act on the registry. -/
def Call.isRemote : Call → Bool
  | .EnsureParentsExist _ _ => false
  | .UpdateInputNodeCanBeDeleted _ _ => false
  | .AddNodeOrUpdateNode _ _ _ _ => false
  | _ => true

/-- One entry of the trace: the call and whether it reported success. -/
structure Event where
  call : Call
  ok : Bool
deriving DecidableEq, Repr

/-- ABrush, as far as the translator looks at it. -/
structure ABrush where
  IsValid : Bool
  BrushIsValid : Bool
  Object : Nat
  ActorTransform : FTransform
deriving DecidableEq, Repr

/-- UHoudiniInputBrush, as far as the translator looks at it. -/
structure UHoudiniInputBrush where
  ShouldIgnoreThisInput : Bool
  Object : Nat
deriving DecidableEq, Repr

/-- Everything the translator calls and does not define: the remote engine, the
registry, the engine's math and CSG helpers and the header's constants. Each field
answers for the function of the same name, as a function of its arguments: within one
call the translator does not ask the same question twice, except GetHAPINodeId for the
handle found at line 86, asked at line 89 and, when that failed, again at line 109.
IsHoudiniNodeValid is asked at line 120 for the registry's id and at line 129 for the id
of the node just created; one function of the id answers both, so nothing is concluded
here from the answers about the two ids being different. -/
structure World where
  -- FUnrealObjectInputUtils
  NodeExistsAndIsNotDirty : FUnrealObjectInputIdentifier → Bool × FUnrealObjectInputHandle
  GetHAPINodeId : FUnrealObjectInputHandle → Option HAPI_NodeId
  GetDefaultInputNodeName : FUnrealObjectInputIdentifier → String → String
  EnsureParentsExist : FUnrealObjectInputIdentifier → Bool → Bool × FUnrealObjectInputHandle
  UpdateInputNodeCanBeDeleted : FUnrealObjectInputHandle → Bool → Bool
  AddNodeOrUpdateNode : FUnrealObjectInputIdentifier → HAPI_NodeId → HAPI_NodeId → Bool →
    Bool × FUnrealObjectInputHandle
  -- FHoudiniEngineUtils, FHoudiniApi, FHoudiniHapiAccessor
  IsHoudiniNodeValid : HAPI_NodeId → Bool
  HapiGetParentNodeId : HAPI_NodeId → HAPI_NodeId
  CreateInputNode : String → HAPI_NodeId → HAPI_Result × HAPI_NodeId
  CreateNode : HAPI_NodeId → String → String → HAPI_Result × HAPI_NodeId
  ConnectNodeInput : HAPI_NodeId → Int → HAPI_NodeId → Int → HAPI_Result
  SetNodeDisplay : HAPI_NodeId → Int → HAPI_Result
  DeleteNode : HAPI_NodeId → HAPI_Result
  SetObjectTransform : HAPI_NodeId → FTransform → HAPI_Result
  SetPartInfo : HAPI_NodeId → Int → HAPI_PartInfo → HAPI_Result
  AddAttribute : HAPI_NodeId → Int → String → HAPI_AttributeInfo → HAPI_Result
  SetAttributeData : HAPI_NodeId → Int → String → HAPI_AttributeInfo → List FVector3f → Bool
  HapiSetVertexList : List Int → HAPI_NodeId → Int → HAPI_Result
  HapiSetFaceCounts : List Int → HAPI_NodeId → Int → HAPI_Result
  HapiCommitGeo : HAPI_NodeId → HAPI_Result
  -- FUnrealMeshTranslator
  CreateFaceMaterialArray : List UMaterialInterface → List Int → List String
  CreateFaceMaterialArrayWithParameters :
    List UMaterialInterface → List Int → List String × MaterialParameters
  CreateHoudiniMeshAttributes : HAPI_NodeId → Int → Int → List String → MaterialParameters → Bool
  -- UHoudiniInputBrush, UHCsgUtils
  FindIntersectingSubtractiveBrushes : UHoudiniInputBrush → List ABrush
  BuildModelFromBrushes : List ABrush → UModel
  -- FTransform, FMatrix, FVector, UModel; InverseTransformPosition and GetSafeNormal work
  -- in double precision, and their answers here are the floats that the conversions of
  -- lines 282 and 332 make of them
  IsIdentity : FTransform → Bool
  InverseTransformPosition : FTransform → FVector3f → FVector3f
  NmlInvXform : FTransform → FVector3f → FVector3f
  InverseDeterminant : FTransform → ℚ
  GetSafeNormal : FVector3f → FVector3f
  GetGlobalBSPTexelScale : ℚ
  -- float arithmetic: FVector3f::operator/(float), FVector3f::operator-,
  -- FVector3f::DotProduct, and operator/ of two floats; each answers the float it rounds to
  VectorDivide : FVector3f → ℚ → FVector3f
  VectorSubtract : FVector3f → FVector3f → FVector3f
  DotProduct : FVector3f → FVector3f → ℚ
  FloatDivide : ℚ → ℚ → ℚ
  -- HoudiniEnginePrivatePCH.h
  HAPI_UNREAL_SCALE_FACTOR_POSITION : ℚ
  HAPI_UNREAL_ATTRIB_POSITION : String
  HAPI_UNREAL_ATTRIB_NORMAL : String
  HAPI_UNREAL_ATTRIB_UV : String
  -- contents of memory handed out by SetNumUninitialized
  UninitInt : Nat → Int
  UninitVector : Nat → FVector3f

/-! ## Arrays -/

/-- INT32_MAX. -/
def INT32_MAX : Int := 2147483647

/-- TArray::operator[] of the engine as a read: range-checked. -/
def readAt {α : Type} (a : List α) (i : Int) : Option α :=
  if 0 ≤ i then a[i.toNat]? else none

/-- TArray::operator[] of the engine as a write: range-checked. -/
def writeAt {α : Type} (a : List α) (i : Nat) (v : α) : Option (List α) :=
  if i < a.length then some (a.set i v) else none

/-- TArray::SetNumUninitialized on an empty array: n cells of whatever was there. -/
def SetNumUninitialized {α : Type} (garbage : Nat → α) (n : Nat) : List α :=
  (List.range n).map garbage

/-! ## TMap<UMaterialInterface*, int32> -/

/-- TMap<UMaterialInterface*, int32>: the pairs in iteration order (insertion order while
nothing is removed). -/
abbrev MaterialMapT := List (UMaterialInterface × Int)

/-- TMap::FindOrAdd(Key, Value): the value stored for Key, after storing Value when Key
was absent. -/
def FindOrAdd (m : MaterialMapT) (Key : UMaterialInterface) (Value : Int) : MaterialMapT × Int :=
  match m.lookup Key with
  | some v => (m, v)
  | none => (m ++ [(Key, Value)], Value)

/-- TMap::ValueSort with the predicate of line 387, A < B. -/
def ValueSort (m : MaterialMapT) : MaterialMapT :=
  m.insertionSort (fun a b => a.2 < b.2)

/-- Lines 382-400: the material array, the keys of the map by material index. -/
def MaterialsOf (MaterialMap : MaterialMapT) : List UMaterialInterface :=
  if MaterialMap.length > 0 then (ValueSort MaterialMap).map (fun Kvp => Kvp.1) else []

/-! ## The loops of CreateInputNodeForBrush -/

/-- Lines 197-202: one entry of the face count buffer per BSP node, and the number of
vertex indices. -/
def faceCountLoop : List FBspNode → Nat → Int × List Int → Option (Int × List Int)
  | [], _, st => some st
  | Node :: rest, NodeIndex, (NumIndices, FaceCountBuffer) => do
    let FaceCountBuffer ← writeAt FaceCountBuffer NodeIndex (Node.NumVertices : Int)
    if NumIndices + Node.NumVertices > INT32_MAX then none
    else faceCountLoop rest (NodeIndex + 1) (NumIndices + Node.NumVertices, FaceCountBuffer)

/-- Lines 281-284 read in exact arithmetic: the position map (x, y, z) to (x, z, y) /
scaleFactor after the inverse actor transform, with the exact quotient in place of the
float quotient of line 284. -/
def positionOf (w : World) (ActorTransform : FTransform) (Point : FVector3f) : FVector3f :=
  let Point := w.InverseTransformPosition ActorTransform Point
  let Pos : FVector3f := ⟨Point.X, Point.Z, Point.Y⟩
  Pos.div w.HAPI_UNREAL_SCALE_FACTOR_POSITION

/-- Lines 281-284: the uploaded position of one model point, the quotient of line 284
being the float quotient of FVector3f::operator/. -/
def uploadedPositionOf (w : World) (ActorTransform : FTransform) (Point : FVector3f) :
    FVector3f :=
  let Point := w.InverseTransformPosition ActorTransform Point
  let Pos : FVector3f := ⟨Point.X, Point.Z, Point.Y⟩
  w.VectorDivide Pos w.HAPI_UNREAL_SCALE_FACTOR_POSITION

/-- Lines 279-285: the position loop. -/
def positionLoop (w : World) (ActorTransform : FTransform) :
    List FVector3f → Nat → List FVector3f → Option (List FVector3f)
  | [], _, OutPosition => some OutPosition
  | Point :: rest, PosIndex, OutPosition => do
    let OutPosition ← writeAt OutPosition PosIndex (uploadedPositionOf w ActorTransform Point)
    positionLoop w ActorTransform rest (PosIndex + 1) OutPosition

/-- The locals of the block at lines 296-348. -/
structure VertexBuffers where
  iVertex : Nat
  Indices : List Int
  OutNormals : List FVector3f
  OutUV : List FVector3f
  MaterialIndices : List Int
  MaterialMap : MaterialMapT
deriving DecidableEq, Repr

/-- Lines 323-342: the vertices of one BSP node; the first number counts the
iterations left. -/
def nodeVertexLoop (w : World) (ActorTransform : FTransform) (BrushModel : UModel)
    (Node : FBspNode) (Surf : FBspSurf) : Nat → Nat → VertexBuffers → Option VertexBuffers
  | 0, _, b => some b
  | left + 1, NodeVertexIndex, b => do
    let Vert ← readAt BrushModel.Verts (Node.iVertPool + NodeVertexIndex)
    let Indices ← writeAt b.Indices b.iVertex Vert.pVertex
    let N ← readAt BrushModel.Vectors Surf.vNormal
    let N := w.GetSafeNormal (w.NmlInvXform ActorTransform N)
    let OutNormals ← writeAt b.OutNormals b.iVertex ⟨N.X, N.Z, N.Y⟩
    let vU ← readAt BrushModel.Vectors Surf.vTextureU
    let vV ← readAt BrushModel.Vectors Surf.vTextureV
    let Index ← readAt Indices b.iVertex
    let Position ← readAt BrushModel.Points Index
    let Base ← readAt BrushModel.Points Surf.pBase
    let deltaVtx := w.VectorSubtract Position Base
    let U := w.FloatDivide (w.DotProduct deltaVtx vU) w.GetGlobalBSPTexelScale
    let V := w.FloatDivide (-(w.DotProduct deltaVtx vV)) w.GetGlobalBSPTexelScale
    let OutUV ← writeAt b.OutUV b.iVertex ⟨U, V, 0⟩
    nodeVertexLoop w ActorTransform BrushModel Node Surf left (NodeVertexIndex + 1)
      { b with iVertex := b.iVertex + 1, Indices := Indices, OutNormals := OutNormals,
               OutUV := OutUV }

/-- Lines 319-348: the loop over the BSP nodes. -/
def nodeLoop (w : World) (ActorTransform : FTransform) (BrushModel : UModel) :
    List FBspNode → Nat → VertexBuffers → Option VertexBuffers
  | [], _, b => some b
  | Node :: rest, NodeIndex, b => do
    let Surf ← readAt BrushModel.Surfs Node.iSurf
    let b ← nodeVertexLoop w ActorTransform BrushModel Node Surf Node.NumVertices 0 b
    let found := FindOrAdd b.MaterialMap Surf.Material b.MaterialMap.length
    let MaterialIndices ← writeAt b.MaterialIndices NodeIndex found.2
    nodeLoop w ActorTransform BrushModel rest (NodeIndex + 1)
      { b with MaterialMap := found.1, MaterialIndices := MaterialIndices }

/-- Lines 304-348: the buffers as allocated, then filled by the loop. -/
def buildVertexBuffers (w : World) (ActorTransform : FTransform) (BrushModel : UModel)
    (NumIndices : Int) : Option VertexBuffers :=
  if NumIndices < 0 then none
  else
    nodeLoop w ActorTransform BrushModel BrushModel.Nodes 0
      { iVertex := 0
        Indices := SetNumUninitialized w.UninitInt NumIndices.toNat
        OutNormals := SetNumUninitialized w.UninitVector NumIndices.toNat
        OutUV := SetNumUninitialized w.UninitVector NumIndices.toNat
        MaterialIndices := SetNumUninitialized w.UninitInt BrushModel.Nodes.length
        MaterialMap := [] }

/-! ## CreateInputNodeForBrush -/

/-- What a run leaves behind: the returned value (`none` when the run stopped at a
failed range check), the two reference parameters, and the calls issued. -/
structure Outcome where
  ret : Option Bool
  InputNodeId : HAPI_NodeId
  OutHandle : FUnrealObjectInputHandle
  trace : List Event
deriving DecidableEq, Repr

/-- The reference parameters and the trace at a point of the run. -/
structure Frame where
  InputNodeId : HAPI_NodeId
  OutHandle : FUnrealObjectInputHandle
  trace : List Event
deriving DecidableEq, Repr

/-- Record a call and its result. -/
def Frame.log (f : Frame) (c : Call) (ok : Bool) : Frame :=
  { f with trace := f.trace ++ [⟨c, ok⟩] }

/-- Leave the function. -/
def Frame.exit (f : Frame) (r : Option Bool) : Outcome :=
  ⟨r, f.InputNodeId, f.OutHandle, f.trace⟩

/-- Modelled from the spec: the macros HOUDINI_CHECK_ERROR_RETURN(call, false), for a
HAPI_Result, and HOUDINI_CHECK_RETURN(call, false), for a bool, of
HoudiniEnginePrivatePCH.h, which is not among the sources; any non-success result ends the
rebuild. What is issued by a run of such statements, each call paired with its answer:
the calls in order through the first one that fails. -/
def issued : List (Call × Bool) → List Event
  | [] => []
  | (c, ok) :: rest => ⟨c, ok⟩ :: (if ok then issued rest else [])

/-- Modelled from the spec: a run of consecutive HOUDINI_CHECK_ERROR_RETURN /
HOUDINI_CHECK_RETURN statements (macros of HoudiniEnginePrivatePCH.h, which is not among
the sources) followed by the rest of the function: return false at the first call that
fails. -/
def checkAll (f : Frame) (steps : List (Call × Bool)) (k : Frame → Outcome) : Outcome :=
  let f : Frame := { f with trace := f.trace ++ issued steps }
  if steps.all (fun s => s.2) then k f else f.exit (some false)

/-- Lines 226-238: the part info. -/
def makePart (NumIndices : Int) (FaceCountBuffer : List Int) (NumPoints : Nat) : HAPI_PartInfo :=
  { id := 0, nameSH := 0
    pointAttributeCount := 0, primAttributeCount := 0
    vertexAttributeCount := 0, detailAttributeCount := 0
    vertexCount := NumIndices
    faceCount := FaceCountBuffer.length
    pointCount := NumPoints }

/-- Lines 245-252: the attribute info of the point vectors. -/
def AttributeInfoPointVector (NumPoints : Nat) : HAPI_AttributeInfo :=
  { count := NumPoints, tupleSize := 3, exists_ := true
    owner := .HAPI_ATTROWNER_POINT, originalOwner := .HAPI_ATTROWNER_INVALID }

/-- Lines 261-268: the attribute info of the vertex vectors. -/
def AttributeInfoVertexVector (NumIndices : Int) : HAPI_AttributeInfo :=
  { count := NumIndices, tupleSize := 3, exists_ := true
    owner := .HAPI_ATTROWNER_VERTEX, originalOwner := .HAPI_ATTROWNER_INVALID }

/-- Lines 402-431: the per-face material names and, when the parameters are exported,
the four parameter maps; otherwise the maps stay as declared, empty. -/
def faceMaterials (w : World) (bInExportMaterialParametersAsAttributes : Bool)
    (b : VertexBuffers) : List String × MaterialParameters :=
  let Materials := MaterialsOf b.MaterialMap
  if bInExportMaterialParametersAsAttributes then
    w.CreateFaceMaterialArrayWithParameters Materials b.MaterialIndices
  else
    (w.CreateFaceMaterialArray Materials b.MaterialIndices, MaterialParameters.empty)

/-- Lines 350-448: the checked calls that follow the vertex loop, each with its answer. -/
def vertexDataSteps (w : World) (bInExportMaterialParametersAsAttributes : Bool)
    (InputNodeId : HAPI_NodeId) (NumNodes : Nat) (NumIndices : Int)
    (FaceCountBuffer : List Int) (b : VertexBuffers) : List (Call × Bool) :=
  let AttributeInfoVertexVector := AttributeInfoVertexVector NumIndices
  let face := faceMaterials w bInExportMaterialParametersAsAttributes b
  [ (.HapiSetVertexList b.Indices InputNodeId 0,
      (w.HapiSetVertexList b.Indices InputNodeId 0).isSuccess),
    (.HapiSetFaceCounts FaceCountBuffer InputNodeId 0,
      (w.HapiSetFaceCounts FaceCountBuffer InputNodeId 0).isSuccess),
    (.AddAttribute InputNodeId 0 w.HAPI_UNREAL_ATTRIB_NORMAL AttributeInfoVertexVector,
      (w.AddAttribute InputNodeId 0 w.HAPI_UNREAL_ATTRIB_NORMAL
        AttributeInfoVertexVector).isSuccess),
    (.SetAttributeData InputNodeId 0 w.HAPI_UNREAL_ATTRIB_NORMAL AttributeInfoVertexVector
        b.OutNormals,
      w.SetAttributeData InputNodeId 0 w.HAPI_UNREAL_ATTRIB_NORMAL AttributeInfoVertexVector
        b.OutNormals),
    (.AddAttribute InputNodeId 0 w.HAPI_UNREAL_ATTRIB_UV AttributeInfoVertexVector,
      (w.AddAttribute InputNodeId 0 w.HAPI_UNREAL_ATTRIB_UV
        AttributeInfoVertexVector).isSuccess),
    (.SetAttributeData InputNodeId 0 w.HAPI_UNREAL_ATTRIB_UV AttributeInfoVertexVector b.OutUV,
      w.SetAttributeData InputNodeId 0 w.HAPI_UNREAL_ATTRIB_UV AttributeInfoVertexVector
        b.OutUV),
    (.CreateHoudiniMeshAttributes InputNodeId 0 NumNodes face.1 face.2,
      w.CreateHoudiniMeshAttributes InputNodeId 0 NumNodes face.1 face.2),
    (.HapiCommitGeo InputNodeId, (w.HapiCommitGeo InputNodeId).isSuccess) ]

/-- Lines 350-456: the uploads that follow the vertex loop, the commit and the
registration. -/
def uploadVertexData (w : World) (Identifier : FUnrealObjectInputIdentifier)
    (bInExportMaterialParametersAsAttributes : Bool) (bInputNodesCanBeDeleted : Bool)
    (InputObjectNodeId : HAPI_NodeId) (NumNodes : Nat) (NumIndices : Int)
    (FaceCountBuffer : List Int) (b : VertexBuffers) (f : Frame) : Outcome :=
  let InputNodeId := f.InputNodeId
  checkAll f
    (vertexDataSteps w bInExportMaterialParametersAsAttributes InputNodeId NumNodes NumIndices
      FaceCountBuffer b)
    fun f =>
  let added := w.AddNodeOrUpdateNode Identifier InputNodeId InputObjectNodeId
    bInputNodesCanBeDeleted
  let f := f.log
    (.AddNodeOrUpdateNode Identifier InputNodeId InputObjectNodeId bInputNodesCanBeDeleted)
    added.1
  let f := if added.1 then { f with OutHandle := added.2 } else f
  f.exit (some true)

/-- Lines 240-256: the checked calls that set the part and declare the positions. -/
def partSteps (w : World) (InputNodeId : HAPI_NodeId) (NumPoints : Nat) (NumIndices : Int)
    (FaceCountBuffer : List Int) : List (Call × Bool) :=
  let Part := makePart NumIndices FaceCountBuffer NumPoints
  let AttributeInfoPointVector := AttributeInfoPointVector NumPoints
  [ (.SetPartInfo InputNodeId 0 Part, (w.SetPartInfo InputNodeId 0 Part).isSuccess),
    (.AddAttribute InputNodeId 0 w.HAPI_UNREAL_ATTRIB_POSITION AttributeInfoPointVector,
      (w.AddAttribute InputNodeId 0 w.HAPI_UNREAL_ATTRIB_POSITION
        AttributeInfoPointVector).isSuccess) ]

/-- Lines 288-289: the checked call that uploads the positions. -/
def positionSteps (w : World) (InputNodeId : HAPI_NodeId) (NumPoints : Nat)
    (OutPosition : List FVector3f) : List (Call × Bool) :=
  let AttributeInfoPointVector := AttributeInfoPointVector NumPoints
  [ (.SetAttributeData InputNodeId 0 w.HAPI_UNREAL_ATTRIB_POSITION AttributeInfoPointVector
        OutPosition,
      w.SetAttributeData InputNodeId 0 w.HAPI_UNREAL_ATTRIB_POSITION AttributeInfoPointVector
        OutPosition) ]

/-- Lines 221-456: the part, the positions, the vertex data. -/
def uploadGeometry (w : World) (ActorTransform : FTransform) (BrushModel : UModel)
    (Identifier : FUnrealObjectInputIdentifier)
    (bInExportMaterialParametersAsAttributes : Bool) (bInputNodesCanBeDeleted : Bool)
    (InputObjectNodeId : HAPI_NodeId) (NumIndices : Int) (FaceCountBuffer : List Int)
    (f : Frame) : Outcome :=
  let InputNodeId := f.InputNodeId
  let NumPoints := BrushModel.Points.length
  let NumNodes := BrushModel.Nodes.length
  checkAll f (partSteps w InputNodeId NumPoints NumIndices FaceCountBuffer) fun f =>
  match positionLoop w ActorTransform BrushModel.Points 0
      (List.replicate NumPoints ⟨0, 0, 0⟩) with
  | none => f.exit none
  | some OutPosition =>
  checkAll f (positionSteps w InputNodeId NumPoints OutPosition) fun f =>
  match buildVertexBuffers w ActorTransform BrushModel NumIndices with
  | none => f.exit none
  | some b =>
    uploadVertexData w Identifier bInExportMaterialParametersAsAttributes
      bInputNodesCanBeDeleted InputObjectNodeId NumNodes NumIndices FaceCountBuffer b f

/-- Lines 209-219: the checked call that sets the transform of the object node, issued
unless the actor transform equals the identity. -/
def transformSteps (w : World) (ActorTransform : FTransform) (InputObjectNodeId : HAPI_NodeId) :
    List (Call × Bool) :=
  if !w.IsIdentity ActorTransform then
    [ (.SetObjectTransform InputObjectNodeId ActorTransform,
        (w.SetObjectTransform InputObjectNodeId ActorTransform).isSuccess) ]
  else []

/-- Line 150: the sign of the determinant of the inverse actor transform. The value is
not read again in the function. -/
def NScale (w : World) (ActorTransform : FTransform) : ℚ :=
  if w.InverseDeterminant ActorTransform < 0 then -1 else 1

/-- Lines 145-456: everything after the input node is known. The brush model is the
one built from the intersecting brushes (UpdateCachedData, which stores it in the input
object, is not part of the trace). -/
def uploadBrush (w : World) (InputBrushObject : UHoudiniInputBrush) (BrushActor : ABrush)
    (Identifier : FUnrealObjectInputIdentifier)
    (bInExportMaterialParametersAsAttributes : Bool) (bInputNodesCanBeDeleted : Bool)
    (InputObjectNodeId : HAPI_NodeId) (f : Frame) : Outcome :=
  let ActorTransform := BrushActor.ActorTransform
  let BrushActors := w.FindIntersectingSubtractiveBrushes InputBrushObject
  let BrushModel := w.BuildModelFromBrushes BrushActors
  let NumPoints := BrushModel.Points.length
  if NumPoints = 0 then
    let f := f.log (.DeleteNode InputObjectNodeId) (w.DeleteNode InputObjectNodeId).isSuccess
    { f with InputNodeId := -1 }.exit (some true)
  else
  let NumNodes := BrushModel.Nodes.length
  match faceCountLoop BrushModel.Nodes 0 (0, SetNumUninitialized w.UninitInt NumNodes) with
  | none => f.exit none
  | some (NumIndices, FaceCountBuffer) =>
  checkAll f (transformSteps w ActorTransform InputObjectNodeId) fun f =>
  uploadGeometry w ActorTransform BrushModel Identifier bInExportMaterialParametersAsAttributes
    bInputNodesCanBeDeleted InputObjectNodeId NumIndices FaceCountBuffer f

/-- Lines 135-142: the checked calls that create the clean node, connect the input node
to it and set its display flag. -/
def cleanNodeSteps (w : World) (NewNodeId : HAPI_NodeId) : List (Call × Bool) :=
  let InputObjectNodeId := w.HapiGetParentNodeId NewNodeId
  let clean := w.CreateNode InputObjectNodeId "clean" "clean"
  let CleanNodeId := clean.2
  [ (.CreateNode InputObjectNodeId "clean" "clean", clean.1.isSuccess),
    (.ConnectNodeInput CleanNodeId 0 NewNodeId 0,
      (w.ConnectNodeInput CleanNodeId 0 NewNodeId 0).isSuccess),
    (.SetNodeDisplay CleanNodeId 1, (w.SetNodeDisplay CleanNodeId 1).isSuccess) ]

/-- Lines 118-143: the input node is the registered one when it is still valid, a new
one otherwise; then the upload. -/
def createOrUpdateNode (w : World) (InputBrushObject : UHoudiniInputBrush) (BrushActor : ABrush)
    (Identifier : FUnrealObjectInputIdentifier) (FinalInputNodeName : String)
    (ParentNodeId : HAPI_NodeId)
    (bInExportMaterialParametersAsAttributes : Bool) (bInputNodesCanBeDeleted : Bool)
    (f : Frame) : Outcome :=
  if w.IsHoudiniNodeValid f.InputNodeId then
    uploadBrush w InputBrushObject BrushActor Identifier bInExportMaterialParametersAsAttributes
      bInputNodesCanBeDeleted (w.HapiGetParentNodeId f.InputNodeId) f
  else
    let created := w.CreateInputNode FinalInputNodeName ParentNodeId
    let NewNodeId := created.2
    checkAll f [ (.CreateInputNode FinalInputNodeName ParentNodeId, created.1.isSuccess) ]
      fun f =>
    if !w.IsHoudiniNodeValid NewNodeId then f.exit (some false)
    else
    let f := { f with InputNodeId := NewNodeId }
    let InputObjectNodeId := w.HapiGetParentNodeId NewNodeId
    checkAll f (cleanNodeSteps w NewNodeId) fun f =>
    uploadBrush w InputBrushObject BrushActor Identifier bInExportMaterialParametersAsAttributes
      bInputNodesCanBeDeleted InputObjectNodeId f

/-- The identifier built at line 84. -/
def identifierOf (BrushActor : ABrush) : FUnrealObjectInputIdentifier :=
  ⟨BrushActor.Object, true⟩

/-- FUnrealBrushTranslator::CreateInputNodeForBrush (lines 57-457). -/
def CreateInputNodeForBrush (w : World) (InputBrushObject : UHoudiniInputBrush)
    (BrushActor : ABrush) (ExcludeActors : Option (List Nat)) (InputNodeId : HAPI_NodeId)
    (NodeName : String) (bInExportMaterialParametersAsAttributes : Bool)
    (OutHandle : FUnrealObjectInputHandle) (bInputNodesCanBeDeleted : Bool) : Outcome :=
  let _ := ExcludeActors
  let f : Frame := ⟨InputNodeId, OutHandle, []⟩
  if !BrushActor.IsValid then f.exit (some false)
  else if !BrushActor.BrushIsValid then f.exit (some false)
  else if InputBrushObject.ShouldIgnoreThisInput then f.exit (some false)
  else
  let Identifier := identifierOf BrushActor
  let found := w.NodeExistsAndIsNotDirty Identifier
  let Handle := found.2
  match (if found.1 then w.GetHAPINodeId Handle else none) with
  | some NodeId =>
    let f := if !bInputNodesCanBeDeleted then
        f.log (.UpdateInputNodeCanBeDeleted Handle bInputNodesCanBeDeleted)
          (w.UpdateInputNodeCanBeDeleted Handle bInputNodesCanBeDeleted)
      else f
    { f with OutHandle := Handle, InputNodeId := NodeId }.exit (some true)
  | none =>
    let FinalInputNodeName := w.GetDefaultInputNodeName Identifier NodeName
    let parents := w.EnsureParentsExist Identifier bInputNodesCanBeDeleted
    let f := f.log (.EnsureParentsExist Identifier bInputNodesCanBeDeleted) parents.1
    let ParentNodeId : HAPI_NodeId :=
      if parents.1 then (w.GetHAPINodeId parents.2).getD (-1) else -1
    let f := { f with InputNodeId :=
      if FUnrealObjectInputHandle.IsValid Handle then (w.GetHAPINodeId Handle).getD (-1) else -1 }
    createOrUpdateNode w InputBrushObject BrushActor Identifier FinalInputNodeName ParentNodeId
      bInExportMaterialParametersAsAttributes bInputNodesCanBeDeleted f

/-! ## Notions used to state the properties -/

/-- The calls that define or upload geometry: SetPartInfo, AddAttribute, SetAttributeData
(also the ones inside CreateHoudiniMeshAttributes), the vertex list, the face counts and
the commit. -/
def Call.isGeometryCall : Call → Bool
  | .SetPartInfo _ _ _ => true
  | .AddAttribute _ _ _ _ => true
  | .SetAttributeData _ _ _ _ _ => true
  | .HapiSetVertexList _ _ _ => true
  | .HapiSetFaceCounts _ _ _ => true
  | .CreateHoudiniMeshAttributes _ _ _ _ _ => true
  | .HapiCommitGeo _ => true
  | _ => false

/-- The call is AddNodeOrUpdateNode. -/
def Call.isAddNodeOrUpdateNode : Call → Bool
  | .AddNodeOrUpdateNode _ _ _ _ => true
  | _ => false

/-- The brush model built at lines 155-158. -/
def brushModelOf (w : World) (InputBrushObject : UHoudiniInputBrush) : UModel :=
  w.BuildModelFromBrushes (w.FindIntersectingSubtractiveBrushes InputBrushObject)

/-- The value of InputNodeId after lines 107-115: the node id the registry holds for the
handle found at line 86, or -1. -/
def registeredNodeId (w : World) (BrushActor : ABrush) : HAPI_NodeId :=
  let Handle := (w.NodeExistsAndIsNotDirty (identifierOf BrushActor)).2
  if FUnrealObjectInputHandle.IsValid Handle then (w.GetHAPINodeId Handle).getD (-1) else -1

/-- The answer of CreateInputNode at line 127, with the name and the parent of lines
100-102. -/
def createdNode (w : World) (BrushActor : ABrush) (NodeName : String)
    (bInputNodesCanBeDeleted : Bool) : HAPI_Result × HAPI_NodeId :=
  let Identifier := identifierOf BrushActor
  let parents := w.EnsureParentsExist Identifier bInputNodesCanBeDeleted
  w.CreateInputNode (w.GetDefaultInputNodeName Identifier NodeName)
    (if parents.1 then (w.GetHAPINodeId parents.2).getD (-1) else -1)

/-- The input node the geometry goes to: the registered one when it is still valid, the
newly created one otherwise (lines 120-133). -/
def targetNodeId (w : World) (BrushActor : ABrush) (NodeName : String)
    (bInputNodesCanBeDeleted : Bool) : HAPI_NodeId :=
  if w.IsHoudiniNodeValid (registeredNodeId w BrushActor) then registeredNodeId w BrushActor
  else (createdNode w BrushActor NodeName bInputNodesCanBeDeleted).2

/-- The run gets to the model building of line 145: the arguments pass lines 67-74, the
node is not reused at lines 86-98, and lines 120-143 either find the registered node
valid or create a new input node and its clean node without a failure. -/
def ReachesModelBuilding (w : World) (InputBrushObject : UHoudiniInputBrush)
    (BrushActor : ABrush) (NodeName : String) (bInputNodesCanBeDeleted : Bool) : Prop :=
  BrushActor.IsValid = true ∧ BrushActor.BrushIsValid = true ∧
  InputBrushObject.ShouldIgnoreThisInput = false ∧
  ((w.NodeExistsAndIsNotDirty (identifierOf BrushActor)).1 = true →
    w.GetHAPINodeId (w.NodeExistsAndIsNotDirty (identifierOf BrushActor)).2 = none) ∧
  (w.IsHoudiniNodeValid (registeredNodeId w BrushActor) = true ∨
    ((createdNode w BrushActor NodeName bInputNodesCanBeDeleted).1.isSuccess = true ∧
     w.IsHoudiniNodeValid (createdNode w BrushActor NodeName bInputNodesCanBeDeleted).2 = true ∧
     (let NewNodeId := (createdNode w BrushActor NodeName bInputNodesCanBeDeleted).2
      let clean := w.CreateNode (w.HapiGetParentNodeId NewNodeId) "clean" "clean"
      clean.1.isSuccess = true ∧
      (w.ConnectNodeInput clean.2 0 NewNodeId 0).isSuccess = true ∧
      (w.SetNodeDisplay clean.2 1).isSuccess = true)))

instance (w : World) (InputBrushObject : UHoudiniInputBrush) (BrushActor : ABrush)
    (NodeName : String) (bInputNodesCanBeDeleted : Bool) :
    Decidable (ReachesModelBuilding w InputBrushObject BrushActor NodeName
      bInputNodesCanBeDeleted) := by
  unfold ReachesModelBuilding
  infer_instance

/-- The calls issued before model building by a run that reaches it: the parents, and
for a new node its creation, its clean node, the connection and the display flag. -/
def setupTrace (w : World) (BrushActor : ABrush) (NodeName : String)
    (bInputNodesCanBeDeleted : Bool) : List Event :=
  let Identifier := identifierOf BrushActor
  let parents := w.EnsureParentsExist Identifier bInputNodesCanBeDeleted
  let ParentNodeId : HAPI_NodeId :=
    if parents.1 then (w.GetHAPINodeId parents.2).getD (-1) else -1
  let NewNodeId := (createdNode w BrushActor NodeName bInputNodesCanBeDeleted).2
  let InputObjectNodeId := w.HapiGetParentNodeId NewNodeId
  let CleanNodeId := (w.CreateNode InputObjectNodeId "clean" "clean").2
  ⟨.EnsureParentsExist Identifier bInputNodesCanBeDeleted, parents.1⟩ ::
    if w.IsHoudiniNodeValid (registeredNodeId w BrushActor) then []
    else
      [ ⟨.CreateInputNode (w.GetDefaultInputNodeName Identifier NodeName) ParentNodeId, true⟩,
        ⟨.CreateNode InputObjectNodeId "clean" "clean", true⟩,
        ⟨.ConnectNodeInput CleanNodeId 0 NewNodeId 0, true⟩,
        ⟨.SetNodeDisplay CleanNodeId 1, true⟩ ]

/-- The cursor has passed only valid point indices. -/
def Filled (b : VertexBuffers) (NumPoints : Nat) : Prop :=
  ∀ i, i < b.iVertex → ∃ x, b.Indices[i]? = some x ∧ 0 ≤ x ∧ x < (NumPoints : Int)

/-! ## Materials -/

/-- The distinct members of a list, in the order in which they are first seen. -/
def firstSeen : List UMaterialInterface → List UMaterialInterface
  | [] => []
  | x :: xs => x :: (firstSeen xs).filter (fun y => decide (y ≠ x))

/-- Lines 344-347 along the face materials: the map that results and the material index
of every face. -/
def materialLoop : MaterialMapT → List UMaterialInterface → MaterialMapT × List Int
  | m, [] => (m, [])
  | m, x :: xs =>
    let found := FindOrAdd m x m.length
    let r := materialLoop found.1 xs
    (r.1, found.2 :: r.2)

/-- The keys of the map, in iteration order. -/
def keysOf (m : MaterialMapT) : List UMaterialInterface := m.map Prod.fst

/-- The values of the map count its entries upwards from o, in iteration order. -/
def WellNumbered (m : MaterialMapT) (o : Nat) : Prop :=
  m.map Prod.snd = (List.range' o m.length).map (fun (i : Nat) => (i : Int))

/-! ## Runs in closed form -/

/-- A run in closed form: the checked calls in order, each with its answer; the unchecked
calls that follow them when none of them failed; and the value returned in that case
(`none` for a run stopped by a range check). -/
structure Script where
  steps : List (Call × Bool)
  tail : List Event
  final : Option Bool

/-- The calls a script issues: the checked ones through the first failure, then the
unchecked ones when there was no failure. -/
def Script.trace (s : Script) : List Event :=
  issued s.steps ++ if s.steps.all (fun c => c.2) then s.tail else []

/-- The value a script returns: false when a checked call failed. -/
def Script.ret (s : Script) : Option Bool :=
  if s.steps.all (fun c => c.2) then s.final else some false

/-- A script run after some checked calls. -/
def Script.after (pre : List (Call × Bool)) (s : Script) : Script :=
  ⟨pre ++ s.steps, s.tail, s.final⟩

/-- A run stopped by a failed range check. -/
def Script.stopped : Script := ⟨[], [], none⟩

/-- The script of lines 350-456, see uploadVertexData. -/
def vertexDataScript (w : World) (Identifier : FUnrealObjectInputIdentifier)
    (bExport : Bool) (bInputNodesCanBeDeleted : Bool) (InputObjectNodeId : HAPI_NodeId)
    (InputNodeId : HAPI_NodeId) (NumNodes : Nat) (NumIndices : Int)
    (FaceCountBuffer : List Int) (b : VertexBuffers) : Script :=
  ⟨vertexDataSteps w bExport InputNodeId NumNodes NumIndices FaceCountBuffer b,
   [⟨.AddNodeOrUpdateNode Identifier InputNodeId InputObjectNodeId bInputNodesCanBeDeleted,
      (w.AddNodeOrUpdateNode Identifier InputNodeId InputObjectNodeId
        bInputNodesCanBeDeleted).1⟩],
   some true⟩

/-- The script of lines 221-456, see uploadGeometry. -/
def geometryScript (w : World) (ActorTransform : FTransform) (BrushModel : UModel)
    (Identifier : FUnrealObjectInputIdentifier)
    (bExport : Bool) (bInputNodesCanBeDeleted : Bool) (InputObjectNodeId : HAPI_NodeId)
    (InputNodeId : HAPI_NodeId) (NumIndices : Int) (FaceCountBuffer : List Int) : Script :=
  Script.after
    (partSteps w InputNodeId BrushModel.Points.length NumIndices FaceCountBuffer)
    (match positionLoop w ActorTransform BrushModel.Points 0
        (List.replicate BrushModel.Points.length ⟨0, 0, 0⟩) with
     | none => Script.stopped
     | some OutPosition =>
       Script.after (positionSteps w InputNodeId BrushModel.Points.length OutPosition)
         (match buildVertexBuffers w ActorTransform BrushModel NumIndices with
          | none => Script.stopped
          | some b =>
            vertexDataScript w Identifier bExport bInputNodesCanBeDeleted InputObjectNodeId
              InputNodeId BrushModel.Nodes.length NumIndices FaceCountBuffer b))

/-- The script of lines 145-456, see uploadBrush. -/
def brushScript (w : World) (InputBrushObject : UHoudiniInputBrush) (BrushActor : ABrush)
    (Identifier : FUnrealObjectInputIdentifier)
    (bExport : Bool) (bInputNodesCanBeDeleted : Bool) (InputObjectNodeId : HAPI_NodeId)
    (InputNodeId : HAPI_NodeId) : Script :=
  let BrushModel := brushModelOf w InputBrushObject
  if BrushModel.Points.length = 0 then
    ⟨[], [⟨.DeleteNode InputObjectNodeId, (w.DeleteNode InputObjectNodeId).isSuccess⟩],
      some true⟩
  else
    match faceCountLoop BrushModel.Nodes 0
        (0, SetNumUninitialized w.UninitInt BrushModel.Nodes.length) with
    | none => Script.stopped
    | some (NumIndices, FaceCountBuffer) =>
      Script.after (transformSteps w BrushActor.ActorTransform InputObjectNodeId)
        (geometryScript w BrushActor.ActorTransform BrushModel Identifier bExport
          bInputNodesCanBeDeleted InputObjectNodeId InputNodeId NumIndices FaceCountBuffer)

/-- The script of lines 118-456, see createOrUpdateNode. -/
def nodeScript (w : World) (InputBrushObject : UHoudiniInputBrush) (BrushActor : ABrush)
    (Identifier : FUnrealObjectInputIdentifier) (FinalInputNodeName : String)
    (ParentNodeId : HAPI_NodeId) (bExport : Bool) (bInputNodesCanBeDeleted : Bool)
    (InputNodeId : HAPI_NodeId) : Script :=
  if w.IsHoudiniNodeValid InputNodeId then
    brushScript w InputBrushObject BrushActor Identifier bExport bInputNodesCanBeDeleted
      (w.HapiGetParentNodeId InputNodeId) InputNodeId
  else
    let created := w.CreateInputNode FinalInputNodeName ParentNodeId
    Script.after [ (.CreateInputNode FinalInputNodeName ParentNodeId, created.1.isSuccess) ]
      (if !w.IsHoudiniNodeValid created.2 then ⟨[], [], some false⟩
       else
        Script.after (cleanNodeSteps w created.2)
          (brushScript w InputBrushObject BrushActor Identifier bExport bInputNodesCanBeDeleted
            (w.HapiGetParentNodeId created.2) created.2))

/-- The script of a call that is not turned away at lines 67-74 and does not reuse a
registered node at lines 86-98. -/
def rebuildScript (w : World) (InputBrushObject : UHoudiniInputBrush) (BrushActor : ABrush)
    (NodeName : String) (bExport : Bool) (bInputNodesCanBeDeleted : Bool) : Script :=
  let Identifier := identifierOf BrushActor
  let parents := w.EnsureParentsExist Identifier bInputNodesCanBeDeleted
  nodeScript w InputBrushObject BrushActor Identifier
    (w.GetDefaultInputNodeName Identifier NodeName)
    (if parents.1 then (w.GetHAPINodeId parents.2).getD (-1) else -1)
    bExport bInputNodesCanBeDeleted (registeredNodeId w BrushActor)

/-- The outcome continues the frame as the script says. -/
def Runs (o : Outcome) (f : Frame) (s : Script) : Prop :=
  o.trace = f.trace ++ s.trace ∧ o.ret = s.ret

/-- The script of a whole call: nothing and false for a call turned away at lines 67-74,
nothing and true for a reuse at lines 86-98, the rebuild script otherwise. -/
def callScript (w : World) (InputBrushObject : UHoudiniInputBrush) (BrushActor : ABrush)
    (NodeName : String) (bExport : Bool) (bInputNodesCanBeDeleted : Bool) : Script :=
  if !BrushActor.IsValid || !BrushActor.BrushIsValid || InputBrushObject.ShouldIgnoreThisInput
  then ⟨[], [], some false⟩
  else
    let found := w.NodeExistsAndIsNotDirty (identifierOf BrushActor)
    match (if found.1 then w.GetHAPINodeId found.2 else none) with
    | some _ => ⟨[], [], some true⟩
    | none => rebuildScript w InputBrushObject BrushActor NodeName bExport
        bInputNodesCanBeDeleted

/-- The registry call that precedes the script of a whole call: none for a call turned
away, the update of the can-be-deleted flag for a reuse with bInputNodesCanBeDeleted off,
EnsureParentsExist for a rebuild. -/
def callHead (w : World) (InputBrushObject : UHoudiniInputBrush) (BrushActor : ABrush)
    (bInputNodesCanBeDeleted : Bool) : List Event :=
  if !BrushActor.IsValid || !BrushActor.BrushIsValid || InputBrushObject.ShouldIgnoreThisInput
  then []
  else
    let found := w.NodeExistsAndIsNotDirty (identifierOf BrushActor)
    match (if found.1 then w.GetHAPINodeId found.2 else none) with
    | some _ =>
      if !bInputNodesCanBeDeleted then
        [⟨.UpdateInputNodeCanBeDeleted found.2 bInputNodesCanBeDeleted,
          w.UpdateInputNodeCanBeDeleted found.2 bInputNodesCanBeDeleted⟩]
      else []
    | none =>
      [⟨.EnsureParentsExist (identifierOf BrushActor) bInputNodesCanBeDeleted,
        (w.EnsureParentsExist (identifierOf BrushActor) bInputNodesCanBeDeleted).1⟩]

/-- Every AddNodeOrUpdateNode call of the trace comes directly after a commit of the same
node that succeeded. -/
def CommitBeforeAdd (tr : List Event) : Prop :=
  ∀ (pre post : List Event) (Identifier : FUnrealObjectInputIdentifier)
    (NodeId ObjectNodeId : HAPI_NodeId) (bCanBeDeleted ok : Bool),
    tr = pre ++ ⟨.AddNodeOrUpdateNode Identifier NodeId ObjectNodeId bCanBeDeleted, ok⟩ :: post →
    ∃ pre', pre = pre' ++ [⟨.HapiCommitGeo NodeId, true⟩]

/-- The script registers only directly after a successful commit, and only when it
returns true. -/
def RegistersAfterCommit (s : Script) : Prop :=
  CommitBeforeAdd s.trace ∧
  ((∃ e ∈ s.trace, e.call.isAddNodeOrUpdateNode = true) → s.ret = some true)

/-! ## Sample worlds and models -/

/-- A remote engine and a registry where every call succeeds and nothing is registered;
the brushes build the given model; the actor transform 0 is the identity. -/
def okWorld (BrushModel : UModel) : World where
  NodeExistsAndIsNotDirty _ := (false, none)
  GetHAPINodeId _ := none
  GetDefaultInputNodeName _ n := n
  EnsureParentsExist _ _ := (true, some 1)
  UpdateInputNodeCanBeDeleted _ _ := true
  AddNodeOrUpdateNode _ _ _ _ := (true, some 7)
  IsHoudiniNodeValid n := decide (0 ≤ n)
  HapiGetParentNodeId n := n + 100
  CreateInputNode _ _ := (.HAPI_RESULT_SUCCESS, 5)
  CreateNode _ _ _ := (.HAPI_RESULT_SUCCESS, 6)
  ConnectNodeInput _ _ _ _ := .HAPI_RESULT_SUCCESS
  SetNodeDisplay _ _ := .HAPI_RESULT_SUCCESS
  DeleteNode _ := .HAPI_RESULT_SUCCESS
  SetObjectTransform _ _ := .HAPI_RESULT_SUCCESS
  SetPartInfo _ _ _ := .HAPI_RESULT_SUCCESS
  AddAttribute _ _ _ _ := .HAPI_RESULT_SUCCESS
  SetAttributeData _ _ _ _ _ := true
  HapiSetVertexList _ _ _ := .HAPI_RESULT_SUCCESS
  HapiSetFaceCounts _ _ _ := .HAPI_RESULT_SUCCESS
  HapiCommitGeo _ := .HAPI_RESULT_SUCCESS
  CreateFaceMaterialArray _ _ := []
  CreateFaceMaterialArrayWithParameters _ _ := ([], MaterialParameters.empty)
  CreateHoudiniMeshAttributes _ _ _ _ _ := true
  FindIntersectingSubtractiveBrushes _ := []
  BuildModelFromBrushes _ := BrushModel
  IsIdentity t := decide (t = 0)
  InverseTransformPosition _ p := p
  NmlInvXform _ p := p
  InverseDeterminant _ := 1
  GetSafeNormal p := p
  GetGlobalBSPTexelScale := 128
  VectorDivide a s := a.div s
  VectorSubtract a b := a.sub b
  DotProduct a b := a.DotProduct b
  FloatDivide a b := a / b
  HAPI_UNREAL_SCALE_FACTOR_POSITION := 100
  HAPI_UNREAL_ATTRIB_POSITION := "P"
  HAPI_UNREAL_ATTRIB_NORMAL := "N"
  HAPI_UNREAL_ATTRIB_UV := "uv"
  UninitInt _ := 0
  UninitVector _ := ⟨0, 0, 0⟩

/-- The world of okWorld, with a clean node 33 registered under handle 9 for every
identifier. -/
def registeredWorld (BrushModel : UModel) : World :=
  { okWorld BrushModel with
    NodeExistsAndIsNotDirty := fun _ => (true, some 9)
    GetHAPINodeId := fun _ => some 33 }

/-- The world of okWorld where the actor transform 1 mirrors the X axis: it maps
(x, y, z) to (-x, y, z), so does its inverse, whose matrix diag(-1, 1, 1) has the
determinant -1 and the transpose adjoint diag(1, -1, -1). GetSafeNormal is exact on the
unit vectors of the sample models, which it leaves as they are. -/
def mirrorWorld (BrushModel : UModel) : World :=
  { okWorld BrushModel with
    InverseTransformPosition := fun t p => if t = 1 then ⟨-p.X, p.Y, p.Z⟩ else p
    NmlInvXform := fun t p => if t = 1 then ⟨p.X, -p.Y, -p.Z⟩ else p
    InverseDeterminant := fun t => if t = 1 then -1 else 1 }

/-- A valid brush actor mirrored in X. -/
def mirroredBrush : ABrush := ⟨true, true, 3, 1⟩

/-- A model without geometry. -/
def emptyModel : UModel := ⟨[], [], [], [], []⟩

/-- Two triangles, a node without vertices and a third triangle over four points. -/
def sampleModel : UModel where
  Points := [⟨0, 0, 0⟩, ⟨100, 0, 0⟩, ⟨0, 200, 0⟩, ⟨0, 0, 300⟩]
  Nodes := [⟨0, 0, 3⟩, ⟨3, 1, 3⟩, ⟨0, 0, 0⟩, ⟨6, 2, 3⟩]
  Surfs := [⟨11, 0, 0, 1, 2⟩, ⟨12, 0, 0, 1, 2⟩, ⟨11, 0, 0, 1, 2⟩]
  Verts := [⟨0⟩, ⟨1⟩, ⟨2⟩, ⟨0⟩, ⟨2⟩, ⟨3⟩, ⟨1⟩, ⟨2⟩, ⟨3⟩]
  Vectors := [⟨0, 0, 1⟩, ⟨1, 0, 0⟩, ⟨0, 1, 0⟩]

/-- Four faces whose surfaces carry the materials 11, 12, 11, 13. -/
def fourFaceModel : UModel where
  Points := [⟨0, 0, 0⟩, ⟨100, 0, 0⟩, ⟨0, 200, 0⟩, ⟨0, 0, 300⟩]
  Nodes := [⟨0, 0, 3⟩, ⟨3, 1, 3⟩, ⟨6, 2, 3⟩, ⟨9, 3, 3⟩]
  Surfs := [⟨11, 0, 0, 1, 2⟩, ⟨12, 0, 0, 1, 2⟩, ⟨11, 0, 0, 1, 2⟩, ⟨13, 0, 0, 1, 2⟩]
  Verts := [⟨0⟩, ⟨1⟩, ⟨2⟩, ⟨0⟩, ⟨2⟩, ⟨3⟩, ⟨1⟩, ⟨2⟩, ⟨3⟩, ⟨0⟩, ⟨1⟩, ⟨3⟩]
  Vectors := [⟨0, 0, 1⟩, ⟨1, 0, 0⟩, ⟨0, 1, 0⟩]

/-- A valid brush actor with the identity transform. -/
def sampleBrush : ABrush := ⟨true, true, 3, 0⟩

/-- An input object that is not ignored. -/
def sampleInput : UHoudiniInputBrush := ⟨false, 3⟩

/-! ## UHoudiniAssetComponent: bake after the next cook -/

/-- EHoudiniBakeAfterNextCook (HoudiniAssetComponent.h, lines 65-74). -/
inductive EHoudiniBakeAfterNextCook where
  | Disabled
  | Always
  | Once
deriving DecidableEq, Repr

/-- UHoudiniAssetComponent, the two fields declared at lines 808-814 of
HoudiniAssetComponent.h. -/
structure UHoudiniAssetComponent where
  bNoProxyMeshNextCookRequested : Bool
  BakeAfterNextCook : EHoudiniBakeAfterNextCook
deriving DecidableEq, Repr

/-- UHoudiniAssetComponent::IsBakeAfterNextCookEnabled (line 231). -/
def UHoudiniAssetComponent.IsBakeAfterNextCookEnabled (c : UHoudiniAssetComponent) : Bool :=
  c.BakeAfterNextCook != EHoudiniBakeAfterNextCook.Disabled

/-- UHoudiniAssetComponent::GetBakeAfterNextCook (line 233). -/
def UHoudiniAssetComponent.GetBakeAfterNextCook (c : UHoudiniAssetComponent) :
    EHoudiniBakeAfterNextCook :=
  c.BakeAfterNextCook

/-- UHoudiniAssetComponent::SetBakeAfterNextCook (line 337). -/
def UHoudiniAssetComponent.SetBakeAfterNextCook (c : UHoudiniAssetComponent)
    (InBakeAfterNextCook : EHoudiniBakeAfterNextCook) : UHoudiniAssetComponent :=
  { c with BakeAfterNextCook := InBakeAfterNextCook }

/-- The cast `(const float*)Data.GetData()` of lines 289, 366 and 376: the floats of the
vectors, three for each in the order X, Y, Z. -/
def floatsOf (Data : List FVector3f) : List ℚ :=
  Data.flatMap (fun v => [v.X, v.Y, v.Z])

/-- The call is DeleteNode. -/
def Call.isDeleteNode : Call → Bool
  | .DeleteNode _ => true
  | _ => false

/-- A failed call to the remote engine, DeleteNode apart, comes with the value false; a
DeleteNode call comes with the value true. -/
def FailureIsFatal (tr : List Event) (ret : Option Bool) : Prop :=
  ∀ e ∈ tr,
    (e.call.isRemote = true → e.ok = false → e.call.isDeleteNode = false → ret = some false) ∧
    (e.call.isDeleteNode = true → ret = some true)

/-- The world of okWorld where the remote engine refuses every DeleteNode. -/
def deleteFailsWorld (BrushModel : UModel) : World :=
  { okWorld BrushModel with DeleteNode := fun _ => .HAPI_RESULT_FAILURE 1 }

/-- The world of okWorld where the remote engine refuses every commit. -/
def commitFailsWorld (BrushModel : UModel) : World :=
  { okWorld BrushModel with HapiCommitGeo := fun _ => .HAPI_RESULT_FAILURE 1 }

/-- What has to come earlier in the trace for a call to be in order: the data of an
attribute are set after AddAttribute declared the attribute, on the same node and part,
under the same name and info, with success; an attribute is declared, by AddAttribute or
by CreateHoudiniMeshAttributes, after SetPartInfo for the same node and part succeeded. -/
def DeclaredBefore (c : Call) (h : List Event) : Prop :=
  match c with
  | .SetAttributeData n p name info _ => ⟨.AddAttribute n p name info, true⟩ ∈ h
  | .AddAttribute n p _ _ => ∃ part, ⟨.SetPartInfo n p part, true⟩ ∈ h
  | .CreateHoudiniMeshAttributes n p _ _ _ => ∃ part, ⟨.SetPartInfo n p part, true⟩ ∈ h
  | _ => True

/-- Every call of the trace `tr`, issued after the calls `h`, is in order. -/
def OrderedTrace (h tr : List Event) : Prop :=
  ∀ (pre : List Event) (e : Event) (post : List Event),
    tr = pre ++ e :: post → DeclaredBefore e.call (h ++ pre)

/-- Every checked call of the list, run after the calls `h`, is in order when it is
reached. -/
def OrderedSteps (h : List Event) : List (Call × Bool) → Prop
  | [] => True
  | c :: rest => DeclaredBefore c.1 h ∧ (c.2 = true → OrderedSteps (h ++ [⟨c.1, true⟩]) rest)

/-- The call is SetObjectTransform. -/
def Call.isSetObjectTransform : Call → Bool
  | .SetObjectTransform _ _ => true
  | _ => false

/-- The node a call uploads to or registers: the node of the geometry calls and of
AddNodeOrUpdateNode. -/
def Call.uploadTarget : Call → Option HAPI_NodeId
  | .SetPartInfo n _ _ => some n
  | .AddAttribute n _ _ _ => some n
  | .SetAttributeData n _ _ _ _ => some n
  | .HapiSetVertexList _ n _ => some n
  | .HapiSetFaceCounts _ n _ => some n
  | .CreateHoudiniMeshAttributes n _ _ _ _ => some n
  | .HapiCommitGeo n => some n
  | .AddNodeOrUpdateNode _ n _ _ => some n
  | _ => none

/-- The call needs a new input node: it is not turned away at lines 67-74, the lookup of
lines 86-98 does not answer it with a node to reuse, and the node id the registry holds
(lines 107-115; -1 when it holds none) is not a valid node at line 120. -/
def NeedsNewNode (w : World) (InputBrushObject : UHoudiniInputBrush) (BrushActor : ABrush) :
    Prop :=
  BrushActor.IsValid = true ∧ BrushActor.BrushIsValid = true ∧
  InputBrushObject.ShouldIgnoreThisInput = false ∧
  ((w.NodeExistsAndIsNotDirty (identifierOf BrushActor)).1 = true →
    w.GetHAPINodeId (w.NodeExistsAndIsNotDirty (identifierOf BrushActor)).2 = none) ∧
  w.IsHoudiniNodeValid (registeredNodeId w BrushActor) = false

instance (w : World) (InputBrushObject : UHoudiniInputBrush) (BrushActor : ABrush) :
    Decidable (NeedsNewNode w InputBrushObject BrushActor) := by
  unfold NeedsNewNode
  infer_instance

/-- The first two calls of a run that needs a new input node: the parents, then the
creation of the node with the name and the parent of lines 100-102. -/
def creationTrace (w : World) (BrushActor : ABrush) (NodeName : String)
    (bInputNodesCanBeDeleted : Bool) : List Event :=
  let Identifier := identifierOf BrushActor
  let parents := w.EnsureParentsExist Identifier bInputNodesCanBeDeleted
  [ ⟨.EnsureParentsExist Identifier bInputNodesCanBeDeleted, parents.1⟩,
    ⟨.CreateInputNode (w.GetDefaultInputNodeName Identifier NodeName)
        (if parents.1 then (w.GetHAPINodeId parents.2).getD (-1) else -1),
      (createdNode w BrushActor NodeName bInputNodesCanBeDeleted).1.isSuccess⟩ ]

/-- The world of okWorld where the registry holds, for every identifier, an entry that
is dirty under handle 9; its node 33 is not a valid node of the session, whose valid
nodes are 5, 6 and 105. -/
def staleWorld (BrushModel : UModel) : World :=
  { okWorld BrushModel with
    NodeExistsAndIsNotDirty := fun _ => (false, some 9)
    GetHAPINodeId := fun h => if h = some 9 then some 33 else none
    IsHoudiniNodeValid := fun n => decide (n = 5 ∨ n = 6 ∨ n = 105) }

/-- The world of staleWorld where the remote engine refuses to create the input node. -/
def creationFailsWorld (BrushModel : UModel) : World :=
  { staleWorld BrushModel with CreateInputNode := fun _ _ => (.HAPI_RESULT_FAILURE 1, -1) }

/-- The world of staleWorld where the creation of the input node reports success and
gives the id -1, which is not a valid node. -/
def invalidNewNodeWorld (BrushModel : UModel) : World :=
  { staleWorld BrushModel with CreateInputNode := fun _ _ => (.HAPI_RESULT_SUCCESS, -1) }

/-! ## The can-be-deleted flag of the registry -/

/-- Modelled from the spec: the can-be-deleted flag the registry keeps for the entry of
each handle (section 4.1; the registry, FUnrealObjectInputManager, is not among the
sources). -/
abbrev CanBeDeletedFlags := FUnrealObjectInputHandle → Bool

/-- Modelled from the spec: FUnrealObjectInputUtils::UpdateInputNodeCanBeDeleted, the
markCanBeDelete(handle, bool) of section 4.1, which is not among the sources: a call that
reports success has set the flag of the handle's entry to the value passed and nothing
else; a call that reports a failure has changed nothing. -/
def markCanBeDeleted (flags : CanBeDeletedFlags) (Handle : FUnrealObjectInputHandle)
    (bCanBeDeleted : Bool) (ok : Bool) : CanBeDeletedFlags :=
  if ok then fun h => if h = Handle then bCanBeDeleted else flags h else flags

/-- The flags after the UpdateInputNodeCanBeDeleted calls of a trace, in order. -/
def flagsAfter : List Event → CanBeDeletedFlags → CanBeDeletedFlags
  | [], flags => flags
  | ⟨.UpdateInputNodeCanBeDeleted Handle bCanBeDeleted, ok⟩ :: rest, flags =>
    flagsAfter rest (markCanBeDeleted flags Handle bCanBeDeleted ok)
  | _ :: rest, flags => flagsAfter rest flags

/-- The world of okWorld where one subtractive brush, of actor 4, intersects every input
brush, and the model built from a list of brushes is sampleModel when the list holds a
brush and emptyModel when it holds none. -/
def intersectingWorld : World :=
  { okWorld sampleModel with
    FindIntersectingSubtractiveBrushes := fun _ => [⟨true, true, 4, 0⟩]
    BuildModelFromBrushes := fun l => if l.isEmpty then emptyModel else sampleModel }

/-! ## FHoudiniInputTranslator: the merge SOP -/

/-- Modelled from the spec: the node graph of the remote session as the merge composer of
section 4.4 meets it through the transport of section 6: the valid nodes, the inputs of
each node in order, and the transport's answers to a creation, a connection and a
deletion. -/
structure MergeSession where
  valid : List HAPI_NodeId
  inputs : HAPI_NodeId → List HAPI_NodeId
  createAnswer : HAPI_Result
  connectAnswer : HAPI_NodeId → Nat → HAPI_NodeId → HAPI_Result
  deleteAnswer : HAPI_NodeId → HAPI_Result

/-- Modelled from the spec: FHoudiniEngineUtils::IsHoudiniNodeValid on the session. -/
def MergeSession.IsHoudiniNodeValid (s : MergeSession) (NodeId : HAPI_NodeId) : Bool :=
  decide (NodeId ∈ s.valid)

/-- Modelled from the spec: the id the session gives to the next node it creates, one that
no valid node has. -/
def MergeSession.freshId (s : MergeSession) : HAPI_NodeId :=
  s.valid.foldl max (-1) + 1

/-- Modelled from the spec: createNode of section 6; a creation that succeeds adds a node
without inputs under a fresh id, a creation that fails changes nothing. -/
def MergeSession.CreateNode (s : MergeSession) : HAPI_Result × HAPI_NodeId × MergeSession :=
  if s.createAnswer.isSuccess then
    (.HAPI_RESULT_SUCCESS, s.freshId,
      { s with
        valid := s.freshId :: s.valid
        inputs := fun n => if n = s.freshId then [] else s.inputs n })
  else (s.createAnswer, -1, s)

/-- Modelled from the spec: the inputs of a node after input `InputIndex` was connected to
`NodeIdToConnect`; the inputs below that index that were not connected are -1. -/
def setInput (Inputs : List HAPI_NodeId) (InputIndex : Nat) (NodeIdToConnect : HAPI_NodeId) :
    List HAPI_NodeId :=
  if InputIndex < Inputs.length then Inputs.set InputIndex NodeIdToConnect
  else Inputs ++ List.replicate (InputIndex - Inputs.length) (-1) ++ [NodeIdToConnect]

/-- Modelled from the spec: connectInput of section 6; a connection that fails changes
nothing. -/
def MergeSession.ConnectNodeInput (s : MergeSession) (NodeId : HAPI_NodeId) (InputIndex : Nat)
    (NodeIdToConnect : HAPI_NodeId) : HAPI_Result × MergeSession :=
  if (s.connectAnswer NodeId InputIndex NodeIdToConnect).isSuccess then
    (.HAPI_RESULT_SUCCESS,
      { s with
        inputs := fun n =>
          if n = NodeId then setInput (s.inputs NodeId) InputIndex NodeIdToConnect
          else s.inputs n })
  else (s.connectAnswer NodeId InputIndex NodeIdToConnect, s)

/-- Modelled from the spec: deleteNode of section 6; a deletion that succeeds makes the id
invalid, a deletion that fails changes nothing. -/
def MergeSession.DeleteNode (s : MergeSession) (NodeId : HAPI_NodeId) :
    HAPI_Result × MergeSession :=
  if (s.deleteAnswer NodeId).isSuccess then
    (.HAPI_RESULT_SUCCESS, { s with valid := s.valid.filter (fun n => n ≠ NodeId) })
  else (s.deleteAnswer NodeId, s)

/-- What a call on the session leaves behind. -/
structure MergeOutcome where
  ret : Bool
  InOutMergeNodeId : HAPI_NodeId
  session : MergeSession
  trace : List Event

/-- Modelled from the spec: the loop of FHoudiniInputTranslator::SetMergeSOPInputs, whose
body is not among the sources (HoudiniInputTranslator.h, line 380, declares it: "Set
InNodeIdsToConenct as the inputs of the Merge SOP InMergeNodeId"): input i of the merge
node is connected to the i-th node of the list, in order; the first connection that fails
ends the loop with false. -/
def connectInputs (InMergeNodeId : HAPI_NodeId) :
    List HAPI_NodeId → Nat → MergeSession → List Event → Bool × MergeSession × List Event
  | [], _, s, tr => (true, s, tr)
  | NodeIdToConnect :: rest, i, s, tr =>
    let r := s.ConnectNodeInput InMergeNodeId i NodeIdToConnect
    let tr := tr ++ [⟨.ConnectNodeInput InMergeNodeId i NodeIdToConnect 0, r.1.isSuccess⟩]
    if r.1.isSuccess then connectInputs InMergeNodeId rest (i + 1) r.2 tr
    else (false, r.2, tr)

/-- Modelled from the spec: FHoudiniInputTranslator::SetMergeSOPInputs (declared at line
380 of HoudiniInputTranslator.h, body not among the sources). -/
def SetMergeSOPInputs (s : MergeSession) (InMergeNodeId : HAPI_NodeId)
    (InNodeIdsToConnect : List HAPI_NodeId) (tr : List Event) :
    Bool × MergeSession × List Event :=
  connectInputs InMergeNodeId InNodeIdsToConnect 0 s tr

/-- Modelled from the spec: FHoudiniInputTranslator::CreateMergeSOP, declared at lines
372-377 of HoudiniInputTranslator.h, body not among the sources. From the comment of the
declaration ("If InInOutMergeNodeId is set to >= 0 then the node will be deleted, if
valid, after the merge SOP is created. The inputs of the Merge SOP are set to
InNodeIdsToConnect") and from section 4.4 (the old node is deleted only after the new
merge node is confirmed valid) and section 6 (any non-success result is fatal): create
the merge node; give up when that fails or when the new id is not valid; set its inputs;
delete the old node when its id is >= 0 and valid; hand the new id out. A call that gives
up leaves InOutMergeNodeId as it was. -/
def CreateMergeSOP (s : MergeSession) (InOutMergeNodeId : HAPI_NodeId)
    (InNodeIdsToConnect : List HAPI_NodeId) (InMergeNodeName : String) : MergeOutcome :=
  let created := s.CreateNode
  let tr : List Event := [⟨.CreateNode (-1) "SOP/merge" InMergeNodeName, created.1.isSuccess⟩]
  if !created.1.isSuccess then ⟨false, InOutMergeNodeId, created.2.2, tr⟩
  else
  let NewNodeId := created.2.1
  if !created.2.2.IsHoudiniNodeValid NewNodeId then ⟨false, InOutMergeNodeId, created.2.2, tr⟩
  else
  let connected := SetMergeSOPInputs created.2.2 NewNodeId InNodeIdsToConnect tr
  if !connected.1 then ⟨false, InOutMergeNodeId, connected.2.1, connected.2.2⟩
  else
  if 0 ≤ InOutMergeNodeId ∧ connected.2.1.IsHoudiniNodeValid InOutMergeNodeId then
    let deleted := connected.2.1.DeleteNode InOutMergeNodeId
    let tr := connected.2.2 ++ [⟨.DeleteNode InOutMergeNodeId, deleted.1.isSuccess⟩]
    if !deleted.1.isSuccess then ⟨false, InOutMergeNodeId, deleted.2, tr⟩
    else ⟨true, NewNodeId, deleted.2, tr⟩
  else ⟨true, NewNodeId, connected.2.1, connected.2.2⟩

/-- A session with the valid nodes 3, 7 and 8, where the merge node 3 has the inputs 7, 8
and 7, and the transport refuses nothing. -/
def sampleSession : MergeSession where
  valid := [3, 7, 8]
  inputs := fun n => if n = 3 then [7, 8, 7] else []
  createAnswer := .HAPI_RESULT_SUCCESS
  connectAnswer := fun _ _ _ => .HAPI_RESULT_SUCCESS
  deleteAnswer := fun _ => .HAPI_RESULT_SUCCESS

/-- The run ended by registering node `n` under the object node `obj`: InputNodeId is `n`,
the last call is AddNodeOrUpdateNode for `n`, and OutHandle is the handle it gave when it
succeeded and is left at `h0` when it failed (lines 450-454). -/
def EndsRegistered (w : World) (Identifier : FUnrealObjectInputIdentifier) (bDel : Bool)
    (obj n : HAPI_NodeId) (h0 : FUnrealObjectInputHandle) (o : Outcome) : Prop :=
  o.InputNodeId = n ∧
  o.trace.getLast? = some ⟨.AddNodeOrUpdateNode Identifier n obj bDel,
    (w.AddNodeOrUpdateNode Identifier n obj bDel).1⟩ ∧
  o.OutHandle = if (w.AddNodeOrUpdateNode Identifier n obj bDel).1 then
    (w.AddNodeOrUpdateNode Identifier n obj bDel).2 else h0

/-- The world of okWorld where the registry refuses every AddNodeOrUpdateNode. -/
def registrationFailsWorld (BrushModel : UModel) : World :=
  { okWorld BrushModel with AddNodeOrUpdateNode := fun _ _ _ _ => (false, none) }

/-- The call creates a node: CreateInputNode or CreateNode. -/
def Call.createsNode : Call → Bool
  | .CreateInputNode _ _ => true
  | .CreateNode _ _ _ => true
  | _ => false

/-- The call updates in place: it is not turned away at lines 67-74, the lookup of lines
86-98 does not answer it with a node to reuse (the entry is dirty), and the node id the
registry holds (lines 107-115) is a valid node at line 120. -/
def UpdatesInPlace (w : World) (InputBrushObject : UHoudiniInputBrush) (BrushActor : ABrush) :
    Prop :=
  BrushActor.IsValid = true ∧ BrushActor.BrushIsValid = true ∧
  InputBrushObject.ShouldIgnoreThisInput = false ∧
  ((w.NodeExistsAndIsNotDirty (identifierOf BrushActor)).1 = true →
    w.GetHAPINodeId (w.NodeExistsAndIsNotDirty (identifierOf BrushActor)).2 = none) ∧
  w.IsHoudiniNodeValid (registeredNodeId w BrushActor) = true

instance (w : World) (InputBrushObject : UHoudiniInputBrush) (BrushActor : ABrush) :
    Decidable (UpdatesInPlace w InputBrushObject BrushActor) := by
  unfold UpdatesInPlace
  infer_instance

/-- The world of okWorld where the registry holds, for every identifier, an entry that
is dirty under handle 9, whose node 33 is a valid node. -/
def dirtyWorld (BrushModel : UModel) : World :=
  { okWorld BrushModel with
    NodeExistsAndIsNotDirty := fun _ => (false, some 9)
    GetHAPINodeId := fun h => if h = some 9 then some 33 else none }

/-- The SetObjectTransform calls of a trace, in order. -/
def transformCalls (tr : List Event) : List Event :=
  tr.filter (fun e => e.call.isSetObjectTransform)

/-! ## What the vertex loop computes -/

/-- The point indices pVertex of the vertex-pool entries iVertPool .. iVertPool +
NumVertices - 1 of a node, in pool order; `none` stands for an entry the pool does not
have. -/
def nodePoolIndices (BrushModel : UModel) (Node : FBspNode) : List (Option Int) :=
  (List.range Node.NumVertices).map fun (k : Nat) =>
    (readAt BrushModel.Verts (Node.iVertPool + k)).map (fun Vert => Vert.pVertex)

/-- The concatenation, in node order, of the point indices of the nodes. -/
def flattenedIndices (BrushModel : UModel) : List (Option Int) :=
  BrushModel.Nodes.flatMap (nodePoolIndices BrushModel)

/-- Lines 329-332: the normal uploaded for a surface, the safe-normalised image of the
surface normal under the transpose adjoint of the inverse actor transform, with Y and Z
swapped. -/
def surfNormal (w : World) (ActorTransform : FTransform) (BrushModel : UModel)
    (Surf : FBspSurf) : Option FVector3f :=
  (readAt BrushModel.Vectors Surf.vNormal).map fun N =>
    let N := w.GetSafeNormal (w.NmlInvXform ActorTransform N)
    ⟨N.X, N.Z, N.Y⟩

/-- The normals of the vertices of a node: the normal of its surface, once per vertex. -/
def nodeNormals (w : World) (ActorTransform : FTransform) (BrushModel : UModel)
    (Node : FBspNode) : List (Option FVector3f) :=
  List.replicate Node.NumVertices
    ((readAt BrushModel.Surfs Node.iSurf).bind (surfNormal w ActorTransform BrushModel))

/-- Lines 335-340: the UV of the model point `pVertex` on a surface. -/
def surfUV (w : World) (BrushModel : UModel) (Surf : FBspSurf) (pVertex : Int) :
    Option FVector3f := do
  let vU ← readAt BrushModel.Vectors Surf.vTextureU
  let vV ← readAt BrushModel.Vectors Surf.vTextureV
  let Position ← readAt BrushModel.Points pVertex
  let Base ← readAt BrushModel.Points Surf.pBase
  let deltaVtx := w.VectorSubtract Position Base
  some ⟨w.FloatDivide (w.DotProduct deltaVtx vU) w.GetGlobalBSPTexelScale,
        w.FloatDivide (-(w.DotProduct deltaVtx vV)) w.GetGlobalBSPTexelScale, 0⟩

/-- The UVs of the vertices of a node, in pool order. -/
def nodeUVs (w : World) (BrushModel : UModel) (Node : FBspNode) : List (Option FVector3f) :=
  (List.range Node.NumVertices).map fun (k : Nat) => do
    let Surf ← readAt BrushModel.Surfs Node.iSurf
    let Vert ← readAt BrushModel.Verts (Node.iVertPool + k)
    surfUV w BrushModel Surf Vert.pVertex

/-- Lines 323-341, the write cursor alone: the values of iVertex at which lines 326, 332
and 340 write during the vertices of one node, and the cursor after them; the first number
counts the iterations left. -/
def vertexCursors : Nat → Nat → List Nat × Nat
  | 0, iVertex => ([], iVertex)
  | left + 1, iVertex =>
    let r := vertexCursors left (iVertex + 1)
    (iVertex :: r.1, r.2)

/-- Lines 318-348, the write cursor alone: the values of iVertex at the writes of the
whole loop, in order, and the cursor at the end. -/
def nodeCursors : List FBspNode → Nat → List Nat × Nat
  | [], iVertex => ([], iVertex)
  | Node :: rest, iVertex =>
    let v := vertexCursors Node.NumVertices iVertex
    let r := nodeCursors rest v.2
    (v.1 ++ r.1, r.2)

/-- The brush model is well formed: every node's iSurf indexes Surfs and its vertices
iVertPool .. iVertPool + NumVertices - 1 lie in the vertex pool, every pVertex and pBase
indexes Points, and every vNormal, vTextureU and vTextureV indexes Vectors. -/
def WellFormed (BrushModel : UModel) : Prop :=
  (∀ Node ∈ BrushModel.Nodes,
    0 ≤ Node.iSurf ∧ Node.iSurf < BrushModel.Surfs.length ∧
    0 ≤ Node.iVertPool ∧ Node.iVertPool + Node.NumVertices ≤ BrushModel.Verts.length) ∧
  (∀ Vert ∈ BrushModel.Verts, 0 ≤ Vert.pVertex ∧ Vert.pVertex < BrushModel.Points.length) ∧
  (∀ Surf ∈ BrushModel.Surfs,
    0 ≤ Surf.pBase ∧ Surf.pBase < BrushModel.Points.length ∧
    0 ≤ Surf.vNormal ∧ Surf.vNormal < BrushModel.Vectors.length ∧
    0 ≤ Surf.vTextureU ∧ Surf.vTextureU < BrushModel.Vectors.length ∧
    0 ≤ Surf.vTextureV ∧ Surf.vTextureV < BrushModel.Vectors.length)

instance (BrushModel : UModel) : Decidable (WellFormed BrushModel) := by
  unfold WellFormed
  infer_instance

/-! ## A world with single-precision arithmetic -/

/-- Scale a positive rational by powers of two into the range from 2^23 up to, but not
including, 2^24; the integer is the power of two that scales the result back. -/
def normaliseMantissa : Nat → ℚ → Int → ℚ × Int
  | 0, a, e => (a, e)
  | fuel + 1, a, e =>
    if a < 8388608 then normaliseMantissa fuel (a * 2) (e - 1)
    else if 16777216 ≤ a then normaliseMantissa fuel (a / 2) (e + 1)
    else (a, e)

/-- The nearest integer, a tie going to the even one. -/
def roundHalfEven (a : ℚ) : Int :=
  let f := a.floor
  let r := a - f
  if r < 1 / 2 then f
  else if 1 / 2 < r then f + 1
  else if f % 2 = 0 then f else f + 1

/-- The binary32 float nearest to a rational, ties to even, with 24 bits of mantissa and
an exponent that is not bounded: no overflow and no subnormal numbers, which the sample
values are far from. -/
def roundToFloat (q : ℚ) : ℚ :=
  if q = 0 then 0
  else
    let r := normaliseMantissa 512 (if q < 0 then -q else q) 0
    let m : ℚ := roundHalfEven r.1
    let v := if 0 ≤ r.2 then m * 2 ^ r.2.toNat else m / 2 ^ (-r.2).toNat
    if q < 0 then -v else v

/-- The largest r between lo and hi with r * r ≤ n, by bisection. -/
def sqrtFloor : Nat → Nat → Nat → Nat → Nat
  | 0, lo, _, _ => lo
  | fuel + 1, lo, hi, n =>
    if hi ≤ lo + 1 then lo
    else
      let mid := (lo + hi) / 2
      if mid * mid ≤ n then sqrtFloor fuel mid hi n else sqrtFloor fuel lo mid n

/-- A safe normalisation in the manner of FVector::GetSafeNormal: a vector of square sum 1
is kept, one of square sum below 1e-8 gives the zero vector, any other is divided by its
length, the length taken to 24 binary digits after the point and each quotient rounded
to the nearest float. -/
def floatSafeNormal (v : FVector3f) : FVector3f :=
  let SquareSum := v.DotProduct v
  if SquareSum = 1 then v
  else if SquareSum < 1 / 100000000 then ⟨0, 0, 0⟩
  else
    let n := (SquareSum * 281474976710656).floor.toNat
    let Length : ℚ := (sqrtFloor 64 0 (n + 1) n : ℚ) / 16777216
    ⟨roundToFloat (v.X / Length), roundToFloat (v.Y / Length), roundToFloat (v.Z / Length)⟩

/-- The world of okWorld with single-precision arithmetic: every operation rounds to the
nearest float. The quotient of a vector by a scalar multiplies by the rounded reciprocal,
as FVector3f::operator/ does; the dot product rounds each product and each sum; the texel
scale is 100 and GetSafeNormal is floatSafeNormal. -/
def floatWorld (BrushModel : UModel) : World :=
  { okWorld BrushModel with
    VectorDivide := fun a s =>
      let RScale := roundToFloat (1 / s)
      ⟨roundToFloat (a.X * RScale), roundToFloat (a.Y * RScale), roundToFloat (a.Z * RScale)⟩
    VectorSubtract := fun a b =>
      ⟨roundToFloat (a.X - b.X), roundToFloat (a.Y - b.Y), roundToFloat (a.Z - b.Z)⟩
    DotProduct := fun a b =>
      roundToFloat (roundToFloat (roundToFloat (a.X * b.X) + roundToFloat (a.Y * b.Y))
        + roundToFloat (a.Z * b.Z))
    FloatDivide := fun a b => roundToFloat (a / b)
    GetSafeNormal := floatSafeNormal
    GetGlobalBSPTexelScale := 100 }

/-- One triangle over the points (0, 0, 0), (1, 2, 3) and (3, 1, 0), whose surface has the
base point (0, 0, 0), the normal (1, 1, 0), which is not of length 1, and the texture
vectors (1, 0, 0) and (0, 0, 1). -/
def floatModel : UModel where
  Points := [⟨0, 0, 0⟩, ⟨1, 2, 3⟩, ⟨3, 1, 0⟩]
  Nodes := [⟨0, 0, 3⟩]
  Surfs := [⟨11, 0, 0, 1, 2⟩]
  Verts := [⟨0⟩, ⟨1⟩, ⟨2⟩]
  Vectors := [⟨1, 1, 0⟩, ⟨1, 0, 0⟩, ⟨0, 0, 1⟩]

theorem mem_issued {steps : List (Call × Bool)} {e : Event} (h : e ∈ issued steps) :
    ∃ s ∈ steps, e = ⟨s.1, s.2⟩ := by
  induction steps with
  | nil => simp [issued] at h
  | cons s rest ih =>
    obtain ⟨c, ok⟩ := s
    simp only [issued, List.mem_cons] at h
    rcases h with h | h
    · exact ⟨(c, ok), by simp, h⟩
    · cases ok with
      | false => simp at h
      | true =>
        obtain ⟨s, hs, he⟩ := ih (by simpa using h)
        exact ⟨s, by simp [hs], he⟩

theorem issued_of_all {steps : List (Call × Bool)} (h : steps.all (fun s => s.2) = true) :
    issued steps = steps.map (fun s => ⟨s.1, true⟩) := by
  induction steps with
  | nil => rfl
  | cons s rest ih =>
    obtain ⟨c, ok⟩ := s
    simp only [List.all_cons, Bool.and_eq_true] at h
    simp [issued, h.1, ih h.2]

theorem issued_append (a b : List (Call × Bool)) :
    issued (a ++ b) = issued a ++ if a.all (fun s => s.2) then issued b else [] := by
  induction a with
  | nil => simp [issued]
  | cons s rest ih =>
    obtain ⟨c, ok⟩ := s
    cases ok with
    | false => simp [issued]
    | true =>
      simp only [List.cons_append, issued, if_true, List.all_cons, Bool.true_and]
      exact congrArg _ ih

theorem runs_checkAll (f : Frame) (pre : List (Call × Bool)) (k : Frame → Outcome)
    (s : Script)
    (h : pre.all (fun c => c.2) = true →
      Runs (k { f with trace := f.trace ++ issued pre })
        { f with trace := f.trace ++ issued pre } s) :
    Runs (checkAll f pre k) f (Script.after pre s) := by
  unfold checkAll
  by_cases hall : pre.all (fun c => c.2) = true
  · obtain ⟨h1, h2⟩ := h hall
    simp only [hall, if_true]
    refine ⟨?_, ?_⟩
    · rw [h1]
      simp only [Script.trace, Script.after, issued_append, hall, if_true, List.append_assoc,
        List.all_append, Bool.true_and]
    · rw [h2]
      simp only [Script.ret, Script.after, hall, List.all_append, Bool.true_and]
  · simp only [hall]
    refine ⟨?_, ?_⟩
    · simp only [Script.trace, Script.after, issued_append, hall, Frame.exit, List.all_append,
        Bool.false_and, Bool.false_eq_true, if_false, List.append_nil]
    · simp only [Script.ret, Script.after, hall, Frame.exit, List.all_append, Bool.false_and,
        Bool.false_eq_true, if_false]

theorem runs_stopped (f : Frame) : Runs (f.exit none) f Script.stopped := by
  simp [Runs, Frame.exit, Script.stopped, Script.trace, Script.ret, issued]

theorem runs_uploadVertexData (w : World) (Identifier : FUnrealObjectInputIdentifier)
    (bExport bDel : Bool) (InputObjectNodeId : HAPI_NodeId) (NumNodes : Nat) (NumIndices : Int)
    (FaceCountBuffer : List Int) (b : VertexBuffers) (f : Frame) :
    Runs (uploadVertexData w Identifier bExport bDel InputObjectNodeId NumNodes NumIndices
        FaceCountBuffer b f) f
      (vertexDataScript w Identifier bExport bDel InputObjectNodeId f.InputNodeId NumNodes
        NumIndices FaceCountBuffer b) := by
  have h := runs_checkAll f
    (vertexDataSteps w bExport f.InputNodeId NumNodes NumIndices FaceCountBuffer b)
    (fun f' =>
      let added := w.AddNodeOrUpdateNode Identifier f.InputNodeId InputObjectNodeId bDel
      let f' := f'.log
        (.AddNodeOrUpdateNode Identifier f.InputNodeId InputObjectNodeId bDel) added.1
      let f' := if added.1 then { f' with OutHandle := added.2 } else f'
      f'.exit (some true))
    ⟨[], [⟨.AddNodeOrUpdateNode Identifier f.InputNodeId InputObjectNodeId bDel,
        (w.AddNodeOrUpdateNode Identifier f.InputNodeId InputObjectNodeId bDel).1⟩],
      some true⟩
    (by
      intro _
      refine ⟨?_, ?_⟩
      · by_cases hadd :
          (w.AddNodeOrUpdateNode Identifier f.InputNodeId InputObjectNodeId bDel).1 = true
        · simp [Frame.exit, Frame.log, Script.trace, issued, hadd]
        · simp [Frame.exit, Frame.log, Script.trace, issued, hadd]
      · simp [Frame.exit, Script.ret])
  simpa [uploadVertexData, vertexDataScript, Script.after] using h

theorem runs_uploadGeometry (w : World) (ActorTransform : FTransform) (BrushModel : UModel)
    (Identifier : FUnrealObjectInputIdentifier) (bExport bDel : Bool)
    (InputObjectNodeId : HAPI_NodeId) (NumIndices : Int) (FaceCountBuffer : List Int)
    (f : Frame) :
    Runs (uploadGeometry w ActorTransform BrushModel Identifier bExport bDel InputObjectNodeId
        NumIndices FaceCountBuffer f) f
      (geometryScript w ActorTransform BrushModel Identifier bExport bDel InputObjectNodeId
        f.InputNodeId NumIndices FaceCountBuffer) := by
  unfold uploadGeometry geometryScript
  apply runs_checkAll
  intro _
  cases positionLoop w ActorTransform BrushModel.Points 0
      (List.replicate BrushModel.Points.length ⟨0, 0, 0⟩) with
  | none => exact runs_stopped _
  | some OutPosition =>
    apply runs_checkAll
    intro _
    cases buildVertexBuffers w ActorTransform BrushModel NumIndices with
    | none => exact runs_stopped _
    | some b => exact runs_uploadVertexData _ _ _ _ _ _ _ _ _ _

theorem runs_uploadBrush (w : World) (InputBrushObject : UHoudiniInputBrush)
    (BrushActor : ABrush) (Identifier : FUnrealObjectInputIdentifier) (bExport bDel : Bool)
    (InputObjectNodeId : HAPI_NodeId) (f : Frame) :
    Runs (uploadBrush w InputBrushObject BrushActor Identifier bExport bDel InputObjectNodeId f)
      f
      (brushScript w InputBrushObject BrushActor Identifier bExport bDel InputObjectNodeId
        f.InputNodeId) := by
  unfold uploadBrush brushScript brushModelOf
  by_cases hEmpty :
    (w.BuildModelFromBrushes (w.FindIntersectingSubtractiveBrushes InputBrushObject)).Points.length
      = 0
  · simp [hEmpty, Runs, Frame.exit, Frame.log, Script.trace, Script.ret, issued]
  · simp only [hEmpty, if_false]
    cases faceCountLoop
      (w.BuildModelFromBrushes (w.FindIntersectingSubtractiveBrushes InputBrushObject)).Nodes 0
      (0, SetNumUninitialized w.UninitInt
        (w.BuildModelFromBrushes
          (w.FindIntersectingSubtractiveBrushes InputBrushObject)).Nodes.length) with
    | none => exact runs_stopped _
    | some r =>
      obtain ⟨NumIndices, FaceCountBuffer⟩ := r
      apply runs_checkAll
      intro _
      exact runs_uploadGeometry _ _ _ _ _ _ _ _ _ _

theorem runs_createOrUpdateNode (w : World) (InputBrushObject : UHoudiniInputBrush)
    (BrushActor : ABrush) (Identifier : FUnrealObjectInputIdentifier)
    (FinalInputNodeName : String) (ParentNodeId : HAPI_NodeId) (bExport bDel : Bool)
    (f : Frame) :
    Runs (createOrUpdateNode w InputBrushObject BrushActor Identifier FinalInputNodeName
        ParentNodeId bExport bDel f) f
      (nodeScript w InputBrushObject BrushActor Identifier FinalInputNodeName ParentNodeId
        bExport bDel f.InputNodeId) := by
  unfold createOrUpdateNode nodeScript
  by_cases hValid : w.IsHoudiniNodeValid f.InputNodeId = true
  · simp only [hValid, if_true]
    exact runs_uploadBrush _ _ _ _ _ _ _ _
  · simp only [hValid, Bool.false_eq_true, if_false]
    apply runs_checkAll
    intro _
    by_cases hNew : w.IsHoudiniNodeValid (w.CreateInputNode FinalInputNodeName ParentNodeId).2
        = true
    · simp only [hNew, Bool.not_true, Bool.false_eq_true, if_false]
      apply runs_checkAll
      intro _
      exact runs_uploadBrush _ _ _ _ _ _ _ _
    · simp [hNew, Runs, Frame.exit, Script.trace, Script.ret, issued]

/-- A call that is neither turned away nor answered by reuse runs the rebuild script
after making sure that the parents exist. -/
theorem rebuild_closed_form (w : World) (InputBrushObject : UHoudiniInputBrush)
    (BrushActor : ABrush) (ExcludeActors : Option (List Nat)) (InputNodeId : HAPI_NodeId)
    (NodeName : String) (bExport : Bool) (OutHandle : FUnrealObjectInputHandle)
    (bDel : Bool)
    (hActor : BrushActor.IsValid = true) (hBrush : BrushActor.BrushIsValid = true)
    (hIgnore : InputBrushObject.ShouldIgnoreThisInput = false)
    (hReuse : (w.NodeExistsAndIsNotDirty (identifierOf BrushActor)).1 = true →
      w.GetHAPINodeId (w.NodeExistsAndIsNotDirty (identifierOf BrushActor)).2 = none) :
    (CreateInputNodeForBrush w InputBrushObject BrushActor ExcludeActors InputNodeId NodeName
      bExport OutHandle bDel).trace
      = ⟨.EnsureParentsExist (identifierOf BrushActor) bDel,
          (w.EnsureParentsExist (identifierOf BrushActor) bDel).1⟩ ::
        (rebuildScript w InputBrushObject BrushActor NodeName bExport bDel).trace ∧
    (CreateInputNodeForBrush w InputBrushObject BrushActor ExcludeActors InputNodeId NodeName
      bExport OutHandle bDel).ret
      = (rebuildScript w InputBrushObject BrushActor NodeName bExport bDel).ret := by
  have hlookup : (if (w.NodeExistsAndIsNotDirty (identifierOf BrushActor)).1 = true then
      w.GetHAPINodeId (w.NodeExistsAndIsNotDirty (identifierOf BrushActor)).2 else none)
      = none := by
    split
    · exact hReuse (by assumption)
    · rfl
  unfold CreateInputNodeForBrush
  simp only [hActor, hBrush, hIgnore, hlookup, Bool.not_true, Bool.false_eq_true, if_false]
  have h := runs_createOrUpdateNode w InputBrushObject BrushActor (identifierOf BrushActor)
    (w.GetDefaultInputNodeName (identifierOf BrushActor) NodeName)
    (if (w.EnsureParentsExist (identifierOf BrushActor) bDel).1 = true then
      (w.GetHAPINodeId (w.EnsureParentsExist (identifierOf BrushActor) bDel).2).getD (-1)
     else -1) bExport bDel
    ⟨registeredNodeId w BrushActor, OutHandle,
      [⟨.EnsureParentsExist (identifierOf BrushActor) bDel,
        (w.EnsureParentsExist (identifierOf BrushActor) bDel).1⟩]⟩
  simpa [Runs, rebuildScript, registeredNodeId, Frame.log] using h

/-! ## Which calls a run can issue -/

theorem mem_after_trace {pre : List (Call × Bool)} {s : Script} {e : Event}
    (h : e ∈ (Script.after pre s).trace) :
    (∃ c ∈ pre, e = ⟨c.1, c.2⟩) ∨ e ∈ s.trace := by
  simp only [Script.trace, Script.after, issued_append, List.all_append, List.mem_append] at h
  by_cases hall : pre.all (fun c => c.2) = true
  · simp only [hall, if_true, Bool.true_and] at h
    rcases h with (h | h) | h
    · exact Or.inl (mem_issued h)
    · exact Or.inr (by simp only [Script.trace, List.mem_append]; exact Or.inl h)
    · exact Or.inr (by simp only [Script.trace, List.mem_append]; exact Or.inr h)
  · simp only [hall, Bool.false_and, Bool.false_eq_true, if_false, List.not_mem_nil,
      or_false] at h
    exact Or.inl (mem_issued h)

theorem not_mem_stopped_trace (e : Event) : e ∉ Script.stopped.trace := by
  simp [Script.stopped, Script.trace, issued]

theorem mem_geometryScript_trace {w : World} {ActorTransform : FTransform} {BrushModel : UModel}
    {Identifier : FUnrealObjectInputIdentifier} {bExport bDel : Bool}
    {InputObjectNodeId InputNodeId : HAPI_NodeId} {NumIndices : Int}
    {FaceCountBuffer : List Int} {e : Event}
    (h : e ∈ (geometryScript w ActorTransform BrushModel Identifier bExport bDel
      InputObjectNodeId InputNodeId NumIndices FaceCountBuffer).trace) :
    (∃ c ∈ partSteps w InputNodeId BrushModel.Points.length NumIndices FaceCountBuffer,
        e = ⟨c.1, c.2⟩) ∨
    (∃ OutPosition, positionLoop w ActorTransform BrushModel.Points 0
        (List.replicate BrushModel.Points.length ⟨0, 0, 0⟩) = some OutPosition ∧
      ∃ c ∈ positionSteps w InputNodeId BrushModel.Points.length OutPosition,
        e = ⟨c.1, c.2⟩) ∨
    (∃ b, buildVertexBuffers w ActorTransform BrushModel NumIndices = some b ∧
      ((∃ c ∈ vertexDataSteps w bExport InputNodeId BrushModel.Nodes.length NumIndices
          FaceCountBuffer b, e = ⟨c.1, c.2⟩) ∨
        e = ⟨.AddNodeOrUpdateNode Identifier InputNodeId InputObjectNodeId bDel,
              (w.AddNodeOrUpdateNode Identifier InputNodeId InputObjectNodeId bDel).1⟩)) := by
  unfold geometryScript at h
  rcases mem_after_trace h with h | h
  · exact Or.inl h
  · cases hpos : positionLoop w ActorTransform BrushModel.Points 0
        (List.replicate BrushModel.Points.length ⟨0, 0, 0⟩) with
    | none => rw [hpos] at h; exact absurd h (not_mem_stopped_trace e)
    | some OutPosition =>
      rw [hpos] at h
      rcases mem_after_trace h with h | h
      · exact Or.inr (Or.inl ⟨OutPosition, rfl, h⟩)
      · cases hb : buildVertexBuffers w ActorTransform BrushModel NumIndices with
        | none => rw [hb] at h; exact absurd h (not_mem_stopped_trace e)
        | some b =>
          rw [hb] at h
          refine Or.inr (Or.inr ⟨b, rfl, ?_⟩)
          simp only [vertexDataScript, Script.trace, List.mem_append] at h
          rcases h with h | h
          · exact Or.inl (mem_issued h)
          · split at h
            · exact Or.inr (by simpa using h)
            · simp at h

theorem mem_brushScript_trace {w : World} {InputBrushObject : UHoudiniInputBrush}
    {BrushActor : ABrush} {Identifier : FUnrealObjectInputIdentifier} {bExport bDel : Bool}
    {InputObjectNodeId InputNodeId : HAPI_NodeId} {e : Event}
    (h : e ∈ (brushScript w InputBrushObject BrushActor Identifier bExport bDel
      InputObjectNodeId InputNodeId).trace) :
    ((brushModelOf w InputBrushObject).Points.length = 0 ∧
      e = ⟨.DeleteNode InputObjectNodeId, (w.DeleteNode InputObjectNodeId).isSuccess⟩) ∨
    ((brushModelOf w InputBrushObject).Points.length ≠ 0 ∧
      ∃ NumIndices FaceCountBuffer,
      faceCountLoop (brushModelOf w InputBrushObject).Nodes 0
        (0, SetNumUninitialized w.UninitInt (brushModelOf w InputBrushObject).Nodes.length)
        = some (NumIndices, FaceCountBuffer) ∧
      ((∃ c ∈ transformSteps w BrushActor.ActorTransform InputObjectNodeId, e = ⟨c.1, c.2⟩) ∨
        e ∈ (geometryScript w BrushActor.ActorTransform (brushModelOf w InputBrushObject)
          Identifier bExport bDel InputObjectNodeId InputNodeId NumIndices
          FaceCountBuffer).trace)) := by
  unfold brushScript at h
  by_cases hEmpty : (brushModelOf w InputBrushObject).Points.length = 0
  · simp only [hEmpty, if_true] at h
    exact Or.inl ⟨hEmpty, by simpa [Script.trace, issued] using h⟩
  · simp only [hEmpty, if_false] at h
    cases hfc : faceCountLoop (brushModelOf w InputBrushObject).Nodes 0
        (0, SetNumUninitialized w.UninitInt (brushModelOf w InputBrushObject).Nodes.length) with
    | none => rw [hfc] at h; exact absurd h (not_mem_stopped_trace e)
    | some r =>
      obtain ⟨NumIndices, FaceCountBuffer⟩ := r
      rw [hfc] at h
      exact Or.inr ⟨hEmpty, NumIndices, FaceCountBuffer, rfl, mem_after_trace h⟩

theorem mem_nodeScript_trace {w : World} {InputBrushObject : UHoudiniInputBrush}
    {BrushActor : ABrush} {Identifier : FUnrealObjectInputIdentifier}
    {FinalInputNodeName : String} {ParentNodeId : HAPI_NodeId} {bExport bDel : Bool}
    {InputNodeId : HAPI_NodeId} {e : Event}
    (h : e ∈ (nodeScript w InputBrushObject BrushActor Identifier FinalInputNodeName
      ParentNodeId bExport bDel InputNodeId).trace) :
    (e = ⟨.CreateInputNode FinalInputNodeName ParentNodeId,
          (w.CreateInputNode FinalInputNodeName ParentNodeId).1.isSuccess⟩) ∨
    (∃ c ∈ cleanNodeSteps w (w.CreateInputNode FinalInputNodeName ParentNodeId).2,
      e = ⟨c.1, c.2⟩) ∨
    (∃ Target, e ∈ (brushScript w InputBrushObject BrushActor Identifier bExport bDel
      (w.HapiGetParentNodeId Target) Target).trace) := by
  unfold nodeScript at h
  by_cases hValid : w.IsHoudiniNodeValid InputNodeId = true
  · simp only [hValid, if_true] at h
    exact Or.inr (Or.inr ⟨_, h⟩)
  · simp only [hValid, Bool.false_eq_true, if_false] at h
    rcases mem_after_trace h with ⟨c, hc, he⟩ | h
    · simp only [List.mem_singleton] at hc
      subst hc
      exact Or.inl he
    · split at h
      · simp [Script.trace, issued] at h
      · rcases mem_after_trace h with h | h
        · exact Or.inr (Or.inl h)
        · exact Or.inr (Or.inr ⟨_, h⟩)

/-! ## The path to model building -/

theorem reaches_eq_uploadBrush (w : World) (InputBrushObject : UHoudiniInputBrush)
    (BrushActor : ABrush) (ExcludeActors : Option (List Nat)) (InputNodeId : HAPI_NodeId)
    (NodeName : String) (bExport : Bool) (OutHandle : FUnrealObjectInputHandle)
    (bInputNodesCanBeDeleted : Bool)
    (h : ReachesModelBuilding w InputBrushObject BrushActor NodeName bInputNodesCanBeDeleted) :
    CreateInputNodeForBrush w InputBrushObject BrushActor ExcludeActors InputNodeId NodeName
      bExport OutHandle bInputNodesCanBeDeleted
    = uploadBrush w InputBrushObject BrushActor (identifierOf BrushActor) bExport
        bInputNodesCanBeDeleted
        (w.HapiGetParentNodeId (targetNodeId w BrushActor NodeName bInputNodesCanBeDeleted))
        ⟨targetNodeId w BrushActor NodeName bInputNodesCanBeDeleted, OutHandle,
          setupTrace w BrushActor NodeName bInputNodesCanBeDeleted⟩ := by
  obtain ⟨hActor, hBrush, hIgnore, hReuse, hNode⟩ := h
  have hlookup : (if (w.NodeExistsAndIsNotDirty (identifierOf BrushActor)).1 = true then
      w.GetHAPINodeId (w.NodeExistsAndIsNotDirty (identifierOf BrushActor)).2 else none)
      = none := by
    split
    · exact hReuse (by assumption)
    · rfl
  unfold CreateInputNodeForBrush
  simp only [hActor, hBrush, hIgnore, hlookup, Bool.not_true, Bool.false_eq_true, if_false]
  by_cases hValid : w.IsHoudiniNodeValid (registeredNodeId w BrushActor) = true
  · have hValid2 := hValid
    simp only [registeredNodeId] at hValid2
    simp [createOrUpdateNode, Frame.log, targetNodeId, setupTrace, hValid, hValid2,
      registeredNodeId]
  · have hValid2 := hValid
    simp only [registeredNodeId] at hValid2
    rcases hNode with hNode | ⟨hCreated, hNew, hClean, hConnect, hDisplay⟩
    · exact absurd hNode hValid
    · simp only [createdNode] at hCreated hNew hClean hConnect hDisplay
      simp [createOrUpdateNode, Frame.log, targetNodeId, setupTrace, hValid, hValid2,
        registeredNodeId, checkAll, issued, createdNode, cleanNodeSteps, hCreated, hNew,
        hClean, hConnect, hDisplay]

/-! ## The calls of a whole run -/

theorem mem_trace_cases {w : World} {InputBrushObject : UHoudiniInputBrush}
    {BrushActor : ABrush} {ExcludeActors : Option (List Nat)} {InputNodeId : HAPI_NodeId}
    {NodeName : String} {bExport : Bool} {OutHandle : FUnrealObjectInputHandle}
    {bDel : Bool} {e : Event}
    (h : e ∈ (CreateInputNodeForBrush w InputBrushObject BrushActor ExcludeActors InputNodeId
      NodeName bExport OutHandle bDel).trace) :
    (∃ Handle b ok, e = ⟨.UpdateInputNodeCanBeDeleted Handle b, ok⟩) ∨
    (∃ ok, e = ⟨.EnsureParentsExist (identifierOf BrushActor) bDel, ok⟩) ∨
    (∃ Name Parent ok, e = ⟨.CreateInputNode Name Parent, ok⟩) ∨
    (∃ NewNodeId, ∃ c ∈ cleanNodeSteps w NewNodeId, e = ⟨c.1, c.2⟩) ∨
    (∃ Target, e ∈ (brushScript w InputBrushObject BrushActor (identifierOf BrushActor)
      bExport bDel (w.HapiGetParentNodeId Target) Target).trace) := by
  by_cases hActor : BrushActor.IsValid = true
  swap
  · simp [CreateInputNodeForBrush, hActor, Frame.exit] at h
  by_cases hBrush : BrushActor.BrushIsValid = true
  swap
  · simp [CreateInputNodeForBrush, hBrush, Frame.exit] at h
  by_cases hIgnore : InputBrushObject.ShouldIgnoreThisInput = false
  swap
  · simp [CreateInputNodeForBrush, hIgnore, Frame.exit] at h
  by_cases hReuse : (w.NodeExistsAndIsNotDirty (identifierOf BrushActor)).1 = true →
      w.GetHAPINodeId (w.NodeExistsAndIsNotDirty (identifierOf BrushActor)).2 = none
  · rw [(rebuild_closed_form w InputBrushObject BrushActor ExcludeActors InputNodeId NodeName
      bExport OutHandle bDel hActor hBrush hIgnore hReuse).1] at h
    rcases List.mem_cons.1 h with h | h
    · exact Or.inr (Or.inl ⟨_, h⟩)
    · rcases mem_nodeScript_trace h with h | h | h
      · exact Or.inr (Or.inr (Or.inl ⟨_, _, _, h⟩))
      · exact Or.inr (Or.inr (Or.inr (Or.inl ⟨_, h⟩)))
      · exact Or.inr (Or.inr (Or.inr (Or.inr h)))
  · simp only [Classical.not_imp] at hReuse
    obtain ⟨hExists, hNode⟩ := hReuse
    obtain ⟨NodeId, hNode⟩ := Option.ne_none_iff_exists'.1 hNode
    left
    cases bDel
    · simp only [CreateInputNodeForBrush, hActor, hBrush, hIgnore, hExists, hNode, Frame.exit,
        Frame.log, Bool.not_true, Bool.not_false, Bool.false_eq_true, if_false, if_true,
        List.nil_append, List.mem_singleton] at h
      exact ⟨_, _, _, h⟩
    · simp [CreateInputNodeForBrush, hActor, hBrush, hIgnore, hExists, hNode, Frame.exit,
        Frame.log] at h

/-- Every geometry call and every registration of a run belongs to the geometry script of
the model's face counts, for some target node. -/
theorem mem_trace_geometry {w : World} {InputBrushObject : UHoudiniInputBrush}
    {BrushActor : ABrush} {ExcludeActors : Option (List Nat)} {InputNodeId : HAPI_NodeId}
    {NodeName : String} {bExport : Bool} {OutHandle : FUnrealObjectInputHandle}
    {bDel : Bool} {e : Event}
    (h : e ∈ (CreateInputNodeForBrush w InputBrushObject BrushActor ExcludeActors InputNodeId
      NodeName bExport OutHandle bDel).trace)
    (hg : e.call.isGeometryCall = true ∨ e.call.isAddNodeOrUpdateNode = true) :
    (brushModelOf w InputBrushObject).Points.length ≠ 0 ∧
    ∃ Target NumIndices FaceCountBuffer,
      faceCountLoop (brushModelOf w InputBrushObject).Nodes 0
        (0, SetNumUninitialized w.UninitInt (brushModelOf w InputBrushObject).Nodes.length)
        = some (NumIndices, FaceCountBuffer) ∧
      e ∈ (geometryScript w BrushActor.ActorTransform (brushModelOf w InputBrushObject)
        (identifierOf BrushActor) bExport bDel (w.HapiGetParentNodeId Target) Target NumIndices
        FaceCountBuffer).trace := by
  rcases mem_trace_cases h with ⟨_, _, _, he⟩ | ⟨_, he⟩ | ⟨_, _, _, he⟩ | ⟨_, c, hc, he⟩ |
    ⟨Target, he⟩
  · subst he; simp [Call.isGeometryCall, Call.isAddNodeOrUpdateNode] at hg
  · subst he; simp [Call.isGeometryCall, Call.isAddNodeOrUpdateNode] at hg
  · subst he; simp [Call.isGeometryCall, Call.isAddNodeOrUpdateNode] at hg
  · simp only [cleanNodeSteps, List.mem_cons, List.mem_singleton, List.not_mem_nil,
      or_false] at hc
    rcases hc with hc | hc | hc <;> subst hc <;> subst he <;>
      simp [Call.isGeometryCall, Call.isAddNodeOrUpdateNode] at hg
  · rcases mem_brushScript_trace he with ⟨_, he⟩ | ⟨hne, NumIndices, FaceCountBuffer, hfc, he⟩
    · subst he; simp [Call.isGeometryCall, Call.isAddNodeOrUpdateNode] at hg
    · refine ⟨hne, Target, NumIndices, FaceCountBuffer, hfc, ?_⟩
      rcases he with ⟨c, hc, he⟩ | he
      · unfold transformSteps at hc
        split at hc
        · simp only [List.mem_singleton] at hc
          subst hc; subst he
          simp [Call.isGeometryCall, Call.isAddNodeOrUpdateNode] at hg
        · simp at hc
      · exact he

/-! ## What the geometry calls carry -/

theorem setPartInfo_inv {w : World} {InputBrushObject : UHoudiniInputBrush}
    {BrushActor : ABrush} {ExcludeActors : Option (List Nat)} {InputNodeId : HAPI_NodeId}
    {NodeName : String} {bExport : Bool} {OutHandle : FUnrealObjectInputHandle}
    {bDel : Bool} {NodeId : HAPI_NodeId} {PartId : Int} {Part : HAPI_PartInfo} {ok : Bool}
    (h : ⟨.SetPartInfo NodeId PartId Part, ok⟩ ∈ (CreateInputNodeForBrush w InputBrushObject
      BrushActor ExcludeActors InputNodeId NodeName bExport OutHandle bDel).trace) :
    ∃ NumIndices FaceCountBuffer,
      faceCountLoop (brushModelOf w InputBrushObject).Nodes 0
        (0, SetNumUninitialized w.UninitInt (brushModelOf w InputBrushObject).Nodes.length)
        = some (NumIndices, FaceCountBuffer) ∧
      Part = makePart NumIndices FaceCountBuffer (brushModelOf w InputBrushObject).Points.length
      := by
  obtain ⟨_, Target, NumIndices, FaceCountBuffer, hfc, he⟩ :=
    mem_trace_geometry h (Or.inl rfl)
  refine ⟨NumIndices, FaceCountBuffer, hfc, ?_⟩
  rcases mem_geometryScript_trace he with ⟨c, hc, he⟩ | ⟨_, _, c, hc, he⟩ |
    ⟨b, _, ⟨c, hc, he⟩ | he⟩
  · simp only [partSteps, List.mem_cons, List.mem_singleton, List.not_mem_nil, or_false] at hc
    rcases hc with hc | hc <;> subst hc <;> simp at he
    exact he.1.2.2
  · simp only [positionSteps, List.mem_singleton] at hc
    subst hc; simp at he
  · simp only [vertexDataSteps, List.mem_cons, List.mem_singleton, List.not_mem_nil,
      or_false] at hc
    rcases hc with hc | hc | hc | hc | hc | hc | hc | hc <;> subst hc <;> simp at he
  · simp at he

theorem setVertexList_inv {w : World} {InputBrushObject : UHoudiniInputBrush}
    {BrushActor : ABrush} {ExcludeActors : Option (List Nat)} {InputNodeId : HAPI_NodeId}
    {NodeName : String} {bExport : Bool} {OutHandle : FUnrealObjectInputHandle}
    {bDel : Bool} {NodeId : HAPI_NodeId} {PartId : Int} {Indices : List Int} {ok : Bool}
    (h : ⟨.HapiSetVertexList Indices NodeId PartId, ok⟩ ∈ (CreateInputNodeForBrush w
      InputBrushObject BrushActor ExcludeActors InputNodeId NodeName bExport OutHandle
      bDel).trace) :
    ∃ NumIndices FaceCountBuffer b,
      faceCountLoop (brushModelOf w InputBrushObject).Nodes 0
        (0, SetNumUninitialized w.UninitInt (brushModelOf w InputBrushObject).Nodes.length)
        = some (NumIndices, FaceCountBuffer) ∧
      buildVertexBuffers w BrushActor.ActorTransform (brushModelOf w InputBrushObject) NumIndices
        = some b ∧
      Indices = b.Indices := by
  obtain ⟨_, Target, NumIndices, FaceCountBuffer, hfc, he⟩ :=
    mem_trace_geometry h (Or.inl rfl)
  rcases mem_geometryScript_trace he with ⟨c, hc, he⟩ | ⟨_, _, c, hc, he⟩ |
    ⟨b, hb, ⟨c, hc, he⟩ | he⟩
  · simp only [partSteps, List.mem_cons, List.mem_singleton, List.not_mem_nil, or_false] at hc
    rcases hc with hc | hc <;> subst hc <;> simp at he
  · simp only [positionSteps, List.mem_singleton] at hc
    subst hc; simp at he
  · refine ⟨NumIndices, FaceCountBuffer, b, hfc, hb, ?_⟩
    simp only [vertexDataSteps, List.mem_cons, List.mem_singleton, List.not_mem_nil,
      or_false] at hc
    rcases hc with hc | hc | hc | hc | hc | hc | hc | hc <;> subst hc <;> simp at he
    exact he.1.1
  · simp at he

theorem setFaceCounts_inv {w : World} {InputBrushObject : UHoudiniInputBrush}
    {BrushActor : ABrush} {ExcludeActors : Option (List Nat)} {InputNodeId : HAPI_NodeId}
    {NodeName : String} {bExport : Bool} {OutHandle : FUnrealObjectInputHandle}
    {bDel : Bool} {NodeId : HAPI_NodeId} {PartId : Int} {FaceCounts : List Int} {ok : Bool}
    (h : ⟨.HapiSetFaceCounts FaceCounts NodeId PartId, ok⟩ ∈ (CreateInputNodeForBrush w
      InputBrushObject BrushActor ExcludeActors InputNodeId NodeName bExport OutHandle
      bDel).trace) :
    ∃ NumIndices,
      faceCountLoop (brushModelOf w InputBrushObject).Nodes 0
        (0, SetNumUninitialized w.UninitInt (brushModelOf w InputBrushObject).Nodes.length)
        = some (NumIndices, FaceCounts) := by
  obtain ⟨_, Target, NumIndices, FaceCountBuffer, hfc, he⟩ :=
    mem_trace_geometry h (Or.inl rfl)
  rcases mem_geometryScript_trace he with ⟨c, hc, he⟩ | ⟨_, _, c, hc, he⟩ |
    ⟨b, hb, ⟨c, hc, he⟩ | he⟩
  · simp only [partSteps, List.mem_cons, List.mem_singleton, List.not_mem_nil, or_false] at hc
    rcases hc with hc | hc <;> subst hc <;> simp at he
  · simp only [positionSteps, List.mem_singleton] at hc
    subst hc; simp at he
  · refine ⟨NumIndices, ?_⟩
    simp only [vertexDataSteps, List.mem_cons, List.mem_singleton, List.not_mem_nil,
      or_false] at hc
    rcases hc with hc | hc | hc | hc | hc | hc | hc | hc <;> subst hc <;> simp at he
    rw [he.1.1]; exact hfc
  · simp at he

/-! ## Arrays and loops -/

theorem length_SetNumUninitialized {α : Type} (g : Nat → α) (n : Nat) :
    (SetNumUninitialized g n).length = n := by
  simp [SetNumUninitialized]

theorem readAt_eq_some {α : Type} {a : List α} {i : Int} {v : α} (h : readAt a i = some v) :
    0 ≤ i ∧ i < a.length ∧ a[i.toNat]? = some v := by
  unfold readAt at h
  split at h
  · rename_i h0
    refine ⟨h0, ?_, h⟩
    have := (List.getElem?_eq_some.1 h).1
    omega
  · simp at h

theorem writeAt_eq_some {α : Type} {a a' : List α} {i : Nat} {v : α}
    (h : writeAt a i v = some a') : i < a.length ∧ a' = a.set i v := by
  unfold writeAt at h
  split at h
  · rename_i hi
    exact ⟨hi, (Option.some.inj h).symm⟩
  · simp at h

theorem faceCountLoop_spec (nodes : List FBspNode) :
    ∀ (k : Nat) (NumIndices : Int) (pre suf : List Int) (r : Int × List Int),
      pre.length = k → nodes.length ≤ suf.length →
      faceCountLoop nodes k (NumIndices, pre ++ suf) = some r →
      r.2 = pre ++ nodes.map (fun n => (n.NumVertices : Int)) ++ suf.drop nodes.length ∧
      r.1 = NumIndices + (nodes.map (fun n => (n.NumVertices : Int))).sum := by
  induction nodes with
  | nil =>
    intro k NumIndices pre suf r _ _ h
    simp only [faceCountLoop, Option.some.injEq] at h
    subst h
    simp
  | cons Node rest ih =>
    intro k NumIndices pre suf r hk hlen h
    cases suf with
    | nil => simp at hlen
    | cons x suf' =>
      have hw : writeAt (pre ++ x :: suf') k (Node.NumVertices : Int)
          = some ((pre ++ [(Node.NumVertices : Int)]) ++ suf') := by
        unfold writeAt
        simp [← hk]
      simp only [faceCountLoop, hw, Option.bind_eq_bind, Option.some_bind] at h
      split at h
      · simp at h
      · obtain ⟨h1, h2⟩ := ih (k + 1) (NumIndices + Node.NumVertices)
          (pre ++ [(Node.NumVertices : Int)]) suf' r (by simp [hk])
          (by simpa using hlen) h
        refine ⟨?_, ?_⟩
        · rw [h1]; simp
        · rw [h2]; simp; ring

/-- The face count buffer is the list of NumVertices of the nodes, and NumIndices their
sum, within the range of an int. -/
theorem faceCountLoop_eq {g : Nat → Int} {nodes : List FBspNode} {r : Int × List Int}
    (h : faceCountLoop nodes 0 (0, SetNumUninitialized g nodes.length) = some r) :
    r.2 = nodes.map (fun n => (n.NumVertices : Int)) ∧
    r.1 = (nodes.map (fun n => (n.NumVertices : Int))).sum := by
  have := faceCountLoop_spec nodes 0 0 [] (SetNumUninitialized g nodes.length) r rfl
    (by simp [length_SetNumUninitialized]) (by simpa using h)
  have hdrop : (SetNumUninitialized g nodes.length).drop nodes.length = [] := by
    apply List.drop_of_length_le
    simp [length_SetNumUninitialized]
  simpa [hdrop] using this

theorem readAt_set_self {a : List Int} {i : Nat} {v x : Int}
    (h : readAt (a.set i v) (i : Int) = some x) : x = v := by
  obtain ⟨_, hlt, hget⟩ := readAt_eq_some h
  simp only [Int.toNat_ofNat, List.length_set] at hget hlt
  rw [List.getElem?_set_self (by omega)] at hget
  exact (Option.some.inj hget).symm

/-- One iteration of the vertex loop that does not stop: every read and write is in
range, and the loop goes on with the three buffers written at the cursor. -/
theorem nodeVertexLoop_succ_inv {w : World} {ActorTransform : FTransform} {BrushModel : UModel}
    {Node : FBspNode} {Surf : FBspSurf} {left k : Nat} {b b' : VertexBuffers}
    (h : nodeVertexLoop w ActorTransform BrushModel Node Surf (left + 1) k b = some b') :
    ∃ Vert N vU vV Position Base,
      readAt BrushModel.Verts (Node.iVertPool + k) = some Vert ∧
      b.iVertex < b.Indices.length ∧
      readAt BrushModel.Vectors Surf.vNormal = some N ∧
      b.iVertex < b.OutNormals.length ∧
      readAt BrushModel.Vectors Surf.vTextureU = some vU ∧
      readAt BrushModel.Vectors Surf.vTextureV = some vV ∧
      readAt BrushModel.Points Vert.pVertex = some Position ∧
      readAt BrushModel.Points Surf.pBase = some Base ∧
      b.iVertex < b.OutUV.length ∧
      nodeVertexLoop w ActorTransform BrushModel Node Surf left (k + 1)
        { b with
          iVertex := b.iVertex + 1
          Indices := b.Indices.set b.iVertex Vert.pVertex
          OutNormals := b.OutNormals.set b.iVertex
            ⟨(w.GetSafeNormal (w.NmlInvXform ActorTransform N)).X,
             (w.GetSafeNormal (w.NmlInvXform ActorTransform N)).Z,
             (w.GetSafeNormal (w.NmlInvXform ActorTransform N)).Y⟩
          OutUV := b.OutUV.set b.iVertex
            ⟨w.FloatDivide (w.DotProduct (w.VectorSubtract Position Base) vU)
               w.GetGlobalBSPTexelScale,
             w.FloatDivide (-(w.DotProduct (w.VectorSubtract Position Base) vV))
               w.GetGlobalBSPTexelScale, 0⟩ } = some b' := by
  simp only [nodeVertexLoop, Option.bind_eq_bind, Option.bind_eq_some] at h
  obtain ⟨Vert, hVert, Indices, hIdx, N, hN, OutNormals, hON, vU, hvU, vV, hvV, Index, hIndex,
    Position, hPos, Base, hBase, OutUV, hUV, hrec⟩ := h
  obtain ⟨hI1, hI2⟩ := writeAt_eq_some hIdx
  obtain ⟨hN1, hN2⟩ := writeAt_eq_some hON
  obtain ⟨hU1, hU2⟩ := writeAt_eq_some hUV
  subst hI2 hN2 hU2
  have hIndexEq : Index = Vert.pVertex := readAt_set_self hIndex
  subst hIndexEq
  exact ⟨Vert, N, vU, vV, Position, Base, hVert, hI1, hN, hN1, hvU, hvV, hPos, hBase, hU1, hrec⟩

/-- One iteration of the node loop that does not stop. -/
theorem nodeLoop_cons_inv {w : World} {ActorTransform : FTransform} {BrushModel : UModel}
    {Node : FBspNode} {rest : List FBspNode} {k : Nat} {b b' : VertexBuffers}
    (h : nodeLoop w ActorTransform BrushModel (Node :: rest) k b = some b') :
    ∃ Surf b1,
      readAt BrushModel.Surfs Node.iSurf = some Surf ∧
      nodeVertexLoop w ActorTransform BrushModel Node Surf Node.NumVertices 0 b = some b1 ∧
      k < b1.MaterialIndices.length ∧
      nodeLoop w ActorTransform BrushModel rest (k + 1)
        { b1 with
          MaterialMap := (FindOrAdd b1.MaterialMap Surf.Material b1.MaterialMap.length).1
          MaterialIndices := b1.MaterialIndices.set k
            (FindOrAdd b1.MaterialMap Surf.Material b1.MaterialMap.length).2 } = some b' := by
  simp only [nodeLoop, Option.bind_eq_bind, Option.bind_eq_some] at h
  obtain ⟨Surf, hSurf, b1, hb1, MaterialIndices, hMI, hrec⟩ := h
  obtain ⟨h1, h2⟩ := writeAt_eq_some hMI
  subst h2
  exact ⟨Surf, b1, hSurf, hb1, h1, hrec⟩

/-- What the vertices of one node leave unchanged, and where they leave the cursor. -/
theorem nodeVertexLoop_frame {w : World} {ActorTransform : FTransform} {BrushModel : UModel}
    {Node : FBspNode} {Surf : FBspSurf} (left : Nat) :
    ∀ (k : Nat) (b b' : VertexBuffers),
      nodeVertexLoop w ActorTransform BrushModel Node Surf left k b = some b' →
      b'.iVertex = b.iVertex + left ∧ b'.Indices.length = b.Indices.length ∧
      b'.OutNormals.length = b.OutNormals.length ∧ b'.OutUV.length = b.OutUV.length ∧
      b'.MaterialIndices = b.MaterialIndices ∧ b'.MaterialMap = b.MaterialMap ∧
      (Filled b BrushModel.Points.length → Filled b' BrushModel.Points.length) := by
  induction left with
  | zero =>
    intro k b b' h
    simp only [nodeVertexLoop, Option.some.injEq] at h
    subst h
    simp
  | succ left ih =>
    intro k b b' h
    obtain ⟨Vert, N, vU, vV, Position, Base, _, hI, _, _, _, _, hPos, _, _, hrec⟩ :=
      nodeVertexLoop_succ_inv h
    obtain ⟨h1, h2, h3, h4, h5, h6, h7⟩ := ih _ _ _ hrec
    simp only [List.length_set] at h1 h2 h3 h4 h5 h6
    refine ⟨by omega, h2, h3, h4, h5, h6, ?_⟩
    intro hFilled
    apply h7
    intro i hi
    simp only at hi
    by_cases hEq : i = b.iVertex
    · subst hEq
      obtain ⟨h0, hlt, _⟩ := readAt_eq_some hPos
      exact ⟨Vert.pVertex, by simp [List.getElem?_set_self hI], h0, hlt⟩
    · obtain ⟨x, hx, hx0, hx1⟩ := hFilled i (by omega)
      refine ⟨x, ?_, hx0, hx1⟩
      simp only
      rw [List.getElem?_set_ne (Ne.symm hEq)]
      exact hx

/-- What the node loop leaves unchanged, and where it leaves the cursor. -/
theorem nodeLoop_frame {w : World} {ActorTransform : FTransform} {BrushModel : UModel}
    (nodes : List FBspNode) :
    ∀ (k : Nat) (b b' : VertexBuffers),
      nodeLoop w ActorTransform BrushModel nodes k b = some b' →
      b'.iVertex = b.iVertex + (nodes.map (fun n => n.NumVertices)).sum ∧
      b'.Indices.length = b.Indices.length ∧
      b'.OutNormals.length = b.OutNormals.length ∧ b'.OutUV.length = b.OutUV.length ∧
      b'.MaterialIndices.length = b.MaterialIndices.length ∧
      (Filled b BrushModel.Points.length → Filled b' BrushModel.Points.length) := by
  induction nodes with
  | nil =>
    intro k b b' h
    simp only [nodeLoop, Option.some.injEq] at h
    subst h
    simp
  | cons Node rest ih =>
    intro k b b' h
    obtain ⟨Surf, b1, _, hb1, _, hrec⟩ := nodeLoop_cons_inv h
    obtain ⟨h1, h2, h3, h4, h5, _, h7⟩ := nodeVertexLoop_frame _ _ _ _ hb1
    obtain ⟨g1, g2, g3, g4, g5, g7⟩ := ih _ _ _ hrec
    simp only [List.length_set] at g1 g2 g3 g4 g5
    refine ⟨?_, by omega, by omega, by omega, ?_, ?_⟩
    · simp only [List.map_cons, List.sum_cons]; omega
    · rw [g5, h5]
    · intro hFilled
      apply g7
      exact h7 hFilled

/-- The buffers of a run that does not stop: their sizes, and every vertex index is a
valid point index once the cursor has reached the end of the index buffer. -/
theorem buildVertexBuffers_spec {w : World} {ActorTransform : FTransform} {BrushModel : UModel}
    {NumIndices : Int} {b : VertexBuffers}
    (h : buildVertexBuffers w ActorTransform BrushModel NumIndices = some b) :
    0 ≤ NumIndices ∧
    (b.Indices.length : Int) = NumIndices ∧ (b.OutNormals.length : Int) = NumIndices ∧
    (b.OutUV.length : Int) = NumIndices ∧
    b.MaterialIndices.length = BrushModel.Nodes.length ∧
    b.iVertex = (BrushModel.Nodes.map (fun n => n.NumVertices)).sum ∧
    Filled b BrushModel.Points.length := by
  unfold buildVertexBuffers at h
  split at h
  · simp at h
  · rename_i hneg
    obtain ⟨h1, h2, h3, h4, h5, h6⟩ := nodeLoop_frame _ _ _ _ h
    simp only [length_SetNumUninitialized] at h1 h2 h3 h4 h5
    refine ⟨by omega, by omega, by omega, by omega, h5, by omega, ?_⟩
    apply h6
    intro i hi
    simp at hi

/-! ## C1: reuse -/

/-- C1. Reuse: with a valid, non-ignored brush, when the registry reports a node that
exists and is not dirty and its handle resolves to a node id, the call returns true,
InputNodeId is that node id, OutHandle is the registered handle, and no call goes to
the remote engine. -/
theorem reuse_returns_registered_node (w : World) (InputBrushObject : UHoudiniInputBrush)
    (BrushActor : ABrush) (ExcludeActors : Option (List Nat)) (InputNodeId : HAPI_NodeId)
    (NodeName : String) (bExport : Bool) (OutHandle : FUnrealObjectInputHandle)
    (bInputNodesCanBeDeleted : Bool) (NodeId : HAPI_NodeId)
    (hActor : BrushActor.IsValid = true) (hBrush : BrushActor.BrushIsValid = true)
    (hIgnore : InputBrushObject.ShouldIgnoreThisInput = false)
    (hExists : (w.NodeExistsAndIsNotDirty (identifierOf BrushActor)).1 = true)
    (hNode : w.GetHAPINodeId (w.NodeExistsAndIsNotDirty (identifierOf BrushActor)).2
      = some NodeId) :
    (CreateInputNodeForBrush w InputBrushObject BrushActor ExcludeActors InputNodeId NodeName
      bExport OutHandle bInputNodesCanBeDeleted).ret = some true ∧
    (CreateInputNodeForBrush w InputBrushObject BrushActor ExcludeActors InputNodeId NodeName
      bExport OutHandle bInputNodesCanBeDeleted).InputNodeId = NodeId ∧
    (CreateInputNodeForBrush w InputBrushObject BrushActor ExcludeActors InputNodeId NodeName
      bExport OutHandle bInputNodesCanBeDeleted).OutHandle
      = (w.NodeExistsAndIsNotDirty (identifierOf BrushActor)).2 ∧
    ∀ e ∈ (CreateInputNodeForBrush w InputBrushObject BrushActor ExcludeActors InputNodeId
      NodeName bExport OutHandle bInputNodesCanBeDeleted).trace, e.call.isRemote = false := by
  cases bInputNodesCanBeDeleted <;>
    simp [CreateInputNodeForBrush, hActor, hBrush, hIgnore, hExists, hNode, Frame.exit,
      Frame.log, Call.isRemote]

theorem reuse_returns_registered_node_witness :
    (CreateInputNodeForBrush (registeredWorld sampleModel) sampleInput sampleBrush none 42 "brush"
      false none false).ret = some true ∧
    (CreateInputNodeForBrush (registeredWorld sampleModel) sampleInput sampleBrush none 42 "brush"
      false none false).InputNodeId = 33 ∧
    (CreateInputNodeForBrush (registeredWorld sampleModel) sampleInput sampleBrush none 42 "brush"
      false none false).OutHandle
      = ((registeredWorld sampleModel).NodeExistsAndIsNotDirty (identifierOf sampleBrush)).2 ∧
    ∀ e ∈ (CreateInputNodeForBrush (registeredWorld sampleModel) sampleInput sampleBrush none 42
      "brush" false none false).trace, e.call.isRemote = false :=
  reuse_returns_registered_node (registeredWorld sampleModel) sampleInput sampleBrush none 42
    "brush" false none false 33 rfl rfl rfl rfl rfl

/-! ## C2: empty geometry -/

/-- C2. Empty-geometry teardown: a call that reaches model building and builds a model
with zero points requests the deletion of the object node of the brush's input node,
issues no SetPartInfo, AddAttribute, SetAttributeData, vertex-list, face-count or commit
call, sets InputNodeId to -1 and returns true. -/
theorem empty_model_deletes_object_node (w : World) (InputBrushObject : UHoudiniInputBrush)
    (BrushActor : ABrush) (ExcludeActors : Option (List Nat)) (InputNodeId : HAPI_NodeId)
    (NodeName : String) (bExport : Bool) (OutHandle : FUnrealObjectInputHandle)
    (bInputNodesCanBeDeleted : Bool)
    (hReach : ReachesModelBuilding w InputBrushObject BrushActor NodeName
      bInputNodesCanBeDeleted)
    (hEmpty : (brushModelOf w InputBrushObject).Points.length = 0) :
    (CreateInputNodeForBrush w InputBrushObject BrushActor ExcludeActors InputNodeId NodeName
      bExport OutHandle bInputNodesCanBeDeleted).ret = some true ∧
    (CreateInputNodeForBrush w InputBrushObject BrushActor ExcludeActors InputNodeId NodeName
      bExport OutHandle bInputNodesCanBeDeleted).InputNodeId = -1 ∧
    (∃ ok, (CreateInputNodeForBrush w InputBrushObject BrushActor ExcludeActors InputNodeId
      NodeName bExport OutHandle bInputNodesCanBeDeleted).trace.getLast?
        = some ⟨.DeleteNode (w.HapiGetParentNodeId
            (targetNodeId w BrushActor NodeName bInputNodesCanBeDeleted)), ok⟩) ∧
    ∀ e ∈ (CreateInputNodeForBrush w InputBrushObject BrushActor ExcludeActors InputNodeId
      NodeName bExport OutHandle bInputNodesCanBeDeleted).trace,
      e.call.isGeometryCall = false := by
  rw [reaches_eq_uploadBrush w InputBrushObject BrushActor ExcludeActors InputNodeId NodeName
    bExport OutHandle bInputNodesCanBeDeleted hReach]
  simp only [brushModelOf] at hEmpty
  simp only [uploadBrush, hEmpty, if_true, Frame.log, Frame.exit]
  refine ⟨trivial, trivial, ⟨_, List.getLast?_concat _⟩, ?_⟩
  intro e he
  simp only [List.mem_append, List.mem_singleton] at he
  rcases he with he | he
  · simp only [setupTrace, List.mem_cons] at he
    rcases he with he | he
    · subst he; rfl
    · split at he
      · simp at he
      · simp only [List.mem_cons, List.mem_singleton, List.not_mem_nil, or_false] at he
        rcases he with he | he | he | he <;> subst he <;> rfl
  · subst he; rfl

theorem empty_model_deletes_object_node_witness :
    (CreateInputNodeForBrush (okWorld emptyModel) sampleInput sampleBrush none 42 "brush"
      false none true).ret = some true ∧
    (CreateInputNodeForBrush (okWorld emptyModel) sampleInput sampleBrush none 42 "brush"
      false none true).InputNodeId = -1 ∧
    (∃ ok, (CreateInputNodeForBrush (okWorld emptyModel) sampleInput sampleBrush none 42 "brush"
      false none true).trace.getLast?
        = some ⟨.DeleteNode ((okWorld emptyModel).HapiGetParentNodeId
            (targetNodeId (okWorld emptyModel) sampleBrush "brush" true)), ok⟩) ∧
    ∀ e ∈ (CreateInputNodeForBrush (okWorld emptyModel) sampleInput sampleBrush none 42 "brush"
      false none true).trace, e.call.isGeometryCall = false :=
  empty_model_deletes_object_node (okWorld emptyModel) sampleInput sampleBrush none 42 "brush"
    false none true (by decide) rfl

/-! ## C3, C4: topology -/

theorem sum_cast_numVertices (nodes : List FBspNode) :
    (nodes.map (fun n => (n.NumVertices : Int))).sum
      = (((nodes.map (fun n => n.NumVertices)).sum : Nat) : Int) := by
  induction nodes with
  | nil => rfl
  | cons n rest ih => simp [ih]

/-- C3. Topology sum: in every run, the part info declares as vertexCount the length of
the uploaded vertex-index buffer and as faceCount the number of BSP nodes, and the
uploaded face-count buffer has one entry per BSP node and its entries sum to the length of
the uploaded vertex-index buffer. -/
theorem topology_sum (w : World) (InputBrushObject : UHoudiniInputBrush)
    (BrushActor : ABrush) (ExcludeActors : Option (List Nat)) (InputNodeId : HAPI_NodeId)
    (NodeName : String) (bExport : Bool) (OutHandle : FUnrealObjectInputHandle)
    (bDel : Bool) (Indices : List Int) (Part : HAPI_PartInfo)
    (n1 n2 : HAPI_NodeId) (p1 p2 : Int) (ok1 ok2 : Bool)
    (hIdx : ⟨.HapiSetVertexList Indices n1 p1, ok1⟩ ∈ (CreateInputNodeForBrush w
      InputBrushObject BrushActor ExcludeActors InputNodeId NodeName bExport OutHandle
      bDel).trace)
    (hPart : ⟨.SetPartInfo n2 p2 Part, ok2⟩ ∈ (CreateInputNodeForBrush w InputBrushObject
      BrushActor ExcludeActors InputNodeId NodeName bExport OutHandle bDel).trace) :
    Part.vertexCount = Indices.length ∧
    Part.faceCount = (brushModelOf w InputBrushObject).Nodes.length ∧
    ∀ (FaceCounts : List Int) (n3 : HAPI_NodeId) (p3 : Int) (ok3 : Bool),
      ⟨.HapiSetFaceCounts FaceCounts n3 p3, ok3⟩ ∈ (CreateInputNodeForBrush w InputBrushObject
        BrushActor ExcludeActors InputNodeId NodeName bExport OutHandle bDel).trace →
      FaceCounts.length = (brushModelOf w InputBrushObject).Nodes.length ∧
      FaceCounts.sum = Indices.length := by
  obtain ⟨NumIndices, FaceCountBuffer, b, hfc, hb, hI⟩ := setVertexList_inv hIdx
  obtain ⟨NumIndices', FaceCountBuffer', hfc', hP⟩ := setPartInfo_inv hPart
  rw [hfc] at hfc'
  obtain ⟨hN, hF⟩ := Prod.mk.inj (Option.some.inj hfc')
  subst hN hF hI hP
  obtain ⟨hbuf, _⟩ := faceCountLoop_eq hfc
  obtain ⟨_, hlen, _⟩ := buildVertexBuffers_spec hb
  simp only at hbuf
  refine ⟨?_, ?_, ?_⟩
  · simp [makePart, hlen]
  · simp [makePart, hbuf]
  · intro FaceCounts n3 p3 ok3 hFc
    obtain ⟨NumIndices', hfc'⟩ := setFaceCounts_inv hFc
    rw [hfc] at hfc'
    obtain ⟨hN, hF⟩ := Prod.mk.inj (Option.some.inj hfc')
    subst hN hF
    obtain ⟨_, hsum⟩ := faceCountLoop_eq hfc
    simp only at hsum
    refine ⟨by simp [hbuf], ?_⟩
    rw [hlen, hsum, hbuf]

theorem topology_sum_witness :
    (⟨.HapiSetVertexList [0, 1, 2, 0, 2, 3, 1, 2, 3] 5 0, true⟩ : Event)
      ∈ (CreateInputNodeForBrush (okWorld sampleModel) sampleInput sampleBrush none 42 "brush"
        false none true).trace ∧
    (makePart 9 [3, 3, 0, 3] 4).vertexCount = ([0, 1, 2, 0, 2, 3, 1, 2, 3] : List Int).length ∧
    (makePart 9 [3, 3, 0, 3] 4).faceCount
      = (brushModelOf (okWorld sampleModel) sampleInput).Nodes.length ∧
    ∀ (FaceCounts : List Int) (n3 : HAPI_NodeId) (p3 : Int) (ok3 : Bool),
      ⟨.HapiSetFaceCounts FaceCounts n3 p3, ok3⟩ ∈ (CreateInputNodeForBrush (okWorld sampleModel)
        sampleInput sampleBrush none 42 "brush" false none true).trace →
      FaceCounts.length = (brushModelOf (okWorld sampleModel) sampleInput).Nodes.length ∧
      FaceCounts.sum = ([0, 1, 2, 0, 2, 3, 1, 2, 3] : List Int).length :=
  ⟨by decide,
   topology_sum (okWorld sampleModel) sampleInput sampleBrush none 42 "brush" false none true
    [0, 1, 2, 0, 2, 3, 1, 2, 3] (makePart 9 [3, 3, 0, 3] 4) 5 5 0 0 true true
    (by decide) (by decide)⟩

/-- C4. Topology index bound: in every run, the part info declares the number of model
points as pointCount, and every entry of the uploaded vertex-index buffer is non-negative
and strictly less than it. -/
theorem topology_index_bound (w : World) (InputBrushObject : UHoudiniInputBrush)
    (BrushActor : ABrush) (ExcludeActors : Option (List Nat)) (InputNodeId : HAPI_NodeId)
    (NodeName : String) (bExport : Bool) (OutHandle : FUnrealObjectInputHandle)
    (bDel : Bool) (Indices : List Int) (Part : HAPI_PartInfo)
    (n1 n2 : HAPI_NodeId) (p1 p2 : Int) (ok1 ok2 : Bool)
    (hIdx : ⟨.HapiSetVertexList Indices n1 p1, ok1⟩ ∈ (CreateInputNodeForBrush w
      InputBrushObject BrushActor ExcludeActors InputNodeId NodeName bExport OutHandle
      bDel).trace)
    (hPart : ⟨.SetPartInfo n2 p2 Part, ok2⟩ ∈ (CreateInputNodeForBrush w InputBrushObject
      BrushActor ExcludeActors InputNodeId NodeName bExport OutHandle bDel).trace) :
    Part.pointCount = (brushModelOf w InputBrushObject).Points.length ∧
    ∀ x ∈ Indices, 0 ≤ x ∧ x < Part.pointCount := by
  obtain ⟨NumIndices, FaceCountBuffer, b, hfc, hb, hI⟩ := setVertexList_inv hIdx
  obtain ⟨NumIndices', FaceCountBuffer', _, hP⟩ := setPartInfo_inv hPart
  subst hI hP
  obtain ⟨_, hsum⟩ := faceCountLoop_eq hfc
  obtain ⟨_, hlen, _, _, _, hcur, hFilled⟩ := buildVertexBuffers_spec hb
  simp only at hsum
  rw [sum_cast_numVertices] at hsum
  have hEnd : b.iVertex = b.Indices.length := by omega
  refine ⟨rfl, ?_⟩
  intro x hx
  obtain ⟨i, hi, hget⟩ := List.getElem_of_mem hx
  obtain ⟨y, hy, hy0, hy1⟩ := hFilled i (by omega)
  rw [List.getElem?_eq_getElem hi, hget] at hy
  obtain rfl := Option.some.inj hy
  exact ⟨hy0, by simpa [makePart] using hy1⟩

theorem topology_index_bound_witness :
    (⟨.HapiSetVertexList [0, 1, 2, 0, 2, 3, 1, 2, 3] 5 0, true⟩ : Event)
      ∈ (CreateInputNodeForBrush (okWorld sampleModel) sampleInput sampleBrush none 42 "brush"
        false none true).trace ∧
    (makePart 9 [3, 3, 0, 3] 4).pointCount
      = (brushModelOf (okWorld sampleModel) sampleInput).Points.length ∧
    ∀ x ∈ ([0, 1, 2, 0, 2, 3, 1, 2, 3] : List Int),
      0 ≤ x ∧ x < (makePart 9 [3, 3, 0, 3] 4).pointCount :=
  ⟨by decide,
   topology_index_bound (okWorld sampleModel) sampleInput sampleBrush none 42 "brush" false none
    true [0, 1, 2, 0, 2, 3, 1, 2, 3] (makePart 9 [3, 3, 0, 3] 4) 5 5 0 0 true true
    (by decide) (by decide)⟩

/-! ## C5, C6: materials -/

theorem lookup_wellNumbered (m : MaterialMapT) :
    ∀ (o : Nat), WellNumbered m o → ∀ x : UMaterialInterface,
      m.lookup x = if x ∈ keysOf m then some (((o + (keysOf m).indexOf x : Nat)) : Int)
        else none := by
  induction m with
  | nil => intro o _ x; simp [keysOf]
  | cons kv rest ih =>
    intro o h x
    obtain ⟨k, v⟩ := kv
    simp only [WellNumbered, List.map_cons, List.length_cons, List.range'_succ,
      List.cons.injEq] at h
    obtain ⟨hv, hrest⟩ := h
    have ih' := ih (o + 1) hrest x
    by_cases hx : x = k
    · subst hx
      simp [keysOf, hv]
    · have hbeq : (x == k) = false := by simpa using hx
      rw [List.lookup_cons, hbeq]
      simp only [ih', keysOf, List.map_cons, List.mem_cons, hx, false_or]
      rw [List.indexOf_cons_ne _ (Ne.symm hx)]
      by_cases hmem : x ∈ List.map Prod.fst rest
      · simp only [hmem, if_true, Option.some.injEq]
        push_cast
        omega
      · simp [hmem]

theorem findOrAdd_spec (m : MaterialMapT) (x : UMaterialInterface) (h : WellNumbered m 0) :
    WellNumbered (FindOrAdd m x m.length).1 0 ∧
    keysOf (FindOrAdd m x m.length).1 = (if x ∈ keysOf m then keysOf m else keysOf m ++ [x]) ∧
    (FindOrAdd m x m.length).2 = ((keysOf (FindOrAdd m x m.length).1).indexOf x : Nat) := by
  unfold FindOrAdd
  rw [lookup_wellNumbered m 0 h x]
  by_cases hx : x ∈ keysOf m
  · simp [hx, h]
  · simp only [hx, if_false]
    refine ⟨?_, ?_, ?_⟩
    · simp only [WellNumbered, List.map_append, List.map_cons, List.map_nil, List.length_append,
        List.length_singleton, List.range'_1_concat, Nat.zero_add] at h ⊢
      rw [h]
    · simp [keysOf]
    · simp only [keysOf, List.map_append, List.map_cons, List.map_nil]
      rw [List.indexOf_append_of_not_mem (by simpa [keysOf] using hx)]
      simp

theorem mem_firstSeen (l : List UMaterialInterface) (x : UMaterialInterface) :
    x ∈ firstSeen l ↔ x ∈ l := by
  induction l with
  | nil => simp [firstSeen]
  | cons y ys ih =>
    simp only [firstSeen, List.mem_cons, List.mem_filter, ih, decide_eq_true_eq]
    constructor
    · rintro (h | ⟨h, _⟩)
      · exact Or.inl h
      · exact Or.inr h
    · rintro (h | h)
      · exact Or.inl h
      · by_cases hxy : x = y
        · exact Or.inl hxy
        · exact Or.inr ⟨h, hxy⟩

theorem nodup_firstSeen (l : List UMaterialInterface) : (firstSeen l).Nodup := by
  induction l with
  | nil => simp [firstSeen]
  | cons y ys ih =>
    simp only [firstSeen, List.nodup_cons, List.mem_filter, decide_eq_true_eq, ne_eq,
      not_true_eq_false, and_false, not_false_eq_true, true_and]
    exact ih.filter _

theorem materialLoop_spec (xs : List UMaterialInterface) :
    ∀ m : MaterialMapT, WellNumbered m 0 →
      WellNumbered (materialLoop m xs).1 0 ∧
      keysOf (materialLoop m xs).1
        = keysOf m ++ (firstSeen xs).filter (fun y => decide (y ∉ keysOf m)) ∧
      (materialLoop m xs).2
        = xs.map (fun x => (((keysOf (materialLoop m xs).1).indexOf x : Nat) : Int)) := by
  induction xs with
  | nil => intro m h; simp [materialLoop, firstSeen, h]
  | cons x xs ih =>
    intro m h
    obtain ⟨hw, hk, hi⟩ := findOrAdd_spec m x h
    obtain ⟨hw', hk', hi'⟩ := ih _ hw
    simp only [materialLoop]
    refine ⟨hw', ?_, ?_⟩
    · rw [hk', hk]
      by_cases hx : x ∈ keysOf m
      · simp only [hx, if_true, firstSeen, List.filter_cons, not_true_eq_false,
          decide_False, Bool.false_eq_true, if_false, List.filter_filter,
          List.append_cancel_left_eq]
        apply List.filter_congr
        intro y _
        by_cases hy : y ∈ keysOf m
        · simp [hy]
        · have : y ≠ x := fun hxy => hy (hxy ▸ hx)
          simp [hy, this]
      · simp only [hx, if_false, firstSeen, List.filter_cons, not_false_eq_true, decide_True,
          if_true, List.filter_filter, List.append_assoc, List.singleton_append,
          List.append_cancel_left_eq, List.cons.injEq, true_and]
        apply List.filter_congr
        intro y _
        simp only [List.mem_append, List.mem_singleton, not_or, decide_not, Bool.decide_and,
          Bool.and_comm, ne_eq]
    · rw [hi']
      simp only [List.map_cons, List.cons.injEq, and_true]
      rw [hi, hk']
      have hmem : x ∈ keysOf (FindOrAdd m x m.length).1 := by
        rw [hk]
        by_cases hx : x ∈ keysOf m
        · simp [hx]
        · simp [hx]
      rw [List.indexOf_append_of_mem hmem]

theorem valueSort_wellNumbered (m : MaterialMapT) (h : WellNumbered m 0) : ValueSort m = m := by
  unfold ValueSort
  apply List.Sorted.insertionSort_eq
  have hp : List.Pairwise (fun a b : Int => a < b) (m.map Prod.snd) := by
    rw [h, List.pairwise_map]
    exact (List.pairwise_lt_range' 0 m.length).imp (by intro a b hab; exact_mod_cast hab)
  exact List.pairwise_map.1 hp

theorem materialsOf_wellNumbered (m : MaterialMapT) (h : WellNumbered m 0) :
    MaterialsOf m = keysOf m := by
  unfold MaterialsOf
  split
  · rw [valueSort_wellNumbered m h]; rfl
  · have : m = [] := by
      cases m with
      | nil => rfl
      | cons a l => simp at *
    subst this; rfl

theorem nodeLoop_materialLoop {w : World} {ActorTransform : FTransform} {BrushModel : UModel}
    (nodes : List FBspNode) :
    ∀ (k : Nat) (b b' : VertexBuffers) (pre suf : List Int),
      nodeLoop w ActorTransform BrushModel nodes k b = some b' →
      b.MaterialIndices = pre ++ suf → pre.length = k → nodes.length ≤ suf.length →
      ∃ mats : List UMaterialInterface,
        nodes.map (fun n => (readAt BrushModel.Surfs n.iSurf).map (fun s => s.Material))
          = mats.map some ∧
        b'.MaterialMap = (materialLoop b.MaterialMap mats).1 ∧
        b'.MaterialIndices
          = pre ++ (materialLoop b.MaterialMap mats).2 ++ suf.drop nodes.length := by
  induction nodes with
  | nil =>
    intro k b b' pre suf h hb _ _
    simp only [nodeLoop, Option.some.injEq] at h
    subst h
    exact ⟨[], by simp [materialLoop, hb]⟩
  | cons Node rest ih =>
    intro k b b' pre suf h hb hk hlen
    obtain ⟨Surf, b1, hSurf, hb1, _, hrec⟩ := nodeLoop_cons_inv h
    obtain ⟨_, _, _, _, hMI, hMM, _⟩ := nodeVertexLoop_frame _ _ _ _ hb1
    cases suf with
    | nil => simp at hlen
    | cons s suf' =>
      have hset : b1.MaterialIndices.set k
          (FindOrAdd b1.MaterialMap Surf.Material b1.MaterialMap.length).2
          = (pre ++ [(FindOrAdd b1.MaterialMap Surf.Material b1.MaterialMap.length).2])
              ++ suf' := by
        rw [hMI, hb, ← hk]
        simp
      obtain ⟨mats, hm, hmap, hidx⟩ := ih (k + 1) _ b' _ suf' hrec hset (by simp [hk])
        (by simpa using hlen)
      refine ⟨Surf.Material :: mats, ?_, ?_, ?_⟩
      · simp [hSurf, hm]
      · simp only [materialLoop]
        rw [hmap, hMM]
      · simp only [materialLoop]
        rw [hidx, hMM]
        simp

/-- The materials and the per-face material indices of a run that does not stop. -/
theorem buildVertexBuffers_materials {w : World} {ActorTransform : FTransform}
    {BrushModel : UModel} {NumIndices : Int} {b : VertexBuffers}
    (h : buildVertexBuffers w ActorTransform BrushModel NumIndices = some b) :
    ∃ mats : List UMaterialInterface,
      BrushModel.Nodes.map (fun n => (readAt BrushModel.Surfs n.iSurf).map (fun s => s.Material))
        = mats.map some ∧
      MaterialsOf b.MaterialMap = firstSeen mats ∧
      b.MaterialIndices = mats.map (fun x => (((firstSeen mats).indexOf x : Nat) : Int)) := by
  unfold buildVertexBuffers at h
  split at h
  · simp at h
  · obtain ⟨mats, hm, hmap, hidx⟩ := nodeLoop_materialLoop _ 0 _ b []
      (SetNumUninitialized w.UninitInt BrushModel.Nodes.length) h rfl rfl
      (by simp [length_SetNumUninitialized])
    have hw0 : WellNumbered [] 0 := by simp [WellNumbered]
    obtain ⟨hw, hk, hi⟩ := materialLoop_spec mats [] hw0
    have hkeys : keysOf (materialLoop [] mats).1 = firstSeen mats := by
      rw [hk]; simp [keysOf]
    simp only at hmap hidx
    refine ⟨mats, hm, ?_, ?_⟩
    · rw [hmap, materialsOf_wellNumbered _ hw, hkeys]
    · rw [hidx, hi, hkeys]
      have : List.drop BrushModel.Nodes.length
          (SetNumUninitialized w.UninitInt BrushModel.Nodes.length) = [] := by
        apply List.drop_of_length_le
        simp [length_SetNumUninitialized]
      simp [this]

/-- C5. Material dedup order: when the surface materials of the BSP nodes are mats, in node
order, the material list built for the upload is the list of the distinct members of mats
in first-seen order, and the material index of each face is the position of its material
in that list; for faces referencing [A, B, A, C] the list is [A, B, C] and the indices are
[0, 1, 0, 2]. -/
theorem material_dedup_order (w : World) (ActorTransform : FTransform) (BrushModel : UModel)
    (NumIndices : Int) (b : VertexBuffers) (mats : List UMaterialInterface)
    (hb : buildVertexBuffers w ActorTransform BrushModel NumIndices = some b)
    (hm : BrushModel.Nodes.map
      (fun n => (readAt BrushModel.Surfs n.iSurf).map (fun s => s.Material)) = mats.map some) :
    MaterialsOf b.MaterialMap = firstSeen mats ∧
    b.MaterialIndices
      = mats.map (fun x => (((MaterialsOf b.MaterialMap).indexOf x : Nat) : Int)) ∧
    ∀ A B C : UMaterialInterface, A ≠ B → A ≠ C → B ≠ C → mats = [A, B, A, C] →
      MaterialsOf b.MaterialMap = [A, B, C] ∧ b.MaterialIndices = [0, 1, 0, 2] := by
  obtain ⟨mats', hm', hM, hI⟩ := buildVertexBuffers_materials hb
  rw [hm] at hm'
  have hEq : mats = mats' := List.map_injective_iff.2 (Option.some_injective _) hm'
  subst hEq
  refine ⟨hM, by rw [hI, hM], ?_⟩
  intro A B C hAB hAC hBC hmats
  subst hmats
  rw [hI, hM]
  have h1 : firstSeen [A, B, A, C] = [A, B, C] := by
    simp [firstSeen, hAB, hAC, hBC, Ne.symm hAB, Ne.symm hAC, Ne.symm hBC]
  rw [h1]
  refine ⟨rfl, ?_⟩
  simp [List.indexOf_cons_ne, hAB, hAC, hBC, Ne.symm hAB, Ne.symm hAC, Ne.symm hBC]

theorem material_dedup_order_witness :
    ∃ b, buildVertexBuffers (okWorld fourFaceModel) 0 fourFaceModel 12 = some b ∧
      MaterialsOf b.MaterialMap = [11, 12, 13] ∧ b.MaterialIndices = [0, 1, 0, 2] :=
  ⟨_, rfl,
    (material_dedup_order (okWorld fourFaceModel) 0 fourFaceModel 12 _ [11, 12, 11, 13] rfl
      (by decide)).2.2 11 12 13 (by decide) (by decide) (by decide) rfl⟩

/-- C6. Material indices are dense: the material list built for the upload has no
duplicate, there is one material index per BSP node, every material index lies in
[0, length of the list), and every position of the list is the index of some face. -/
theorem material_indices_dense (w : World) (ActorTransform : FTransform) (BrushModel : UModel)
    (NumIndices : Int) (b : VertexBuffers)
    (hb : buildVertexBuffers w ActorTransform BrushModel NumIndices = some b) :
    (MaterialsOf b.MaterialMap).Nodup ∧
    b.MaterialIndices.length = BrushModel.Nodes.length ∧
    (∀ x ∈ b.MaterialIndices, 0 ≤ x ∧ x < ((MaterialsOf b.MaterialMap).length : Int)) ∧
    ∀ j, j < (MaterialsOf b.MaterialMap).length → (j : Int) ∈ b.MaterialIndices := by
  obtain ⟨mats, hm, hM, hI⟩ := buildVertexBuffers_materials hb
  obtain ⟨_, _, _, _, hlen, _⟩ := buildVertexBuffers_spec hb
  refine ⟨by rw [hM]; exact nodup_firstSeen mats, hlen, ?_, ?_⟩
  · intro x hx
    rw [hI] at hx
    obtain ⟨m, hmem, rfl⟩ := List.mem_map.1 hx
    refine ⟨by positivity, ?_⟩
    rw [hM]
    exact_mod_cast List.indexOf_lt_length.2 ((mem_firstSeen mats m).2 hmem)
  · intro j hj
    rw [hM] at hj
    rw [hI, List.mem_map]
    refine ⟨(firstSeen mats)[j], (mem_firstSeen mats _).1 (List.getElem_mem hj), ?_⟩
    rw [List.indexOf_getElem (nodup_firstSeen mats) j hj]

theorem material_indices_dense_witness :
    ∃ b, buildVertexBuffers (okWorld fourFaceModel) 0 fourFaceModel 12 = some b ∧
      (MaterialsOf b.MaterialMap).Nodup ∧
      b.MaterialIndices.length = fourFaceModel.Nodes.length ∧
      (∀ x ∈ b.MaterialIndices, 0 ≤ x ∧ x < ((MaterialsOf b.MaterialMap).length : Int)) ∧
      ∀ j, j < (MaterialsOf b.MaterialMap).length → (j : Int) ∈ b.MaterialIndices :=
  ⟨_, rfl, material_indices_dense (okWorld fourFaceModel) 0 fourFaceModel 12 _ rfl⟩

/-! ## C7: positions -/

theorem positionLoop_spec (w : World) (ActorTransform : FTransform) (pts : List FVector3f) :
    ∀ (k : Nat) (pre suf r : List FVector3f),
      pre.length = k → pts.length ≤ suf.length →
      positionLoop w ActorTransform pts k (pre ++ suf) = some r →
      r = pre ++ pts.map (uploadedPositionOf w ActorTransform) ++ suf.drop pts.length := by
  induction pts with
  | nil =>
    intro k pre suf r _ _ h
    simp only [positionLoop, Option.some.injEq] at h
    subst h
    simp
  | cons Point rest ih =>
    intro k pre suf r hk hlen h
    cases suf with
    | nil => simp at hlen
    | cons x suf' =>
      have hw : writeAt (pre ++ x :: suf') k (uploadedPositionOf w ActorTransform Point)
          = some ((pre ++ [uploadedPositionOf w ActorTransform Point]) ++ suf') := by
        unfold writeAt
        simp [← hk]
      simp only [positionLoop, hw, Option.bind_eq_bind, Option.some_bind] at h
      have := ih (k + 1) (pre ++ [uploadedPositionOf w ActorTransform Point]) suf' r (by simp [hk])
        (by simpa using hlen) h
      rw [this]; simp

theorem positionLoop_eq {w : World} {ActorTransform : FTransform} {pts r : List FVector3f}
    (h : positionLoop w ActorTransform pts 0 (List.replicate pts.length ⟨0, 0, 0⟩) = some r) :
    r = pts.map (uploadedPositionOf w ActorTransform) := by
  have := positionLoop_spec w ActorTransform pts 0 [] (List.replicate pts.length ⟨0, 0, 0⟩) r
    rfl (by simp) (by simpa using h)
  simpa using this

theorem setAttributeData_point_inv {w : World} {InputBrushObject : UHoudiniInputBrush}
    {BrushActor : ABrush} {ExcludeActors : Option (List Nat)} {InputNodeId : HAPI_NodeId}
    {NodeName : String} {bExport : Bool} {OutHandle : FUnrealObjectInputHandle}
    {bDel : Bool} {NodeId : HAPI_NodeId} {PartId : Int} {Name : String}
    {Info : HAPI_AttributeInfo} {Data : List FVector3f} {ok : Bool}
    (h : ⟨.SetAttributeData NodeId PartId Name Info Data, ok⟩ ∈ (CreateInputNodeForBrush w
      InputBrushObject BrushActor ExcludeActors InputNodeId NodeName bExport OutHandle
      bDel).trace)
    (hOwner : Info.owner = .HAPI_ATTROWNER_POINT) :
    Name = w.HAPI_UNREAL_ATTRIB_POSITION ∧
    Info = AttributeInfoPointVector (brushModelOf w InputBrushObject).Points.length ∧
    positionLoop w BrushActor.ActorTransform (brushModelOf w InputBrushObject).Points 0
      (List.replicate (brushModelOf w InputBrushObject).Points.length ⟨0, 0, 0⟩) = some Data := by
  obtain ⟨_, Target, NumIndices, FaceCountBuffer, hfc, he⟩ :=
    mem_trace_geometry h (Or.inl rfl)
  rcases mem_geometryScript_trace he with ⟨c, hc, he⟩ | ⟨pos, hpos, c, hc, he⟩ |
    ⟨b, hb, ⟨c, hc, he⟩ | he⟩
  · simp only [partSteps, List.mem_cons, List.mem_singleton, List.not_mem_nil, or_false] at hc
    rcases hc with hc | hc <;> subst hc <;> simp at he
  · simp only [positionSteps, List.mem_singleton] at hc
    subst hc
    simp only [Event.mk.injEq, Call.SetAttributeData.injEq] at he
    obtain ⟨⟨_, _, hName, hInfo, hData⟩, _⟩ := he
    subst hData
    exact ⟨hName, hInfo, hpos⟩
  · simp only [vertexDataSteps, List.mem_cons, List.mem_singleton, List.not_mem_nil,
      or_false] at hc
    rcases hc with hc | hc | hc | hc | hc | hc | hc | hc <;> subst hc <;>
      simp only [Event.mk.injEq, Call.SetAttributeData.injEq, reduceCtorEq, false_and] at he
    · rw [he.1.2.2.2.1] at hOwner
      simp [AttributeInfoVertexVector] at hOwner
    · rw [he.1.2.2.2.1] at hOwner
      simp [AttributeInfoVertexVector] at hOwner
  · simp at he

/-- The uploaded position is the exact position map wherever the float quotient of
line 284 is exact. -/
theorem uploadedPositionOf_exact (w : World) (ActorTransform : FTransform) (Point : FVector3f)
    (hExact : ∀ v, w.VectorDivide v w.HAPI_UNREAL_SCALE_FACTOR_POSITION
      = v.div w.HAPI_UNREAL_SCALE_FACTOR_POSITION) :
    uploadedPositionOf w ActorTransform Point = positionOf w ActorTransform Point := by
  simp [uploadedPositionOf, positionOf, hExact]

/-- C7. Position remap: the point attribute data uploaded by a run is the list of the
model points, each mapped to actor-local space by the inverse actor transform, with its Y
and Z components swapped and the resulting vector divided by the position scale factor,
the quotient being the float quotient of FVector3f by a float; when the inverse actor
transform leaves every point where it is, a point (x, y, z) is uploaded as that quotient
of (x, z, y) by the scale factor. -/
theorem position_remap (w : World) (InputBrushObject : UHoudiniInputBrush)
    (BrushActor : ABrush) (ExcludeActors : Option (List Nat)) (InputNodeId : HAPI_NodeId)
    (NodeName : String) (bExport : Bool) (OutHandle : FUnrealObjectInputHandle)
    (bDel : Bool) (NodeId : HAPI_NodeId) (PartId : Int) (Name : String)
    (Info : HAPI_AttributeInfo) (Data : List FVector3f) (ok : Bool)
    (h : ⟨.SetAttributeData NodeId PartId Name Info Data, ok⟩ ∈ (CreateInputNodeForBrush w
      InputBrushObject BrushActor ExcludeActors InputNodeId NodeName bExport OutHandle
      bDel).trace)
    (hOwner : Info.owner = .HAPI_ATTROWNER_POINT) :
    Name = w.HAPI_UNREAL_ATTRIB_POSITION ∧
    Data = (brushModelOf w InputBrushObject).Points.map (fun Point =>
      w.VectorDivide
        ⟨(w.InverseTransformPosition BrushActor.ActorTransform Point).X,
         (w.InverseTransformPosition BrushActor.ActorTransform Point).Z,
         (w.InverseTransformPosition BrushActor.ActorTransform Point).Y⟩
        w.HAPI_UNREAL_SCALE_FACTOR_POSITION) ∧
    ((∀ Point, w.InverseTransformPosition BrushActor.ActorTransform Point = Point) →
      Data = (brushModelOf w InputBrushObject).Points.map (fun Point =>
        w.VectorDivide ⟨Point.X, Point.Z, Point.Y⟩ w.HAPI_UNREAL_SCALE_FACTOR_POSITION)) := by
  obtain ⟨hName, _, hpos⟩ := setAttributeData_point_inv h hOwner
  have hData := positionLoop_eq hpos
  refine ⟨hName, ?_, ?_⟩
  · rw [hData]
    rfl
  · intro hId
    rw [hData]
    apply List.map_congr_left
    intro Point _
    simp [uploadedPositionOf, hId]

theorem position_remap_witness :
    (⟨.SetAttributeData 5 0 "P" (AttributeInfoPointVector 3)
        [⟨0, 0, 0⟩,
         ⟨5368709 / 536870912, 16106127 / 536870912, 5368709 / 268435456⟩,
         ⟨16106127 / 536870912, 0, 5368709 / 536870912⟩], true⟩ : Event)
      ∈ (CreateInputNodeForBrush (floatWorld floatModel) sampleInput sampleBrush none 42 "brush"
        false none true).trace ∧
    (([⟨0, 0, 0⟩,
       ⟨5368709 / 536870912, 16106127 / 536870912, 5368709 / 268435456⟩,
       ⟨16106127 / 536870912, 0, 5368709 / 536870912⟩] : List FVector3f)
      = (brushModelOf (floatWorld floatModel) sampleInput).Points.map (fun Point =>
        (floatWorld floatModel).VectorDivide ⟨Point.X, Point.Z, Point.Y⟩
          (floatWorld floatModel).HAPI_UNREAL_SCALE_FACTOR_POSITION)) ∧
    (⟨5368709 / 536870912, 16106127 / 536870912, 5368709 / 268435456⟩ : FVector3f)
      ≠ ⟨1 / 100, 3 / 100, 2 / 100⟩ :=
  ⟨by decide!,
   (position_remap (floatWorld floatModel) sampleInput sampleBrush none 42 "brush" false none
      true 5 0 "P" (AttributeInfoPointVector 3)
      [⟨0, 0, 0⟩,
       ⟨5368709 / 536870912, 16106127 / 536870912, 5368709 / 268435456⟩,
       ⟨16106127 / 536870912, 0, 5368709 / 536870912⟩] true
      (by decide!) rfl).2.2 (fun _ => rfl),
   by decide!⟩

/-! ## C8: round trip of the axis remap -/

/-- C8. Axis remap round trip: when the inverse actor transform leaves every point where
it is and the scale factor is not zero, multiplying an uploaded position by the scale
factor and swapping Y and Z again gives back the model point, so the position map is
injective. -/
theorem axis_remap_round_trip (w : World) (ActorTransform : FTransform)
    (hId : ∀ Point, w.InverseTransformPosition ActorTransform Point = Point)
    (hScale : w.HAPI_UNREAL_SCALE_FACTOR_POSITION ≠ 0) :
    (∀ Point : FVector3f,
      positionOf w ActorTransform Point
        = ⟨Point.X / w.HAPI_UNREAL_SCALE_FACTOR_POSITION,
           Point.Z / w.HAPI_UNREAL_SCALE_FACTOR_POSITION,
           Point.Y / w.HAPI_UNREAL_SCALE_FACTOR_POSITION⟩ ∧
      (⟨(positionOf w ActorTransform Point).X * w.HAPI_UNREAL_SCALE_FACTOR_POSITION,
        (positionOf w ActorTransform Point).Z * w.HAPI_UNREAL_SCALE_FACTOR_POSITION,
        (positionOf w ActorTransform Point).Y * w.HAPI_UNREAL_SCALE_FACTOR_POSITION⟩
          : FVector3f) = Point) ∧
    Function.Injective (positionOf w ActorTransform) := by
  have hBack : ∀ Point : FVector3f,
      (⟨(positionOf w ActorTransform Point).X * w.HAPI_UNREAL_SCALE_FACTOR_POSITION,
        (positionOf w ActorTransform Point).Z * w.HAPI_UNREAL_SCALE_FACTOR_POSITION,
        (positionOf w ActorTransform Point).Y * w.HAPI_UNREAL_SCALE_FACTOR_POSITION⟩
          : FVector3f) = Point := by
    intro Point
    obtain ⟨x, y, z⟩ := Point
    simp [positionOf, FVector3f.div, hId, div_mul_cancel₀, hScale]
  refine ⟨fun Point => ⟨by simp [positionOf, FVector3f.div, hId], hBack Point⟩, ?_⟩
  intro P Q hPQ
  rw [← hBack P, ← hBack Q, hPQ]

theorem axis_remap_round_trip_witness :
    positionOf (okWorld sampleModel) 0 ⟨100, 200, 300⟩ = ⟨1, 3, 2⟩ ∧
    (⟨(1 : ℚ) * 100, (2 : ℚ) * 100, (3 : ℚ) * 100⟩ : FVector3f) = ⟨100, 200, 300⟩ ∧
    Function.Injective (positionOf (okWorld sampleModel) 0) :=
  ⟨by with_unfolding_all decide, by with_unfolding_all decide,
   (axis_remap_round_trip (okWorld sampleModel) 0 (fun _ => rfl) (by with_unfolding_all decide)).2⟩

/-! ## C9: normals of a mirrored brush -/

/-- C9 at a mirrored brush: the sign factor of line 150 is -1, the surface normal
(0, 0, 1) has the transpose-adjoint image (0, 0, -1), and the nine normals uploaded are
that image with Y and Z swapped, (0, -1, 0): the sign factor is not applied, with it
they would be (0, 1, 0). -/
theorem mirrored_brush_normals_not_negated :
    NScale (mirrorWorld sampleModel) mirroredBrush.ActorTransform = -1 ∧
    (mirrorWorld sampleModel).GetSafeNormal
      ((mirrorWorld sampleModel).NmlInvXform mirroredBrush.ActorTransform ⟨0, 0, 1⟩)
      = ⟨0, 0, -1⟩ ∧
    (⟨.SetAttributeData 5 0 "N" (AttributeInfoVertexVector 9)
        (List.replicate 9 ⟨0, -1, 0⟩), true⟩ : Event)
      ∈ (CreateInputNodeForBrush (mirrorWorld sampleModel) sampleInput mirroredBrush none 42
        "brush" false none true).trace := by
  refine ⟨by with_unfolding_all decide, by with_unfolding_all decide, by with_unfolding_all decide⟩

/-! ## C10: registration only after commit -/

/-- A whole call in closed form: its trace and its returned value are those of its head
and its script. -/
theorem call_closed_form (w : World) (InputBrushObject : UHoudiniInputBrush)
    (BrushActor : ABrush) (ExcludeActors : Option (List Nat)) (InputNodeId : HAPI_NodeId)
    (NodeName : String) (bExport : Bool) (OutHandle : FUnrealObjectInputHandle)
    (bDel : Bool) :
    (CreateInputNodeForBrush w InputBrushObject BrushActor ExcludeActors InputNodeId NodeName
      bExport OutHandle bDel).trace
      = callHead w InputBrushObject BrushActor bDel
        ++ (callScript w InputBrushObject BrushActor NodeName bExport bDel).trace ∧
    (CreateInputNodeForBrush w InputBrushObject BrushActor ExcludeActors InputNodeId NodeName
      bExport OutHandle bDel).ret
      = (callScript w InputBrushObject BrushActor NodeName bExport bDel).ret := by
  by_cases hActor : BrushActor.IsValid = true
  swap
  · simp [CreateInputNodeForBrush, callHead, callScript, hActor, Frame.exit, Script.trace,
      Script.ret, issued]
  by_cases hBrush : BrushActor.BrushIsValid = true
  swap
  · simp [CreateInputNodeForBrush, callHead, callScript, hBrush, Frame.exit, Script.trace,
      Script.ret, issued]
  by_cases hIgnore : InputBrushObject.ShouldIgnoreThisInput = false
  swap
  · simp [CreateInputNodeForBrush, callHead, callScript, hIgnore, Frame.exit, Script.trace,
      Script.ret, issued]
  by_cases hReuse : (w.NodeExistsAndIsNotDirty (identifierOf BrushActor)).1 = true →
      w.GetHAPINodeId (w.NodeExistsAndIsNotDirty (identifierOf BrushActor)).2 = none
  · have hlookup : (if (w.NodeExistsAndIsNotDirty (identifierOf BrushActor)).1 = true then
        w.GetHAPINodeId (w.NodeExistsAndIsNotDirty (identifierOf BrushActor)).2 else none)
        = none := by
      split
      · exact hReuse (by assumption)
      · rfl
    have h := rebuild_closed_form w InputBrushObject BrushActor ExcludeActors InputNodeId
      NodeName bExport OutHandle bDel hActor hBrush hIgnore hReuse
    simp only [callHead, callScript, hActor, hBrush, hIgnore, hlookup, Bool.not_true,
      Bool.or_self, Bool.false_eq_true, if_false, List.singleton_append]
    exact h
  · simp only [Classical.not_imp] at hReuse
    obtain ⟨hExists, hNode⟩ := hReuse
    obtain ⟨NodeId, hNode⟩ := Option.ne_none_iff_exists'.1 hNode
    cases bDel <;>
      simp [CreateInputNodeForBrush, callHead, callScript, hActor, hBrush, hIgnore, hExists,
        hNode, Frame.exit, Frame.log, Script.trace, Script.ret, issued]

theorem eq_of_append_singleton {a pre post : List Event} {x y : Event}
    (h : a ++ [x] = pre ++ y :: post) (hy : y ∉ a) : pre = a ∧ y = x := by
  rcases List.append_eq_append_iff.1 h with ⟨a', hpre, hb⟩ | ⟨c', ha, hd⟩
  · cases a' with
    | nil =>
      simp only [List.nil_append, List.cons.injEq] at hb
      exact ⟨by simpa using hpre, hb.1.symm⟩
    | cons e rest =>
      have := congrArg List.length hb
      simp at this
  · cases c' with
    | nil =>
      simp only [List.nil_append, List.cons.injEq] at hd
      exact ⟨by simpa using ha.symm, hd.1⟩
    | cons e rest =>
      simp only [List.cons_append, List.cons.injEq] at hd
      exact absurd (by rw [ha, hd.1]; simp) hy

theorem commitBeforeAdd_append {a b : List Event}
    (ha : ∀ e ∈ a, e.call.isAddNodeOrUpdateNode = false) (hb : CommitBeforeAdd b) :
    CommitBeforeAdd (a ++ b) := by
  intro pre post Identifier NodeId ObjectNodeId bCanBeDeleted ok h
  rcases List.append_eq_append_iff.1 h with ⟨a', hpre, hb'⟩ | ⟨c', ha', hc⟩
  · obtain ⟨pre', hpre'⟩ := hb a' post Identifier NodeId ObjectNodeId bCanBeDeleted ok hb'
    exact ⟨a ++ pre', by rw [hpre, hpre', List.append_assoc]⟩
  · cases c' with
    | nil =>
      simp only [List.nil_append] at hc
      simp only [List.append_nil] at ha'
      obtain ⟨pre', hpre'⟩ := hb [] post Identifier NodeId ObjectNodeId bCanBeDeleted ok
        (by simpa using hc.symm)
      simp at hpre'
    | cons e rest =>
      simp only [List.cons_append, List.cons.injEq] at hc
      have := ha e (by rw [ha']; simp)
      rw [← hc.1] at this
      simp [Call.isAddNodeOrUpdateNode] at this

theorem commitBeforeAdd_of_no_add {a : List Event}
    (ha : ∀ e ∈ a, e.call.isAddNodeOrUpdateNode = false) : CommitBeforeAdd a := by
  intro pre post Identifier NodeId ObjectNodeId bCanBeDeleted ok h
  have := ha ⟨.AddNodeOrUpdateNode Identifier NodeId ObjectNodeId bCanBeDeleted, ok⟩
    (by rw [h]; simp)
  simp [Call.isAddNodeOrUpdateNode] at this

theorem no_add_issued {steps : List (Call × Bool)}
    (h : ∀ c ∈ steps, c.1.isAddNodeOrUpdateNode = false) :
    ∀ e ∈ issued steps, e.call.isAddNodeOrUpdateNode = false := by
  intro e he
  obtain ⟨c, hc, rfl⟩ := mem_issued he
  exact h c hc

theorem registersAfterCommit_after {pre : List (Call × Bool)} {s : Script}
    (hpre : ∀ c ∈ pre, c.1.isAddNodeOrUpdateNode = false) (hs : RegistersAfterCommit s) :
    RegistersAfterCommit (Script.after pre s) := by
  have htrace : (Script.after pre s).trace
      = issued pre ++ if pre.all (fun c => c.2) then s.trace else [] := by
    simp only [Script.trace, Script.after, issued_append, List.all_append, List.append_assoc]
    by_cases hall : pre.all (fun c => c.2) = true
    · simp only [hall, if_true, Bool.true_and]
    · simp only [hall, Bool.false_and, Bool.false_eq_true, if_false, List.append_nil]
  refine ⟨?_, ?_⟩
  · rw [htrace]
    apply commitBeforeAdd_append (no_add_issued hpre)
    split
    · exact hs.1
    · exact commitBeforeAdd_of_no_add (by simp)
  · rintro ⟨e, he, hadd⟩
    rw [htrace, List.mem_append] at he
    rcases he with he | he
    · rw [no_add_issued hpre e he] at hadd
      simp at hadd
    · by_cases hall : pre.all (fun c => c.2) = true
      · simp only [hall, if_true] at he
        have := hs.2 ⟨e, he, hadd⟩
        simp only [Script.ret] at this
        simp only [Script.ret, Script.after, List.all_append, hall, Bool.true_and]
        exact this
      · simp [hall] at he

theorem registersAfterCommit_of_no_add {s : Script}
    (h : ∀ e ∈ s.trace, e.call.isAddNodeOrUpdateNode = false) : RegistersAfterCommit s := by
  refine ⟨commitBeforeAdd_of_no_add h, ?_⟩
  rintro ⟨e, he, hadd⟩
  rw [h e he] at hadd
  simp at hadd

theorem registersAfterCommit_vertexDataScript (w : World)
    (Identifier : FUnrealObjectInputIdentifier) (bExport bDel : Bool)
    (InputObjectNodeId InputNodeId : HAPI_NodeId) (NumNodes : Nat) (NumIndices : Int)
    (FaceCountBuffer : List Int) (b : VertexBuffers) :
    RegistersAfterCommit (vertexDataScript w Identifier bExport bDel InputObjectNodeId
      InputNodeId NumNodes NumIndices FaceCountBuffer b) := by
  by_cases hall : (vertexDataSteps w bExport InputNodeId NumNodes NumIndices FaceCountBuffer
      b).all (fun c => c.2) = true
  · refine ⟨?_, ?_⟩
    · simp only [vertexDataScript, Script.trace, hall, if_true, issued_of_all hall]
      intro pre post Identifier' NodeId ObjectNodeId bCanBeDeleted ok h
      obtain ⟨hpre, hEq⟩ := eq_of_append_singleton h (by simp [vertexDataSteps])
      simp only [Event.mk.injEq, Call.AddNodeOrUpdateNode.injEq] at hEq
      obtain ⟨⟨_, hNode, _, _⟩, _⟩ := hEq
      subst hNode
      rw [hpre]
      exact ⟨(vertexDataSteps w bExport NodeId NumNodes NumIndices FaceCountBuffer
        b).dropLast.map (fun s => ⟨s.1, true⟩), by simp [vertexDataSteps]⟩
    · intro _
      simp [vertexDataScript, Script.ret, hall]
  · apply registersAfterCommit_of_no_add
    intro e he
    simp only [vertexDataScript, Script.trace, hall, Bool.false_eq_true, if_false,
      List.append_nil] at he
    obtain ⟨c, hc, rfl⟩ := mem_issued he
    simp only [vertexDataSteps, List.mem_cons, List.mem_singleton, List.not_mem_nil,
      or_false] at hc
    rcases hc with hc | hc | hc | hc | hc | hc | hc | hc <;> subst hc <;> rfl

theorem registersAfterCommit_stopped : RegistersAfterCommit Script.stopped :=
  registersAfterCommit_of_no_add (fun e he => absurd he (not_mem_stopped_trace e))

theorem registersAfterCommit_geometryScript (w : World) (ActorTransform : FTransform)
    (BrushModel : UModel) (Identifier : FUnrealObjectInputIdentifier) (bExport bDel : Bool)
    (InputObjectNodeId InputNodeId : HAPI_NodeId) (NumIndices : Int)
    (FaceCountBuffer : List Int) :
    RegistersAfterCommit (geometryScript w ActorTransform BrushModel Identifier bExport bDel
      InputObjectNodeId InputNodeId NumIndices FaceCountBuffer) := by
  unfold geometryScript
  apply registersAfterCommit_after
  · intro c hc
    simp only [partSteps, List.mem_cons, List.mem_singleton, List.not_mem_nil, or_false] at hc
    rcases hc with hc | hc <;> subst hc <;> rfl
  · cases positionLoop w ActorTransform BrushModel.Points 0
        (List.replicate BrushModel.Points.length ⟨0, 0, 0⟩) with
    | none => exact registersAfterCommit_stopped
    | some OutPosition =>
      apply registersAfterCommit_after
      · intro c hc
        simp only [positionSteps, List.mem_singleton] at hc
        subst hc; rfl
      · cases buildVertexBuffers w ActorTransform BrushModel NumIndices with
        | none => exact registersAfterCommit_stopped
        | some b => exact registersAfterCommit_vertexDataScript _ _ _ _ _ _ _ _ _ _

theorem registersAfterCommit_brushScript (w : World) (InputBrushObject : UHoudiniInputBrush)
    (BrushActor : ABrush) (Identifier : FUnrealObjectInputIdentifier) (bExport bDel : Bool)
    (InputObjectNodeId InputNodeId : HAPI_NodeId) :
    RegistersAfterCommit (brushScript w InputBrushObject BrushActor Identifier bExport bDel
      InputObjectNodeId InputNodeId) := by
  unfold brushScript
  by_cases hEmpty : (brushModelOf w InputBrushObject).Points.length = 0
  · simp only [hEmpty, if_true]
    apply registersAfterCommit_of_no_add
    intro e he
    simp only [Script.trace, issued, List.all_nil, if_true, List.nil_append,
      List.mem_singleton] at he
    subst he; rfl
  · simp only [hEmpty, if_false]
    cases faceCountLoop (brushModelOf w InputBrushObject).Nodes 0
        (0, SetNumUninitialized w.UninitInt (brushModelOf w InputBrushObject).Nodes.length) with
    | none => exact registersAfterCommit_stopped
    | some r =>
      apply registersAfterCommit_after
      · intro c hc
        unfold transformSteps at hc
        split at hc
        · simp only [List.mem_singleton] at hc
          subst hc; rfl
        · simp at hc
      · exact registersAfterCommit_geometryScript _ _ _ _ _ _ _ _ _ _

theorem registersAfterCommit_nodeScript (w : World)
    (InputBrushObject : UHoudiniInputBrush) (BrushActor : ABrush)
    (Identifier : FUnrealObjectInputIdentifier) (FinalInputNodeName : String)
    (ParentNodeId : HAPI_NodeId) (bExport bDel : Bool) (InputNodeId : HAPI_NodeId) :
    RegistersAfterCommit (nodeScript w InputBrushObject BrushActor Identifier
      FinalInputNodeName ParentNodeId bExport bDel InputNodeId) := by
  unfold nodeScript
  by_cases hValid : w.IsHoudiniNodeValid InputNodeId = true
  · simp only [hValid, if_true]
    exact registersAfterCommit_brushScript _ _ _ _ _ _ _ _
  · simp only [hValid, Bool.false_eq_true, if_false]
    apply registersAfterCommit_after
    · intro c hc
      simp only [List.mem_singleton] at hc
      subst hc; rfl
    · by_cases hNew :
        w.IsHoudiniNodeValid (w.CreateInputNode FinalInputNodeName ParentNodeId).2 = true
      · simp only [hNew, Bool.not_true, Bool.false_eq_true, if_false]
        apply registersAfterCommit_after
        · intro c hc
          simp only [cleanNodeSteps, List.mem_cons, List.mem_singleton, List.not_mem_nil,
            or_false] at hc
          rcases hc with hc | hc | hc <;> subst hc <;> rfl
        · exact registersAfterCommit_brushScript _ _ _ _ _ _ _ _
      · simp only [hNew, Bool.not_false, if_true]
        exact registersAfterCommit_of_no_add (by simp [Script.trace, issued])

theorem registersAfterCommit_rebuildScript (w : World)
    (InputBrushObject : UHoudiniInputBrush) (BrushActor : ABrush) (NodeName : String)
    (bExport bDel : Bool) :
    RegistersAfterCommit (rebuildScript w InputBrushObject BrushActor NodeName bExport bDel) :=
  registersAfterCommit_nodeScript _ _ _ _ _ _ _ _ _

theorem registersAfterCommit_callScript (w : World) (InputBrushObject : UHoudiniInputBrush)
    (BrushActor : ABrush) (NodeName : String) (bExport bDel : Bool) :
    RegistersAfterCommit (callScript w InputBrushObject BrushActor NodeName bExport bDel) := by
  unfold callScript
  split
  · exact registersAfterCommit_of_no_add (by simp [Script.trace, issued])
  · simp only
    cases (if (w.NodeExistsAndIsNotDirty (identifierOf BrushActor)).1 = true then
        w.GetHAPINodeId (w.NodeExistsAndIsNotDirty (identifierOf BrushActor)).2 else none) with
    | some NodeId => exact registersAfterCommit_of_no_add (by simp [Script.trace, issued])
    | none => exact registersAfterCommit_rebuildScript _ _ _ _ _ _

theorem no_add_callHead (w : World) (InputBrushObject : UHoudiniInputBrush)
    (BrushActor : ABrush) (bDel : Bool) :
    ∀ e ∈ callHead w InputBrushObject BrushActor bDel,
      e.call.isAddNodeOrUpdateNode = false := by
  intro e he
  unfold callHead at he
  split at he
  · simp at he
  · simp only at he
    cases hL : (if (w.NodeExistsAndIsNotDirty (identifierOf BrushActor)).1 = true then
        w.GetHAPINodeId (w.NodeExistsAndIsNotDirty (identifierOf BrushActor)).2 else none) with
    | some NodeId =>
      rw [hL] at he
      simp only at he
      split at he
      · simp only [List.mem_singleton] at he
        subst he; rfl
      · simp at he
    | none =>
      rw [hL] at he
      simp only [List.mem_singleton] at he
      subst he; rfl

/-- C10. Registration only after commit: in every run, each AddNodeOrUpdateNode call comes
directly after a HapiCommitGeo call for the same node that returned success; and a run
that returns false has no AddNodeOrUpdateNode call. -/
theorem registration_only_after_commit (w : World) (InputBrushObject : UHoudiniInputBrush)
    (BrushActor : ABrush) (ExcludeActors : Option (List Nat)) (InputNodeId : HAPI_NodeId)
    (NodeName : String) (bExport : Bool) (OutHandle : FUnrealObjectInputHandle)
    (bDel : Bool) :
    (∀ (pre post : List Event) (Identifier : FUnrealObjectInputIdentifier)
      (NodeId ObjectNodeId : HAPI_NodeId) (bCanBeDeleted ok : Bool),
      (CreateInputNodeForBrush w InputBrushObject BrushActor ExcludeActors InputNodeId NodeName
        bExport OutHandle bDel).trace
        = pre ++ ⟨.AddNodeOrUpdateNode Identifier NodeId ObjectNodeId bCanBeDeleted, ok⟩ :: post →
      ∃ pre', pre = pre' ++ [⟨.HapiCommitGeo NodeId, true⟩]) ∧
    ((CreateInputNodeForBrush w InputBrushObject BrushActor ExcludeActors InputNodeId NodeName
        bExport OutHandle bDel).ret = some false →
      ∀ e ∈ (CreateInputNodeForBrush w InputBrushObject BrushActor ExcludeActors InputNodeId
        NodeName bExport OutHandle bDel).trace, e.call.isAddNodeOrUpdateNode = false) := by
  obtain ⟨htrace, hret⟩ := call_closed_form w InputBrushObject BrushActor ExcludeActors
    InputNodeId NodeName bExport OutHandle bDel
  obtain ⟨h1, h2⟩ := registersAfterCommit_callScript w InputBrushObject BrushActor NodeName
    bExport bDel
  have hhead := no_add_callHead w InputBrushObject BrushActor bDel
  refine ⟨?_, ?_⟩
  · rw [htrace]
    exact commitBeforeAdd_append hhead h1
  · intro hfalse e he
    rw [htrace, List.mem_append] at he
    rcases he with he | he
    · exact hhead e he
    · by_contra hadd
      have := h2 ⟨e, he, by simpa using hadd⟩
      rw [hret, this] at hfalse
      simp at hfalse

theorem registration_only_after_commit_witness :
    (∃ pre', (CreateInputNodeForBrush (okWorld sampleModel) sampleInput sampleBrush none 42
        "brush" false none true).trace.take 16 = pre' ++ [⟨.HapiCommitGeo 5, true⟩]) ∧
    ((CreateInputNodeForBrush ({ okWorld sampleModel with
        HapiCommitGeo := fun _ => .HAPI_RESULT_FAILURE 1 }) sampleInput sampleBrush none 42
        "brush" false none true).ret = some false ∧
      ∀ e ∈ (CreateInputNodeForBrush ({ okWorld sampleModel with
        HapiCommitGeo := fun _ => .HAPI_RESULT_FAILURE 1 }) sampleInput sampleBrush none 42
        "brush" false none true).trace, e.call.isAddNodeOrUpdateNode = false) :=
  ⟨(registration_only_after_commit (okWorld sampleModel) sampleInput sampleBrush none 42
      "brush" false none true).1 _ [] (identifierOf sampleBrush) 5 105 true true
      (by with_unfolding_all decide),
   by decide,
   (registration_only_after_commit ({ okWorld sampleModel with
      HapiCommitGeo := fun _ => .HAPI_RESULT_FAILURE 1 }) sampleInput sampleBrush none 42
      "brush" false none true).2 (by decide)⟩

/-! ## C20: bake after the next cook -/

/-- C20. Bake-after-cook query: for every component state, IsBakeAfterNextCookEnabled is
true exactly when the BakeAfterNextCook setting is Always or Once, and after
SetBakeAfterNextCook(m) the getter GetBakeAfterNextCook returns m. -/
theorem bake_after_next_cook_query (c : UHoudiniAssetComponent) :
    (c.IsBakeAfterNextCookEnabled = true ↔
      (c.BakeAfterNextCook = EHoudiniBakeAfterNextCook.Always ∨
        c.BakeAfterNextCook = EHoudiniBakeAfterNextCook.Once)) ∧
    ∀ m : EHoudiniBakeAfterNextCook, (c.SetBakeAfterNextCook m).GetBakeAfterNextCook = m := by
  refine ⟨?_, fun m => rfl⟩
  obtain ⟨p, b⟩ := c
  cases b <;>
    simp [UHoudiniAssetComponent.IsBakeAfterNextCookEnabled]

/-! ## The geometry calls of a run, one by one -/

/-- Every geometry call of a run is one of the eleven of lines 240-448, with the
arguments of the source, for the target node of the run. -/
theorem geometry_call_cases {w : World} {InputBrushObject : UHoudiniInputBrush}
    {BrushActor : ABrush} {ExcludeActors : Option (List Nat)} {InputNodeId : HAPI_NodeId}
    {NodeName : String} {bExport : Bool} {OutHandle : FUnrealObjectInputHandle}
    {bDel : Bool} {e : Event}
    (h : e ∈ (CreateInputNodeForBrush w InputBrushObject BrushActor ExcludeActors InputNodeId
      NodeName bExport OutHandle bDel).trace)
    (hg : e.call.isGeometryCall = true) :
    ∃ (T : HAPI_NodeId) (NumIndices : Int) (FaceCountBuffer : List Int),
      faceCountLoop (brushModelOf w InputBrushObject).Nodes 0
        (0, SetNumUninitialized w.UninitInt (brushModelOf w InputBrushObject).Nodes.length)
        = some (NumIndices, FaceCountBuffer) ∧
      (e.call = .SetPartInfo T 0
          (makePart NumIndices FaceCountBuffer (brushModelOf w InputBrushObject).Points.length) ∨
       e.call = .AddAttribute T 0 w.HAPI_UNREAL_ATTRIB_POSITION
          (AttributeInfoPointVector (brushModelOf w InputBrushObject).Points.length) ∨
       (∃ OutPosition,
          positionLoop w BrushActor.ActorTransform (brushModelOf w InputBrushObject).Points 0
            (List.replicate (brushModelOf w InputBrushObject).Points.length ⟨0, 0, 0⟩)
            = some OutPosition ∧
          e.call = .SetAttributeData T 0 w.HAPI_UNREAL_ATTRIB_POSITION
            (AttributeInfoPointVector (brushModelOf w InputBrushObject).Points.length)
            OutPosition) ∨
       (∃ b,
          buildVertexBuffers w BrushActor.ActorTransform (brushModelOf w InputBrushObject)
            NumIndices = some b ∧
          (e.call = .HapiSetVertexList b.Indices T 0 ∨
           e.call = .HapiSetFaceCounts FaceCountBuffer T 0 ∨
           e.call = .AddAttribute T 0 w.HAPI_UNREAL_ATTRIB_NORMAL
              (AttributeInfoVertexVector NumIndices) ∨
           e.call = .SetAttributeData T 0 w.HAPI_UNREAL_ATTRIB_NORMAL
              (AttributeInfoVertexVector NumIndices) b.OutNormals ∨
           e.call = .AddAttribute T 0 w.HAPI_UNREAL_ATTRIB_UV
              (AttributeInfoVertexVector NumIndices) ∨
           e.call = .SetAttributeData T 0 w.HAPI_UNREAL_ATTRIB_UV
              (AttributeInfoVertexVector NumIndices) b.OutUV ∨
           e.call = .CreateHoudiniMeshAttributes T 0
              (brushModelOf w InputBrushObject).Nodes.length
              (faceMaterials w bExport b).1 (faceMaterials w bExport b).2 ∨
           e.call = .HapiCommitGeo T))) := by
  obtain ⟨_, T, NumIndices, FaceCountBuffer, hfc, he⟩ := mem_trace_geometry h (Or.inl hg)
  refine ⟨T, NumIndices, FaceCountBuffer, hfc, ?_⟩
  rcases mem_geometryScript_trace he with ⟨c, hc, he⟩ | ⟨pos, hpos, c, hc, he⟩ |
    ⟨b, hb, ⟨c, hc, he⟩ | he⟩
  · simp only [partSteps, List.mem_cons, List.mem_singleton, List.not_mem_nil, or_false] at hc
    rcases hc with hc | hc <;> subst hc <;> subst he
    · exact Or.inl rfl
    · exact Or.inr (Or.inl rfl)
  · simp only [positionSteps, List.mem_singleton] at hc
    subst hc; subst he
    exact Or.inr (Or.inr (Or.inl ⟨pos, hpos, rfl⟩))
  · refine Or.inr (Or.inr (Or.inr ⟨b, hb, ?_⟩))
    simp only [vertexDataSteps, List.mem_cons, List.mem_singleton, List.not_mem_nil,
      or_false] at hc
    rcases hc with hc | hc | hc | hc | hc | hc | hc | hc <;> subst hc <;> subst he <;> simp
  · subst he
    simp [Call.isGeometryCall] at hg

/-! ## C12: attribute lengths -/

theorem length_floatsOf (Data : List FVector3f) : (floatsOf Data).length = Data.length * 3 := by
  induction Data with
  | nil => rfl
  | cons v rest ih =>
    simp only [floatsOf, List.flatMap_cons, List.length_append, List.length_cons,
      List.length_nil] at ih ⊢
    omega

/-- C12. Attribute lengths match owner counts: against the part info of a run, every
uploaded attribute buffer has three floats per tuple and as many tuples as its attribute
info counts; the count is the pointCount of the part for the point attribute, the
position, and the vertexCount of the part for the vertex attributes, the normal and the
UV; and the material index array has faceCount entries, the count handed to the material
attributes. -/
theorem attribute_lengths_match (w : World) (InputBrushObject : UHoudiniInputBrush)
    (BrushActor : ABrush) (ExcludeActors : Option (List Nat)) (InputNodeId : HAPI_NodeId)
    (NodeName : String) (bExport : Bool) (OutHandle : FUnrealObjectInputHandle)
    (bDel : Bool) (Part : HAPI_PartInfo) (n0 : HAPI_NodeId) (p0 : Int) (ok0 : Bool)
    (hPart : ⟨.SetPartInfo n0 p0 Part, ok0⟩ ∈ (CreateInputNodeForBrush w InputBrushObject
      BrushActor ExcludeActors InputNodeId NodeName bExport OutHandle bDel).trace) :
    (∀ (n : HAPI_NodeId) (p : Int) (Name : String) (Info : HAPI_AttributeInfo)
      (Data : List FVector3f) (ok : Bool),
      ⟨.SetAttributeData n p Name Info Data, ok⟩ ∈ (CreateInputNodeForBrush w InputBrushObject
        BrushActor ExcludeActors InputNodeId NodeName bExport OutHandle bDel).trace →
      Info.tupleSize = 3 ∧ (Data.length : Int) = Info.count ∧
      ((floatsOf Data).length : Int) = Info.count * Info.tupleSize ∧
      ((Name = w.HAPI_UNREAL_ATTRIB_POSITION ∧ Info.owner = .HAPI_ATTROWNER_POINT ∧
          Info.count = Part.pointCount) ∨
       ((Name = w.HAPI_UNREAL_ATTRIB_NORMAL ∨ Name = w.HAPI_UNREAL_ATTRIB_UV) ∧
          Info.owner = .HAPI_ATTROWNER_VERTEX ∧ Info.count = Part.vertexCount))) ∧
    (∀ (n : HAPI_NodeId) (p : Int) (Count : Int) (OutMaterials : List String)
      (Parameters : MaterialParameters) (ok : Bool),
      ⟨.CreateHoudiniMeshAttributes n p Count OutMaterials Parameters, ok⟩ ∈
        (CreateInputNodeForBrush w InputBrushObject BrushActor ExcludeActors InputNodeId
          NodeName bExport OutHandle bDel).trace →
      Count = Part.faceCount ∧
      ∃ b, buildVertexBuffers w BrushActor.ActorTransform (brushModelOf w InputBrushObject)
          Part.vertexCount = some b ∧
        OutMaterials = (faceMaterials w bExport b).1 ∧
        (b.MaterialIndices.length : Int) = Part.faceCount) := by
  obtain ⟨NumIndices, FaceCountBuffer, hfc, hP⟩ := setPartInfo_inv hPart
  obtain ⟨hbuf, _⟩ := faceCountLoop_eq hfc
  simp only at hbuf
  subst hP
  refine ⟨?_, ?_⟩
  · intro n p Name Info Data ok hSet
    obtain ⟨T, NumIndices', FaceCountBuffer', hfc', hcases⟩ := geometry_call_cases hSet rfl
    rw [hfc] at hfc'
    obtain ⟨hN, hF⟩ := Prod.mk.inj (Option.some.inj hfc')
    subst hN hF
    have hfloats : ∀ k : Int, (Data.length : Int) = k →
        ((floatsOf Data).length : Int) = k * 3 := by
      intro k hk
      rw [length_floatsOf, ← hk]
      push_cast
      rfl
    rcases hcases with hc | hc | ⟨pos, hpos, hc⟩ | ⟨b, hb, hc⟩
    · simp at hc
    · simp at hc
    · simp only [Call.SetAttributeData.injEq] at hc
      obtain ⟨_, _, hName, hInfo, hData⟩ := hc
      subst hName hInfo hData
      have hlen : (Data.length : Int)
          = ((brushModelOf w InputBrushObject).Points.length : Int) := by
        rw [positionLoop_eq hpos]; simp
      exact ⟨rfl, hlen, hfloats _ hlen, Or.inl ⟨rfl, rfl, rfl⟩⟩
    · obtain ⟨_, _, hNlen, hUlen, _⟩ := buildVertexBuffers_spec hb
      rcases hc with hc | hc | hc | hc | hc | hc | hc | hc <;>
        simp only [Call.SetAttributeData.injEq, reduceCtorEq] at hc
      · obtain ⟨_, _, hName, hInfo, hData⟩ := hc
        subst hName hInfo hData
        exact ⟨rfl, hNlen, hfloats _ hNlen, Or.inr ⟨Or.inl rfl, rfl, rfl⟩⟩
      · obtain ⟨_, _, hName, hInfo, hData⟩ := hc
        subst hName hInfo hData
        exact ⟨rfl, hUlen, hfloats _ hUlen, Or.inr ⟨Or.inr rfl, rfl, rfl⟩⟩
  · intro n p Count OutMaterials Parameters ok hC
    obtain ⟨T, NumIndices', FaceCountBuffer', hfc', hcases⟩ := geometry_call_cases hC rfl
    rw [hfc] at hfc'
    obtain ⟨hN, hF⟩ := Prod.mk.inj (Option.some.inj hfc')
    subst hN hF
    rcases hcases with hc | hc | ⟨pos, hpos, hc⟩ | ⟨b, hb, hc⟩
    · simp at hc
    · simp at hc
    · simp at hc
    · obtain ⟨_, _, _, _, hMI, _⟩ := buildVertexBuffers_spec hb
      rcases hc with hc | hc | hc | hc | hc | hc | hc | hc <;>
        simp only [Call.CreateHoudiniMeshAttributes.injEq, reduceCtorEq] at hc
      obtain ⟨_, _, hCount, hMats, _⟩ := hc
      subst hCount hMats
      refine ⟨by simp [makePart, hbuf], b, hb, rfl, ?_⟩
      simp [makePart, hbuf, hMI]

theorem attribute_lengths_match_witness :
    (⟨.SetPartInfo 5 0 (makePart 9 [3, 3, 0, 3] 4), true⟩ : Event)
      ∈ (CreateInputNodeForBrush (okWorld sampleModel) sampleInput sampleBrush none 42 "brush"
        false none true).trace ∧
    (⟨.SetAttributeData 5 0 "N" (AttributeInfoVertexVector 9) (List.replicate 9 ⟨0, 1, 0⟩),
        true⟩ : Event)
      ∈ (CreateInputNodeForBrush (okWorld sampleModel) sampleInput sampleBrush none 42 "brush"
        false none true).trace ∧
    ((List.replicate 9 (⟨0, 1, 0⟩ : FVector3f)).length : Int)
      = (AttributeInfoVertexVector 9).count ∧
    (AttributeInfoVertexVector 9).count = (makePart 9 [3, 3, 0, 3] 4).vertexCount :=
  ⟨by decide, by decide,
   ((attribute_lengths_match (okWorld sampleModel) sampleInput sampleBrush none 42 "brush"
      false none true (makePart 9 [3, 3, 0, 3] 4) 5 0 true (by decide)).1 5 0 "N"
      (AttributeInfoVertexVector 9) (List.replicate 9 ⟨0, 1, 0⟩) true (by decide)).2.1,
   by decide⟩

/-! ## C14: minimal material mode -/

/-- C14. Minimal material mode: when bInExportMaterialParametersAsAttributes is false, the
scalar, vector, texture and bool parameter maps handed to CreateHoudiniMeshAttributes are
empty and the material names are those of the three-argument CreateFaceMaterialArray; the
maps can be non-empty only when the flag is true. -/
theorem minimal_material_mode (w : World) (InputBrushObject : UHoudiniInputBrush)
    (BrushActor : ABrush) (ExcludeActors : Option (List Nat)) (InputNodeId : HAPI_NodeId)
    (NodeName : String) (bExport : Bool) (OutHandle : FUnrealObjectInputHandle)
    (bDel : Bool) (n : HAPI_NodeId) (p : Int) (Count : Int) (OutMaterials : List String)
    (Parameters : MaterialParameters) (ok : Bool)
    (h : ⟨.CreateHoudiniMeshAttributes n p Count OutMaterials Parameters, ok⟩ ∈
      (CreateInputNodeForBrush w InputBrushObject BrushActor ExcludeActors InputNodeId
        NodeName bExport OutHandle bDel).trace) :
    (bExport = false →
      Parameters.ScalarMaterialParameters = [] ∧ Parameters.VectorMaterialParameters = [] ∧
      Parameters.TextureMaterialParameters = [] ∧ Parameters.BoolMaterialParameters = [] ∧
      ∃ NumIndices b,
        buildVertexBuffers w BrushActor.ActorTransform (brushModelOf w InputBrushObject)
          NumIndices = some b ∧
        OutMaterials = w.CreateFaceMaterialArray (MaterialsOf b.MaterialMap) b.MaterialIndices) ∧
    ((Parameters.ScalarMaterialParameters ≠ [] ∨ Parameters.VectorMaterialParameters ≠ [] ∨
      Parameters.TextureMaterialParameters ≠ [] ∨ Parameters.BoolMaterialParameters ≠ []) →
      bExport = true) := by
  obtain ⟨T, NumIndices, FaceCountBuffer, _, hcases⟩ := geometry_call_cases h rfl
  have hmain : bExport = false →
      Parameters.ScalarMaterialParameters = [] ∧ Parameters.VectorMaterialParameters = [] ∧
      Parameters.TextureMaterialParameters = [] ∧ Parameters.BoolMaterialParameters = [] ∧
      ∃ NumIndices b,
        buildVertexBuffers w BrushActor.ActorTransform (brushModelOf w InputBrushObject)
          NumIndices = some b ∧
        OutMaterials
          = w.CreateFaceMaterialArray (MaterialsOf b.MaterialMap) b.MaterialIndices := by
    intro hE
    subst hE
    rcases hcases with hc | hc | ⟨pos, hpos, hc⟩ | ⟨b, hb, hc⟩
    · simp at hc
    · simp at hc
    · simp at hc
    · rcases hc with hc | hc | hc | hc | hc | hc | hc | hc <;>
        simp only [Call.CreateHoudiniMeshAttributes.injEq, reduceCtorEq] at hc
      obtain ⟨_, _, _, hMats, hPar⟩ := hc
      subst hMats hPar
      exact ⟨rfl, rfl, rfl, rfl, NumIndices, b, hb, rfl⟩
  refine ⟨hmain, ?_⟩
  intro hne
  cases bExport with
  | true => rfl
  | false =>
    obtain ⟨h1, h2, h3, h4, _⟩ := hmain rfl
    rcases hne with hne | hne | hne | hne
    · exact absurd h1 hne
    · exact absurd h2 hne
    · exact absurd h3 hne
    · exact absurd h4 hne

theorem minimal_material_mode_witness :
    (⟨.CreateHoudiniMeshAttributes 5 0 4 [] MaterialParameters.empty, true⟩ : Event)
      ∈ (CreateInputNodeForBrush (okWorld sampleModel) sampleInput sampleBrush none 42 "brush"
        false none true).trace ∧
    MaterialParameters.empty.ScalarMaterialParameters = [] ∧
    MaterialParameters.empty.VectorMaterialParameters = [] ∧
    MaterialParameters.empty.TextureMaterialParameters = [] ∧
    MaterialParameters.empty.BoolMaterialParameters = [] :=
  ⟨by decide,
   ((minimal_material_mode (okWorld sampleModel) sampleInput sampleBrush none 42 "brush" false
      none true 5 0 4 [] MaterialParameters.empty true (by decide)).1 rfl).1,
   ((minimal_material_mode (okWorld sampleModel) sampleInput sampleBrush none 42 "brush" false
      none true 5 0 4 [] MaterialParameters.empty true (by decide)).1 rfl).2.1,
   ((minimal_material_mode (okWorld sampleModel) sampleInput sampleBrush none 42 "brush" false
      none true 5 0 4 [] MaterialParameters.empty true (by decide)).1 rfl).2.2.1,
   ((minimal_material_mode (okWorld sampleModel) sampleInput sampleBrush none 42 "brush" false
      none true 5 0 4 [] MaterialParameters.empty true (by decide)).1 rfl).2.2.2.1⟩

/-! ## C11: failures of the remote engine -/

theorem trace_after (pre : List (Call × Bool)) (s : Script) :
    (Script.after pre s).trace
      = issued pre ++ if pre.all (fun c => c.2) then s.trace else [] := by
  simp only [Script.trace, Script.after, issued_append, List.all_append, List.append_assoc]
  by_cases hall : pre.all (fun c => c.2) = true
  · simp only [hall, if_true, Bool.true_and]
  · simp only [hall, Bool.false_and, Bool.false_eq_true, if_false, List.append_nil]

theorem ret_after (pre : List (Call × Bool)) (s : Script) :
    (Script.after pre s).ret = if pre.all (fun c => c.2) then s.ret else some false := by
  by_cases hall : pre.all (fun c => c.2) = true
  · simp only [Script.ret, Script.after, List.all_append, hall, Bool.true_and, if_true]
  · simp only [Script.ret, Script.after, List.all_append, hall, Bool.false_and,
      Bool.false_eq_true, if_false]

theorem failureIsFatal_after {pre : List (Call × Bool)} {s : Script}
    (hpre : ∀ c ∈ pre, c.1.isDeleteNode = false) (hs : FailureIsFatal s.trace s.ret) :
    FailureIsFatal (Script.after pre s).trace (Script.after pre s).ret := by
  intro e he
  rw [trace_after, List.mem_append] at he
  rw [ret_after]
  by_cases hall : pre.all (fun c => c.2) = true
  · simp only [hall, if_true] at he ⊢
    rcases he with he | he
    · rw [issued_of_all hall] at he
      obtain ⟨c, hc, rfl⟩ := List.mem_map.1 he
      refine ⟨fun _ hok _ => by simp at hok, fun hdel => ?_⟩
      simp only [hpre c hc, Bool.false_eq_true] at hdel
    · exact hs e he
  · simp only [hall, Bool.false_eq_true, if_false, List.not_mem_nil, or_false] at he ⊢
    obtain ⟨c, hc, rfl⟩ := mem_issued he
    refine ⟨fun _ _ _ => trivial, fun hdel => ?_⟩
    simp only [hpre c hc, Bool.false_eq_true] at hdel

theorem failureIsFatal_nil (ret : Option Bool) : FailureIsFatal [] ret := by
  intro e he
  simp at he

theorem failureIsFatal_stopped : FailureIsFatal Script.stopped.trace Script.stopped.ret := by
  intro e he
  exact absurd he (not_mem_stopped_trace e)

theorem failureIsFatal_vertexDataScript (w : World)
    (Identifier : FUnrealObjectInputIdentifier) (bExport bDel : Bool)
    (InputObjectNodeId InputNodeId : HAPI_NodeId) (NumNodes : Nat) (NumIndices : Int)
    (FaceCountBuffer : List Int) (b : VertexBuffers) :
    FailureIsFatal
      (vertexDataScript w Identifier bExport bDel InputObjectNodeId InputNodeId NumNodes
        NumIndices FaceCountBuffer b).trace
      (vertexDataScript w Identifier bExport bDel InputObjectNodeId InputNodeId NumNodes
        NumIndices FaceCountBuffer b).ret := by
  have h : vertexDataScript w Identifier bExport bDel InputObjectNodeId InputNodeId NumNodes
      NumIndices FaceCountBuffer b
      = Script.after
          (vertexDataSteps w bExport InputNodeId NumNodes NumIndices FaceCountBuffer b)
          ⟨[], [⟨.AddNodeOrUpdateNode Identifier InputNodeId InputObjectNodeId bDel,
            (w.AddNodeOrUpdateNode Identifier InputNodeId InputObjectNodeId bDel).1⟩],
            some true⟩ := by
    simp [vertexDataScript, Script.after]
  rw [h]
  apply failureIsFatal_after
  · intro c hc
    simp only [vertexDataSteps, List.mem_cons, List.mem_singleton, List.not_mem_nil,
      or_false] at hc
    rcases hc with hc | hc | hc | hc | hc | hc | hc | hc <;> subst hc <;> rfl
  · intro e he
    simp only [Script.trace, issued, List.all_nil, if_true, List.nil_append,
      List.mem_singleton] at he
    subst he
    exact ⟨fun hr => by simp [Call.isRemote] at hr, fun hd => by simp [Call.isDeleteNode] at hd⟩

theorem failureIsFatal_geometryScript (w : World) (ActorTransform : FTransform)
    (BrushModel : UModel) (Identifier : FUnrealObjectInputIdentifier) (bExport bDel : Bool)
    (InputObjectNodeId InputNodeId : HAPI_NodeId) (NumIndices : Int)
    (FaceCountBuffer : List Int) :
    FailureIsFatal
      (geometryScript w ActorTransform BrushModel Identifier bExport bDel InputObjectNodeId
        InputNodeId NumIndices FaceCountBuffer).trace
      (geometryScript w ActorTransform BrushModel Identifier bExport bDel InputObjectNodeId
        InputNodeId NumIndices FaceCountBuffer).ret := by
  unfold geometryScript
  apply failureIsFatal_after
  · intro c hc
    simp only [partSteps, List.mem_cons, List.mem_singleton, List.not_mem_nil, or_false] at hc
    rcases hc with hc | hc <;> subst hc <;> rfl
  · cases positionLoop w ActorTransform BrushModel.Points 0
        (List.replicate BrushModel.Points.length ⟨0, 0, 0⟩) with
    | none => exact failureIsFatal_stopped
    | some OutPosition =>
      apply failureIsFatal_after
      · intro c hc
        simp only [positionSteps, List.mem_singleton] at hc
        subst hc; rfl
      · cases buildVertexBuffers w ActorTransform BrushModel NumIndices with
        | none => exact failureIsFatal_stopped
        | some b => exact failureIsFatal_vertexDataScript _ _ _ _ _ _ _ _ _ _

theorem failureIsFatal_brushScript (w : World) (InputBrushObject : UHoudiniInputBrush)
    (BrushActor : ABrush) (Identifier : FUnrealObjectInputIdentifier) (bExport bDel : Bool)
    (InputObjectNodeId InputNodeId : HAPI_NodeId) :
    FailureIsFatal
      (brushScript w InputBrushObject BrushActor Identifier bExport bDel InputObjectNodeId
        InputNodeId).trace
      (brushScript w InputBrushObject BrushActor Identifier bExport bDel InputObjectNodeId
        InputNodeId).ret := by
  unfold brushScript
  by_cases hEmpty : (brushModelOf w InputBrushObject).Points.length = 0
  · simp only [hEmpty, if_true]
    intro e he
    simp only [Script.trace, issued, List.all_nil, if_true, List.nil_append,
      List.mem_singleton] at he
    subst he
    exact ⟨fun _ _ hd => by simp [Call.isDeleteNode] at hd, fun _ => by simp [Script.ret]⟩
  · simp only [hEmpty, if_false]
    cases faceCountLoop (brushModelOf w InputBrushObject).Nodes 0
        (0, SetNumUninitialized w.UninitInt (brushModelOf w InputBrushObject).Nodes.length) with
    | none => exact failureIsFatal_stopped
    | some r =>
      apply failureIsFatal_after
      · intro c hc
        unfold transformSteps at hc
        split at hc
        · simp only [List.mem_singleton] at hc
          subst hc; rfl
        · simp at hc
      · exact failureIsFatal_geometryScript _ _ _ _ _ _ _ _ _ _

theorem failureIsFatal_nodeScript (w : World)
    (InputBrushObject : UHoudiniInputBrush) (BrushActor : ABrush)
    (Identifier : FUnrealObjectInputIdentifier) (FinalInputNodeName : String)
    (ParentNodeId : HAPI_NodeId) (bExport bDel : Bool) (InputNodeId : HAPI_NodeId) :
    FailureIsFatal
      (nodeScript w InputBrushObject BrushActor Identifier FinalInputNodeName ParentNodeId
        bExport bDel InputNodeId).trace
      (nodeScript w InputBrushObject BrushActor Identifier FinalInputNodeName ParentNodeId
        bExport bDel InputNodeId).ret := by
  unfold nodeScript
  by_cases hValid : w.IsHoudiniNodeValid InputNodeId = true
  · simp only [hValid, if_true]
    exact failureIsFatal_brushScript _ _ _ _ _ _ _ _
  · simp only [hValid, Bool.false_eq_true, if_false]
    apply failureIsFatal_after
    · intro c hc
      simp only [List.mem_singleton] at hc
      subst hc; rfl
    · by_cases hNew :
        w.IsHoudiniNodeValid (w.CreateInputNode FinalInputNodeName ParentNodeId).2 = true
      · simp only [hNew, Bool.not_true, Bool.false_eq_true, if_false]
        apply failureIsFatal_after
        · intro c hc
          simp only [cleanNodeSteps, List.mem_cons, List.mem_singleton, List.not_mem_nil,
            or_false] at hc
          rcases hc with hc | hc | hc <;> subst hc <;> rfl
        · exact failureIsFatal_brushScript _ _ _ _ _ _ _ _
      · simp only [hNew, Bool.not_false, if_true]
        simp only [Script.trace, issued, List.all_nil, if_true, List.append_nil]
        exact failureIsFatal_nil _

theorem failureIsFatal_callScript (w : World) (InputBrushObject : UHoudiniInputBrush)
    (BrushActor : ABrush) (NodeName : String) (bExport bDel : Bool) :
    FailureIsFatal (callScript w InputBrushObject BrushActor NodeName bExport bDel).trace
      (callScript w InputBrushObject BrushActor NodeName bExport bDel).ret := by
  unfold callScript
  split
  · simp only [Script.trace, issued, List.all_nil, if_true, List.append_nil]
    exact failureIsFatal_nil _
  · simp only
    cases (if (w.NodeExistsAndIsNotDirty (identifierOf BrushActor)).1 = true then
        w.GetHAPINodeId (w.NodeExistsAndIsNotDirty (identifierOf BrushActor)).2 else none) with
    | some NodeId =>
      simp only [Script.trace, issued, List.all_nil, if_true, List.append_nil]
      exact failureIsFatal_nil _
    | none => exact failureIsFatal_nodeScript _ _ _ _ _ _ _ _ _

theorem not_remote_callHead (w : World) (InputBrushObject : UHoudiniInputBrush)
    (BrushActor : ABrush) (bDel : Bool) :
    ∀ e ∈ callHead w InputBrushObject BrushActor bDel, e.call.isRemote = false := by
  intro e he
  unfold callHead at he
  split at he
  · simp at he
  · simp only at he
    cases hL : (if (w.NodeExistsAndIsNotDirty (identifierOf BrushActor)).1 = true then
        w.GetHAPINodeId (w.NodeExistsAndIsNotDirty (identifierOf BrushActor)).2 else none) with
    | some NodeId =>
      rw [hL] at he
      simp only at he
      split at he
      · simp only [List.mem_singleton] at he
        subst he; rfl
      · simp at he
    | none =>
      rw [hL] at he
      simp only [List.mem_singleton] at he
      subst he; rfl

/-- C11, as the code has it. Transport failures are fatal for the rebuild, node deletion
apart: for every remote-engine call issued by CreateInputNodeForBrush other than DeleteNode
(node creation, input connection, display flag, object transform, part info, AddAttribute,
SetAttributeData, vertex list, face counts, the material attributes, commit), if that call
returns a non-success result then CreateInputNodeForBrush returns false; a run that issues
DeleteNode returns true whatever DeleteNode answers. -/
theorem remote_failure_fails_call (w : World) (InputBrushObject : UHoudiniInputBrush)
    (BrushActor : ABrush) (ExcludeActors : Option (List Nat)) (InputNodeId : HAPI_NodeId)
    (NodeName : String) (bExport : Bool) (OutHandle : FUnrealObjectInputHandle)
    (bDel : Bool) (e : Event)
    (he : e ∈ (CreateInputNodeForBrush w InputBrushObject BrushActor ExcludeActors InputNodeId
      NodeName bExport OutHandle bDel).trace)
    (hRemote : e.call.isRemote = true) :
    (e.ok = false → e.call.isDeleteNode = false →
      (CreateInputNodeForBrush w InputBrushObject BrushActor ExcludeActors InputNodeId NodeName
        bExport OutHandle bDel).ret = some false) ∧
    (e.call.isDeleteNode = true →
      (CreateInputNodeForBrush w InputBrushObject BrushActor ExcludeActors InputNodeId NodeName
        bExport OutHandle bDel).ret = some true) := by
  obtain ⟨htrace, hret⟩ := call_closed_form w InputBrushObject BrushActor ExcludeActors
    InputNodeId NodeName bExport OutHandle bDel
  rw [htrace, List.mem_append] at he
  rw [hret]
  rcases he with he | he
  · rw [not_remote_callHead w InputBrushObject BrushActor bDel e he] at hRemote
    simp at hRemote
  · obtain ⟨h1, h2⟩ := failureIsFatal_callScript w InputBrushObject BrushActor NodeName bExport
      bDel e he
    exact ⟨h1 hRemote, h2⟩

theorem remote_failure_fails_call_witness :
    (⟨.HapiCommitGeo 5, false⟩ : Event)
      ∈ (CreateInputNodeForBrush (commitFailsWorld sampleModel) sampleInput sampleBrush none 42
        "brush" false none true).trace ∧
    (CreateInputNodeForBrush (commitFailsWorld sampleModel) sampleInput sampleBrush none 42
      "brush" false none true).ret = some false :=
  ⟨by decide,
   (remote_failure_fails_call (commitFailsWorld sampleModel) sampleInput sampleBrush none 42
      "brush" false none true ⟨.HapiCommitGeo 5, false⟩ (by decide) rfl).1 rfl rfl⟩

/-- C11 as stated fails for node deletion: with a brush model without points and a remote
engine that refuses DeleteNode, the run issues DeleteNode for the object node 105, gets a
non-success result, and returns true, with InputNodeId set to -1. -/
theorem failed_node_deletion_returns_true :
    (⟨.DeleteNode 105, false⟩ : Event)
      ∈ (CreateInputNodeForBrush (deleteFailsWorld emptyModel) sampleInput sampleBrush none 42
        "brush" false none true).trace ∧
    (Call.DeleteNode 105).isRemote = true ∧
    (CreateInputNodeForBrush (deleteFailsWorld emptyModel) sampleInput sampleBrush none 42
      "brush" false none true).ret = some true ∧
    (CreateInputNodeForBrush (deleteFailsWorld emptyModel) sampleInput sampleBrush none 42
      "brush" false none true).InputNodeId = -1 ∧
    ¬ (∀ e ∈ (CreateInputNodeForBrush (deleteFailsWorld emptyModel) sampleInput sampleBrush
        none 42 "brush" false none true).trace,
      e.call.isRemote = true → e.ok = false →
      (CreateInputNodeForBrush (deleteFailsWorld emptyModel) sampleInput sampleBrush none 42
        "brush" false none true).ret = some false) := by
  refine ⟨by decide, by decide, by decide, by decide, fun h => ?_⟩
  exact absurd (h ⟨.DeleteNode 105, false⟩ (by decide) rfl rfl) (by decide)

/-! ## C13: declare before set -/

theorem orderedTrace_nil (h : List Event) : OrderedTrace h [] := by
  intro pre e post heq
  simp at heq

theorem orderedTrace_append {h a b : List Event} (ha : OrderedTrace h a)
    (hb : OrderedTrace (h ++ a) b) : OrderedTrace h (a ++ b) := by
  intro pre e post heq
  rcases List.append_eq_append_iff.1 heq with ⟨a', hpre, hb'⟩ | ⟨c', ha', hc⟩
  · have := hb a' e post hb'
    rw [hpre, ← List.append_assoc]
    exact this
  · cases c' with
    | nil =>
      simp only [List.nil_append] at hc
      simp only [List.append_nil] at ha'
      have := hb [] e post hc.symm
      rw [List.append_nil, ha'] at this
      exact this
    | cons e' rest =>
      simp only [List.cons_append, List.cons.injEq] at hc
      rw [← hc.1] at ha'
      exact ha pre e rest ha'

theorem orderedTrace_singleton {h : List Event} {e : Event} (he : DeclaredBefore e.call h) :
    OrderedTrace h [e] := by
  intro pre e' post heq
  cases pre with
  | nil =>
    simp only [List.nil_append, List.cons.injEq] at heq
    rw [← heq.1, List.append_nil]
    exact he
  | cons x rest =>
    have := congrArg List.length heq
    simp at this

theorem orderedTrace_issued {steps : List (Call × Bool)} :
    ∀ {h : List Event}, OrderedSteps h steps → OrderedTrace h (issued steps) := by
  induction steps with
  | nil => intro h _; exact orderedTrace_nil h
  | cons c rest ih =>
    intro h hs
    obtain ⟨c, ok⟩ := c
    obtain ⟨h1, h2⟩ := hs
    have : issued ((c, ok) :: rest) = [⟨c, ok⟩] ++ if ok then issued rest else [] := rfl
    rw [this]
    apply orderedTrace_append (orderedTrace_singleton h1)
    cases ok with
    | false => exact orderedTrace_nil _
    | true => exact ih (h2 rfl)

theorem orderedTrace_of_free {h tr : List Event}
    (hfree : ∀ e ∈ tr, ∀ h', DeclaredBefore e.call h') : OrderedTrace h tr := by
  intro pre e post heq
  exact hfree e (by rw [heq]; simp) _

theorem orderedTrace_after {h : List Event} {pre : List (Call × Bool)} {s : Script}
    (hpre : OrderedSteps h pre)
    (hs : pre.all (fun c => c.2) = true →
      OrderedTrace (h ++ pre.map (fun c => ⟨c.1, true⟩)) s.trace) :
    OrderedTrace h (Script.after pre s).trace := by
  rw [trace_after]
  apply orderedTrace_append (orderedTrace_issued hpre)
  by_cases hall : pre.all (fun c => c.2) = true
  · simp only [hall, if_true]
    rw [issued_of_all hall]
    exact hs hall
  · simp only [hall, Bool.false_eq_true, if_false]
    exact orderedTrace_nil _

theorem orderedTrace_stopped (h : List Event) : OrderedTrace h Script.stopped.trace := by
  have : Script.stopped.trace = [] := by simp [Script.stopped, Script.trace, issued]
  rw [this]
  exact orderedTrace_nil h

theorem vertexDataScript_eq_after (w : World) (Identifier : FUnrealObjectInputIdentifier)
    (bExport bDel : Bool) (InputObjectNodeId InputNodeId : HAPI_NodeId) (NumNodes : Nat)
    (NumIndices : Int) (FaceCountBuffer : List Int) (b : VertexBuffers) :
    vertexDataScript w Identifier bExport bDel InputObjectNodeId InputNodeId NumNodes
      NumIndices FaceCountBuffer b
      = Script.after
          (vertexDataSteps w bExport InputNodeId NumNodes NumIndices FaceCountBuffer b)
          ⟨[], [⟨.AddNodeOrUpdateNode Identifier InputNodeId InputObjectNodeId bDel,
            (w.AddNodeOrUpdateNode Identifier InputNodeId InputObjectNodeId bDel).1⟩],
            some true⟩ := by
  simp [vertexDataScript, Script.after]

theorem orderedTrace_vertexDataScript (w : World)
    (Identifier : FUnrealObjectInputIdentifier) (bExport bDel : Bool)
    (InputObjectNodeId InputNodeId : HAPI_NodeId) (NumNodes : Nat) (NumIndices : Int)
    (FaceCountBuffer : List Int) (b : VertexBuffers) (h : List Event) (part : HAPI_PartInfo)
    (hPart : ⟨.SetPartInfo InputNodeId 0 part, true⟩ ∈ h) :
    OrderedTrace h (vertexDataScript w Identifier bExport bDel InputObjectNodeId InputNodeId
      NumNodes NumIndices FaceCountBuffer b).trace := by
  rw [vertexDataScript_eq_after]
  apply orderedTrace_after
  · simp only [vertexDataSteps, OrderedSteps, DeclaredBefore]
    refine ⟨trivial, fun _ => ⟨trivial, fun _ => ⟨⟨part, by simp [hPart]⟩, fun _ =>
      ⟨by simp, fun _ => ⟨⟨part, by simp [hPart]⟩, fun _ => ⟨by simp, fun _ =>
        ⟨⟨part, by simp [hPart]⟩, fun _ => ⟨trivial, fun _ => trivial⟩⟩⟩⟩⟩⟩⟩⟩
  · intro _
    apply orderedTrace_of_free
    intro e he h'
    simp only [Script.trace, issued, List.all_nil, if_true, List.nil_append,
      List.mem_singleton] at he
    subst he
    simp only [DeclaredBefore]

theorem orderedTrace_geometryScript (w : World) (ActorTransform : FTransform)
    (BrushModel : UModel) (Identifier : FUnrealObjectInputIdentifier) (bExport bDel : Bool)
    (InputObjectNodeId InputNodeId : HAPI_NodeId) (NumIndices : Int)
    (FaceCountBuffer : List Int) (h : List Event) :
    OrderedTrace h (geometryScript w ActorTransform BrushModel Identifier bExport bDel
      InputObjectNodeId InputNodeId NumIndices FaceCountBuffer).trace := by
  unfold geometryScript
  apply orderedTrace_after
  · simp only [partSteps, OrderedSteps, DeclaredBefore]
    exact ⟨trivial, fun _ =>
      ⟨⟨makePart NumIndices FaceCountBuffer BrushModel.Points.length, by simp⟩,
        fun _ => trivial⟩⟩
  · intro _
    cases positionLoop w ActorTransform BrushModel.Points 0
        (List.replicate BrushModel.Points.length ⟨0, 0, 0⟩) with
    | none => exact orderedTrace_stopped _
    | some OutPosition =>
      apply orderedTrace_after
      · simp only [positionSteps, partSteps, OrderedSteps, DeclaredBefore]
        exact ⟨by simp, fun _ => trivial⟩
      · intro _
        cases buildVertexBuffers w ActorTransform BrushModel NumIndices with
        | none => exact orderedTrace_stopped _
        | some b =>
          exact orderedTrace_vertexDataScript _ _ _ _ _ _ _ _ _ _ _
            (makePart NumIndices FaceCountBuffer BrushModel.Points.length)
            (by simp [partSteps])

theorem orderedTrace_brushScript (w : World) (InputBrushObject : UHoudiniInputBrush)
    (BrushActor : ABrush) (Identifier : FUnrealObjectInputIdentifier) (bExport bDel : Bool)
    (InputObjectNodeId InputNodeId : HAPI_NodeId) (h : List Event) :
    OrderedTrace h (brushScript w InputBrushObject BrushActor Identifier bExport bDel
      InputObjectNodeId InputNodeId).trace := by
  unfold brushScript
  by_cases hEmpty : (brushModelOf w InputBrushObject).Points.length = 0
  · simp only [hEmpty, if_true]
    apply orderedTrace_of_free
    intro e he h'
    simp only [Script.trace, issued, List.all_nil, if_true, List.nil_append,
      List.mem_singleton] at he
    subst he
    simp only [DeclaredBefore]
  · simp only [hEmpty, if_false]
    cases faceCountLoop (brushModelOf w InputBrushObject).Nodes 0
        (0, SetNumUninitialized w.UninitInt (brushModelOf w InputBrushObject).Nodes.length) with
    | none => exact orderedTrace_stopped _
    | some r =>
      apply orderedTrace_after
      · unfold transformSteps
        split
        · simp only [OrderedSteps, DeclaredBefore]
          exact ⟨trivial, fun _ => trivial⟩
        · trivial
      · intro _
        exact orderedTrace_geometryScript _ _ _ _ _ _ _ _ _ _ _

theorem orderedTrace_nodeScript (w : World)
    (InputBrushObject : UHoudiniInputBrush) (BrushActor : ABrush)
    (Identifier : FUnrealObjectInputIdentifier) (FinalInputNodeName : String)
    (ParentNodeId : HAPI_NodeId) (bExport bDel : Bool) (InputNodeId : HAPI_NodeId)
    (h : List Event) :
    OrderedTrace h (nodeScript w InputBrushObject BrushActor Identifier FinalInputNodeName
      ParentNodeId bExport bDel InputNodeId).trace := by
  unfold nodeScript
  by_cases hValid : w.IsHoudiniNodeValid InputNodeId = true
  · simp only [hValid, if_true]
    exact orderedTrace_brushScript _ _ _ _ _ _ _ _ _
  · simp only [hValid, Bool.false_eq_true, if_false]
    apply orderedTrace_after
    · simp only [OrderedSteps, DeclaredBefore]
      exact ⟨trivial, fun _ => trivial⟩
    · intro _
      by_cases hNew :
        w.IsHoudiniNodeValid (w.CreateInputNode FinalInputNodeName ParentNodeId).2 = true
      · simp only [hNew, Bool.not_true, Bool.false_eq_true, if_false]
        apply orderedTrace_after
        · simp only [cleanNodeSteps, OrderedSteps, DeclaredBefore]
          exact ⟨trivial, fun _ => ⟨trivial, fun _ => ⟨trivial, fun _ => trivial⟩⟩⟩
        · intro _
          exact orderedTrace_brushScript _ _ _ _ _ _ _ _ _
      · simp only [hNew, Bool.not_false, if_true]
        simp only [Script.trace, issued, List.all_nil, if_true, List.append_nil]
        exact orderedTrace_nil _

theorem orderedTrace_callScript (w : World) (InputBrushObject : UHoudiniInputBrush)
    (BrushActor : ABrush) (NodeName : String) (bExport bDel : Bool) (h : List Event) :
    OrderedTrace h (callScript w InputBrushObject BrushActor NodeName bExport bDel).trace := by
  unfold callScript
  split
  · simp only [Script.trace, issued, List.all_nil, if_true, List.append_nil]
    exact orderedTrace_nil _
  · simp only
    cases (if (w.NodeExistsAndIsNotDirty (identifierOf BrushActor)).1 = true then
        w.GetHAPINodeId (w.NodeExistsAndIsNotDirty (identifierOf BrushActor)).2 else none) with
    | some NodeId =>
      simp only [Script.trace, issued, List.all_nil, if_true, List.append_nil]
      exact orderedTrace_nil _
    | none => exact orderedTrace_nodeScript _ _ _ _ _ _ _ _ _ _

theorem orderedTrace_call (w : World) (InputBrushObject : UHoudiniInputBrush)
    (BrushActor : ABrush) (ExcludeActors : Option (List Nat)) (InputNodeId : HAPI_NodeId)
    (NodeName : String) (bExport : Bool) (OutHandle : FUnrealObjectInputHandle)
    (bDel : Bool) :
    OrderedTrace [] (CreateInputNodeForBrush w InputBrushObject BrushActor ExcludeActors
      InputNodeId NodeName bExport OutHandle bDel).trace := by
  rw [(call_closed_form w InputBrushObject BrushActor ExcludeActors InputNodeId NodeName
    bExport OutHandle bDel).1]
  apply orderedTrace_append
  · apply orderedTrace_of_free
    intro e he h'
    have hr := not_remote_callHead w InputBrushObject BrushActor bDel e he
    cases hc : e.call <;> simp only [hc, Call.isRemote, DeclaredBefore] at hr ⊢ <;>
      simp at hr
  · exact orderedTrace_callScript _ _ _ _ _ _ _

/-- C13. Declare before set: in every execution of CreateInputNodeForBrush, every
SetAttributeData call (the position, the normal and the UV are the attributes it is
issued for) comes after an AddAttribute call for the same attribute name and info on the
same node and part that returned success, and every AddAttribute call, as well as the
CreateHoudiniMeshAttributes call, comes after a SetPartInfo call for the same node and
part that returned success. -/
theorem declare_before_set (w : World) (InputBrushObject : UHoudiniInputBrush)
    (BrushActor : ABrush) (ExcludeActors : Option (List Nat)) (InputNodeId : HAPI_NodeId)
    (NodeName : String) (bExport : Bool) (OutHandle : FUnrealObjectInputHandle)
    (bDel : Bool) :
    (∀ (pre post : List Event) (n : HAPI_NodeId) (p : Int) (Name : String)
      (Info : HAPI_AttributeInfo) (Data : List FVector3f) (ok : Bool),
      (CreateInputNodeForBrush w InputBrushObject BrushActor ExcludeActors InputNodeId NodeName
        bExport OutHandle bDel).trace
        = pre ++ ⟨.SetAttributeData n p Name Info Data, ok⟩ :: post →
      (Name = w.HAPI_UNREAL_ATTRIB_POSITION ∨ Name = w.HAPI_UNREAL_ATTRIB_NORMAL ∨
        Name = w.HAPI_UNREAL_ATTRIB_UV) ∧
      ⟨.AddAttribute n p Name Info, true⟩ ∈ pre) ∧
    (∀ (pre post : List Event) (n : HAPI_NodeId) (p : Int) (Name : String)
      (Info : HAPI_AttributeInfo) (ok : Bool),
      (CreateInputNodeForBrush w InputBrushObject BrushActor ExcludeActors InputNodeId NodeName
        bExport OutHandle bDel).trace
        = pre ++ ⟨.AddAttribute n p Name Info, ok⟩ :: post →
      ∃ Part, ⟨.SetPartInfo n p Part, true⟩ ∈ pre) ∧
    (∀ (pre post : List Event) (n : HAPI_NodeId) (p : Int) (Count : Int)
      (OutMaterials : List String) (Parameters : MaterialParameters) (ok : Bool),
      (CreateInputNodeForBrush w InputBrushObject BrushActor ExcludeActors InputNodeId NodeName
        bExport OutHandle bDel).trace
        = pre ++ ⟨.CreateHoudiniMeshAttributes n p Count OutMaterials Parameters, ok⟩ :: post →
      ∃ Part, ⟨.SetPartInfo n p Part, true⟩ ∈ pre) := by
  have hord := orderedTrace_call w InputBrushObject BrushActor ExcludeActors InputNodeId
    NodeName bExport OutHandle bDel
  refine ⟨?_, ?_, ?_⟩
  · intro pre post n p Name Info Data ok heq
    have := hord pre _ post heq
    simp only [DeclaredBefore, List.nil_append] at this
    refine ⟨?_, this⟩
    have hmem : (⟨.SetAttributeData n p Name Info Data, ok⟩ : Event)
        ∈ (CreateInputNodeForBrush w InputBrushObject BrushActor ExcludeActors InputNodeId
          NodeName bExport OutHandle bDel).trace := by
      rw [heq]; simp
    obtain ⟨T, NumIndices, FaceCountBuffer, _, hcases⟩ := geometry_call_cases hmem rfl
    rcases hcases with hc | hc | ⟨pos, _, hc⟩ | ⟨b, _, hc⟩
    · simp at hc
    · simp at hc
    · simp only [Call.SetAttributeData.injEq] at hc
      exact Or.inl hc.2.2.1
    · rcases hc with hc | hc | hc | hc | hc | hc | hc | hc <;>
        simp only [Call.SetAttributeData.injEq, reduceCtorEq] at hc
      · exact Or.inr (Or.inl hc.2.2.1)
      · exact Or.inr (Or.inr hc.2.2.1)
  · intro pre post n p Name Info ok heq
    have := hord pre _ post heq
    simpa only [DeclaredBefore, List.nil_append] using this
  · intro pre post n p Count OutMaterials Parameters ok heq
    have := hord pre _ post heq
    simpa only [DeclaredBefore, List.nil_append] using this

theorem declare_before_set_witness :
    (⟨.AddAttribute 5 0 "N" (AttributeInfoVertexVector 9), true⟩ : Event)
      ∈ (CreateInputNodeForBrush (okWorld sampleModel) sampleInput sampleBrush none 42 "brush"
        false none true).trace.take 11 ∧
    ∃ Part, (⟨.SetPartInfo 5 0 Part, true⟩ : Event)
      ∈ (CreateInputNodeForBrush (okWorld sampleModel) sampleInput sampleBrush none 42 "brush"
        false none true).trace.take 6 :=
  ⟨((declare_before_set (okWorld sampleModel) sampleInput sampleBrush none 42 "brush" false
      none true).1 _
      ((CreateInputNodeForBrush (okWorld sampleModel) sampleInput sampleBrush none 42 "brush"
        false none true).trace.drop 12) 5 0 "N" (AttributeInfoVertexVector 9)
      (List.replicate 9 ⟨0, 1, 0⟩) true (by with_unfolding_all decide)).2,
   (declare_before_set (okWorld sampleModel) sampleInput sampleBrush none 42 "brush" false
      none true).2.1 _
      ((CreateInputNodeForBrush (okWorld sampleModel) sampleInput sampleBrush none 42 "brush"
        false none true).trace.drop 7) 5 0 "P" (AttributeInfoPointVector 4) true
      (by with_unfolding_all decide)⟩

/-! ## C17: a stale registry entry -/

theorem rebuildScript_stale (w : World) (InputBrushObject : UHoudiniInputBrush)
    (BrushActor : ABrush) (NodeName : String) (bExport bDel : Bool)
    (hStale : w.IsHoudiniNodeValid (registeredNodeId w BrushActor) = false) :
    rebuildScript w InputBrushObject BrushActor NodeName bExport bDel
    = Script.after
        [ (.CreateInputNode (w.GetDefaultInputNodeName (identifierOf BrushActor) NodeName)
            (if (w.EnsureParentsExist (identifierOf BrushActor) bDel).1 then
              (w.GetHAPINodeId (w.EnsureParentsExist (identifierOf BrushActor) bDel).2).getD (-1)
             else -1),
           (createdNode w BrushActor NodeName bDel).1.isSuccess) ]
        (if !w.IsHoudiniNodeValid (createdNode w BrushActor NodeName bDel).2 then
          ⟨[], [], some false⟩
         else
          Script.after (cleanNodeSteps w (createdNode w BrushActor NodeName bDel).2)
            (brushScript w InputBrushObject BrushActor (identifierOf BrushActor) bExport bDel
              (w.HapiGetParentNodeId (createdNode w BrushActor NodeName bDel).2)
              (createdNode w BrushActor NodeName bDel).2)) := by
  simp only [rebuildScript, nodeScript, hStale, Bool.false_eq_true, if_false, createdNode]

theorem uploadTarget_geometryScript {w : World} {ActorTransform : FTransform}
    {BrushModel : UModel} {Identifier : FUnrealObjectInputIdentifier} {bExport bDel : Bool}
    {InputObjectNodeId InputNodeId : HAPI_NodeId} {NumIndices : Int}
    {FaceCountBuffer : List Int} {e : Event}
    (h : e ∈ (geometryScript w ActorTransform BrushModel Identifier bExport bDel
      InputObjectNodeId InputNodeId NumIndices FaceCountBuffer).trace) :
    e.call.uploadTarget = some InputNodeId := by
  rcases mem_geometryScript_trace h with ⟨c, hc, he⟩ | ⟨pos, _, c, hc, he⟩ |
    ⟨b, _, ⟨c, hc, he⟩ | he⟩
  · simp only [partSteps, List.mem_cons, List.mem_singleton, List.not_mem_nil, or_false] at hc
    rcases hc with hc | hc <;> subst hc <;> subst he <;> rfl
  · simp only [positionSteps, List.mem_singleton] at hc
    subst hc; subst he; rfl
  · simp only [vertexDataSteps, List.mem_cons, List.mem_singleton, List.not_mem_nil,
      or_false] at hc
    rcases hc with hc | hc | hc | hc | hc | hc | hc | hc <;> subst hc <;> subst he <;> rfl
  · subst he; rfl

theorem uploadTarget_brushScript {w : World} {InputBrushObject : UHoudiniInputBrush}
    {BrushActor : ABrush} {Identifier : FUnrealObjectInputIdentifier} {bExport bDel : Bool}
    {InputObjectNodeId InputNodeId : HAPI_NodeId} {e : Event} {n : HAPI_NodeId}
    (h : e ∈ (brushScript w InputBrushObject BrushActor Identifier bExport bDel
      InputObjectNodeId InputNodeId).trace)
    (hn : e.call.uploadTarget = some n) : n = InputNodeId := by
  rcases mem_brushScript_trace h with ⟨_, he⟩ | ⟨_, NumIndices, FaceCountBuffer, _, he⟩
  · subst he; simp [Call.uploadTarget] at hn
  · rcases he with ⟨c, hc, he⟩ | he
    · unfold transformSteps at hc
      split at hc
      · simp only [List.mem_singleton] at hc
        subst hc; subst he
        simp [Call.uploadTarget] at hn
      · simp at hc
    · rw [uploadTarget_geometryScript he] at hn
      exact (Option.some.inj hn).symm

theorem mem_after_of_ret {pre : List (Call × Bool)} {s : Script} {e : Event}
    (hret : (Script.after pre s).ret = some true)
    (h : s.ret = some true → e ∈ s.trace) : e ∈ (Script.after pre s).trace := by
  rw [ret_after] at hret
  rw [trace_after]
  by_cases hall : pre.all (fun c => c.2) = true
  · simp only [hall, if_true] at hret ⊢
    exact List.mem_append_right _ (h hret)
  · simp [hall] at hret

theorem all_of_ret_after {pre : List (Call × Bool)} {s : Script}
    (hret : (Script.after pre s).ret = some true) :
    pre.all (fun c => c.2) = true ∧ s.ret = some true := by
  rw [ret_after] at hret
  by_cases hall : pre.all (fun c => c.2) = true
  · simp only [hall, if_true] at hret
    exact ⟨hall, hret⟩
  · simp [hall] at hret

theorem commit_of_ret_geometryScript {w : World} {ActorTransform : FTransform}
    {BrushModel : UModel} {Identifier : FUnrealObjectInputIdentifier} {bExport bDel : Bool}
    {InputObjectNodeId InputNodeId : HAPI_NodeId} {NumIndices : Int}
    {FaceCountBuffer : List Int}
    (hret : (geometryScript w ActorTransform BrushModel Identifier bExport bDel
      InputObjectNodeId InputNodeId NumIndices FaceCountBuffer).ret = some true) :
    ⟨.HapiCommitGeo InputNodeId, true⟩ ∈ (geometryScript w ActorTransform BrushModel Identifier
      bExport bDel InputObjectNodeId InputNodeId NumIndices FaceCountBuffer).trace := by
  unfold geometryScript at hret ⊢
  apply mem_after_of_ret hret
  cases positionLoop w ActorTransform BrushModel.Points 0
      (List.replicate BrushModel.Points.length ⟨0, 0, 0⟩) with
  | none => intro h; simp [Script.stopped, Script.ret] at h
  | some OutPosition =>
    intro hret
    simp only at hret ⊢
    apply mem_after_of_ret hret
    cases buildVertexBuffers w ActorTransform BrushModel NumIndices with
    | none => intro h; simp [Script.stopped, Script.ret] at h
    | some b =>
      intro hret
      simp only at hret ⊢
      rw [vertexDataScript_eq_after] at hret ⊢
      obtain ⟨hall, _⟩ := all_of_ret_after hret
      rw [trace_after, issued_of_all hall]
      apply List.mem_append_left
      simp [vertexDataSteps]

theorem commit_of_ret_brushScript {w : World} {InputBrushObject : UHoudiniInputBrush}
    {BrushActor : ABrush} {Identifier : FUnrealObjectInputIdentifier} {bExport bDel : Bool}
    {InputObjectNodeId InputNodeId : HAPI_NodeId}
    (hne : (brushModelOf w InputBrushObject).Points.length ≠ 0)
    (hret : (brushScript w InputBrushObject BrushActor Identifier bExport bDel
      InputObjectNodeId InputNodeId).ret = some true) :
    ⟨.HapiCommitGeo InputNodeId, true⟩ ∈ (brushScript w InputBrushObject BrushActor Identifier
      bExport bDel InputObjectNodeId InputNodeId).trace := by
  unfold brushScript at hret ⊢
  simp only [hne, if_false] at hret ⊢
  cases hfc : faceCountLoop (brushModelOf w InputBrushObject).Nodes 0
      (0, SetNumUninitialized w.UninitInt (brushModelOf w InputBrushObject).Nodes.length) with
  | none => rw [hfc] at hret; simp [Script.stopped, Script.ret] at hret
  | some r =>
    rw [hfc] at hret
    exact mem_after_of_ret hret commit_of_ret_geometryScript

theorem keep_checkAll {f : Frame} {steps : List (Call × Bool)} {k : Frame → Outcome}
    (hk : ∀ f' : Frame, f'.InputNodeId = f.InputNodeId → (k f').InputNodeId = f.InputNodeId) :
    (checkAll f steps k).InputNodeId = f.InputNodeId := by
  unfold checkAll
  split
  · exact hk _ rfl
  · rfl

theorem inputNodeId_uploadVertexData (w : World) (Identifier : FUnrealObjectInputIdentifier)
    (bExport bDel : Bool) (InputObjectNodeId : HAPI_NodeId) (NumNodes : Nat) (NumIndices : Int)
    (FaceCountBuffer : List Int) (b : VertexBuffers) (f : Frame) :
    (uploadVertexData w Identifier bExport bDel InputObjectNodeId NumNodes NumIndices
      FaceCountBuffer b f).InputNodeId = f.InputNodeId := by
  unfold uploadVertexData
  apply keep_checkAll
  intro f' hf'
  by_cases hadd : (w.AddNodeOrUpdateNode Identifier f.InputNodeId InputObjectNodeId bDel).1
      = true
  · simp [Frame.exit, Frame.log, hadd, hf']
  · simp [Frame.exit, Frame.log, hadd, hf']

theorem inputNodeId_uploadGeometry (w : World) (ActorTransform : FTransform)
    (BrushModel : UModel) (Identifier : FUnrealObjectInputIdentifier) (bExport bDel : Bool)
    (InputObjectNodeId : HAPI_NodeId) (NumIndices : Int) (FaceCountBuffer : List Int)
    (f : Frame) :
    (uploadGeometry w ActorTransform BrushModel Identifier bExport bDel InputObjectNodeId
      NumIndices FaceCountBuffer f).InputNodeId = f.InputNodeId := by
  unfold uploadGeometry
  apply keep_checkAll
  intro f' hf'
  cases positionLoop w ActorTransform BrushModel.Points 0
      (List.replicate BrushModel.Points.length ⟨0, 0, 0⟩) with
  | none => exact hf'
  | some OutPosition =>
    simp only
    rw [← hf']
    apply keep_checkAll
    intro f'' hf''
    cases buildVertexBuffers w ActorTransform BrushModel NumIndices with
    | none => exact hf''
    | some b =>
      simp only
      rw [inputNodeId_uploadVertexData, hf'']

theorem inputNodeId_uploadBrush (w : World) (InputBrushObject : UHoudiniInputBrush)
    (BrushActor : ABrush) (Identifier : FUnrealObjectInputIdentifier) (bExport bDel : Bool)
    (InputObjectNodeId : HAPI_NodeId) (f : Frame) :
    (uploadBrush w InputBrushObject BrushActor Identifier bExport bDel InputObjectNodeId
      f).InputNodeId
    = if (brushModelOf w InputBrushObject).Points.length = 0 then -1 else f.InputNodeId := by
  unfold uploadBrush brushModelOf
  by_cases hEmpty :
    (w.BuildModelFromBrushes (w.FindIntersectingSubtractiveBrushes InputBrushObject)).Points.length
      = 0
  · simp [hEmpty, Frame.exit, Frame.log]
  · simp only [hEmpty, if_false]
    cases faceCountLoop
      (w.BuildModelFromBrushes (w.FindIntersectingSubtractiveBrushes InputBrushObject)).Nodes 0
      (0, SetNumUninitialized w.UninitInt
        (w.BuildModelFromBrushes
          (w.FindIntersectingSubtractiveBrushes InputBrushObject)).Nodes.length) with
    | none => rfl
    | some r =>
      obtain ⟨NumIndices, FaceCountBuffer⟩ := r
      simp only
      apply keep_checkAll
      intro f' hf'
      rw [inputNodeId_uploadGeometry, hf']

theorem creation_failure_outcome (w : World) (InputBrushObject : UHoudiniInputBrush)
    (BrushActor : ABrush) (ExcludeActors : Option (List Nat)) (InputNodeId : HAPI_NodeId)
    (NodeName : String) (bExport : Bool) (OutHandle : FUnrealObjectInputHandle)
    (bDel : Bool)
    (hNeeds : NeedsNewNode w InputBrushObject BrushActor)
    (hFail : (createdNode w BrushActor NodeName bDel).1.isSuccess = false ∨
      w.IsHoudiniNodeValid (createdNode w BrushActor NodeName bDel).2 = false) :
    CreateInputNodeForBrush w InputBrushObject BrushActor ExcludeActors InputNodeId NodeName
      bExport OutHandle bDel
    = ⟨some false, registeredNodeId w BrushActor, OutHandle,
        creationTrace w BrushActor NodeName bDel⟩ := by
  obtain ⟨hActor, hBrush, hIgnore, hReuse, hStale⟩ := hNeeds
  have hlookup : (if (w.NodeExistsAndIsNotDirty (identifierOf BrushActor)).1 = true then
      w.GetHAPINodeId (w.NodeExistsAndIsNotDirty (identifierOf BrushActor)).2 else none)
      = none := by
    split
    · exact hReuse (by assumption)
    · rfl
  have hStale2 := hStale
  simp only [registeredNodeId] at hStale2
  unfold CreateInputNodeForBrush
  simp only [hActor, hBrush, hIgnore, hlookup, Bool.not_true, Bool.false_eq_true, if_false]
  by_cases hOk : (createdNode w BrushActor NodeName bDel).1.isSuccess = true
  · have hNew : w.IsHoudiniNodeValid (createdNode w BrushActor NodeName bDel).2 = false := by
      rcases hFail with h | h
      · rw [h] at hOk; simp at hOk
      · exact h
    simp only [createdNode] at hOk hNew
    simp [createOrUpdateNode, Frame.log, Frame.exit, checkAll, issued, creationTrace,
      createdNode, registeredNodeId, hStale2, hOk, hNew]
  · simp only [createdNode] at hOk
    simp [createOrUpdateNode, Frame.log, Frame.exit, checkAll, issued, creationTrace,
      createdNode, registeredNodeId, hStale2, hOk]

/-- C18. Node creation failure: for every call of CreateInputNodeForBrush that needs a new
input node, if creating the input node fails or yields an invalid node id, the call returns
false, its only calls are EnsureParentsExist and CreateInputNode, so that it issues no
part, attribute, transform or commit call, and it registers nothing: there is no
AddNodeOrUpdateNode call and OutHandle is left as it was. -/
theorem node_creation_failure (w : World) (InputBrushObject : UHoudiniInputBrush)
    (BrushActor : ABrush) (ExcludeActors : Option (List Nat)) (InputNodeId : HAPI_NodeId)
    (NodeName : String) (bExport : Bool) (OutHandle : FUnrealObjectInputHandle)
    (bDel : Bool)
    (hNeeds : NeedsNewNode w InputBrushObject BrushActor)
    (hFail : (createdNode w BrushActor NodeName bDel).1.isSuccess = false ∨
      w.IsHoudiniNodeValid (createdNode w BrushActor NodeName bDel).2 = false) :
    (CreateInputNodeForBrush w InputBrushObject BrushActor ExcludeActors InputNodeId NodeName
      bExport OutHandle bDel).ret = some false ∧
    (CreateInputNodeForBrush w InputBrushObject BrushActor ExcludeActors InputNodeId NodeName
      bExport OutHandle bDel).trace = creationTrace w BrushActor NodeName bDel ∧
    (CreateInputNodeForBrush w InputBrushObject BrushActor ExcludeActors InputNodeId NodeName
      bExport OutHandle bDel).OutHandle = OutHandle ∧
    ∀ e ∈ (CreateInputNodeForBrush w InputBrushObject BrushActor ExcludeActors InputNodeId
        NodeName bExport OutHandle bDel).trace,
      e.call.isGeometryCall = false ∧ e.call.isSetObjectTransform = false ∧
      e.call.isAddNodeOrUpdateNode = false := by
  rw [creation_failure_outcome w InputBrushObject BrushActor ExcludeActors InputNodeId NodeName
    bExport OutHandle bDel hNeeds hFail]
  refine ⟨rfl, rfl, rfl, ?_⟩
  intro e he
  simp only [creationTrace, List.mem_cons, List.mem_singleton, List.not_mem_nil,
    or_false] at he
  rcases he with he | he <;> subst he <;> exact ⟨rfl, rfl, rfl⟩

theorem node_creation_failure_witness :
    NeedsNewNode (creationFailsWorld sampleModel) sampleInput sampleBrush ∧
    (CreateInputNodeForBrush (creationFailsWorld sampleModel) sampleInput sampleBrush none 42
      "brush" false none true).ret = some false ∧
    (CreateInputNodeForBrush (creationFailsWorld sampleModel) sampleInput sampleBrush none 42
      "brush" false none true).trace
      = [⟨.EnsureParentsExist (identifierOf sampleBrush) true, true⟩,
         ⟨.CreateInputNode "brush" (-1), false⟩] ∧
    NeedsNewNode (invalidNewNodeWorld sampleModel) sampleInput sampleBrush ∧
    (CreateInputNodeForBrush (invalidNewNodeWorld sampleModel) sampleInput sampleBrush none 42
      "brush" false none true).ret = some false :=
  ⟨by decide,
   (node_creation_failure (creationFailsWorld sampleModel) sampleInput sampleBrush none 42
      "brush" false none true (by decide) (Or.inl (by decide))).1,
   (node_creation_failure (creationFailsWorld sampleModel) sampleInput sampleBrush none 42
      "brush" false none true (by decide) (Or.inl (by decide))).2.1.trans (by decide),
   by decide,
   (node_creation_failure (invalidNewNodeWorld sampleModel) sampleInput sampleBrush none 42
      "brush" false none true (by decide) (Or.inr (by decide))).1⟩

/-! ## C15: excluded actors -/

/-- C15, what the code does. ExcludeActors is never read: a call with a list of actors to
exclude has the outcome of the same call without one. With one intersecting brush, of
actor 4, and ExcludeActors naming actor 4, the model built from that brush is uploaded all
the same, its four points declared in the part info. -/
theorem exclude_actors_not_read :
    (∀ (w : World) (InputBrushObject : UHoudiniInputBrush) (BrushActor : ABrush)
      (ExcludeActors : List Nat) (InputNodeId : HAPI_NodeId) (NodeName : String)
      (bExport : Bool) (OutHandle : FUnrealObjectInputHandle) (bDel : Bool),
      CreateInputNodeForBrush w InputBrushObject BrushActor (some ExcludeActors) InputNodeId
        NodeName bExport OutHandle bDel
      = CreateInputNodeForBrush w InputBrushObject BrushActor none InputNodeId NodeName bExport
        OutHandle bDel) ∧
    (⟨.SetPartInfo 5 0 (makePart 9 [3, 3, 0, 3] 4), true⟩ : Event)
      ∈ (CreateInputNodeForBrush intersectingWorld sampleInput sampleBrush (some [4]) 42
        "brush" false none true).trace ∧
    (CreateInputNodeForBrush intersectingWorld sampleInput sampleBrush (some [4]) 42 "brush"
      false none true).ret = some true :=
  ⟨fun _ _ _ _ _ _ _ _ _ => rfl, by decide, by decide⟩

/-! ## C16: the can-be-deleted flag on reuse -/

/-- C16. Deletable flag on reuse: when CreateInputNodeForBrush reuses an existing
non-dirty node, it returns true with the registered handle and node; called with
bInputNodesCanBeDeleted = false its one call is UpdateInputNodeCanBeDeleted(Handle, false),
which when it succeeds leaves the flag of the handle false, and called with true it issues
no call and leaves every flag untouched; in both cases it issues no call to the remote
engine, and no flag that was false is true afterwards. -/
theorem deletable_flag_on_reuse (w : World) (InputBrushObject : UHoudiniInputBrush)
    (BrushActor : ABrush) (ExcludeActors : Option (List Nat)) (InputNodeId : HAPI_NodeId)
    (NodeName : String) (bExport : Bool) (OutHandle : FUnrealObjectInputHandle)
    (bDel : Bool) (NodeId : HAPI_NodeId) (flags : CanBeDeletedFlags)
    (hActor : BrushActor.IsValid = true) (hBrush : BrushActor.BrushIsValid = true)
    (hIgnore : InputBrushObject.ShouldIgnoreThisInput = false)
    (hExists : (w.NodeExistsAndIsNotDirty (identifierOf BrushActor)).1 = true)
    (hNode : w.GetHAPINodeId (w.NodeExistsAndIsNotDirty (identifierOf BrushActor)).2
      = some NodeId) :
    CreateInputNodeForBrush w InputBrushObject BrushActor ExcludeActors InputNodeId NodeName
      bExport OutHandle bDel
    = ⟨some true, NodeId, (w.NodeExistsAndIsNotDirty (identifierOf BrushActor)).2,
        if bDel then []
        else [⟨.UpdateInputNodeCanBeDeleted
                (w.NodeExistsAndIsNotDirty (identifierOf BrushActor)).2 false,
               w.UpdateInputNodeCanBeDeleted
                (w.NodeExistsAndIsNotDirty (identifierOf BrushActor)).2 false⟩]⟩ ∧
    (∀ e ∈ (CreateInputNodeForBrush w InputBrushObject BrushActor ExcludeActors InputNodeId
        NodeName bExport OutHandle bDel).trace,
      e.call.isRemote = false ∧ e.call.isGeometryCall = false) ∧
    (bDel = false →
      w.UpdateInputNodeCanBeDeleted (w.NodeExistsAndIsNotDirty (identifierOf BrushActor)).2
        false = true →
      flagsAfter (CreateInputNodeForBrush w InputBrushObject BrushActor ExcludeActors
        InputNodeId NodeName bExport OutHandle bDel).trace flags
        (w.NodeExistsAndIsNotDirty (identifierOf BrushActor)).2 = false) ∧
    (bDel = true →
      flagsAfter (CreateInputNodeForBrush w InputBrushObject BrushActor ExcludeActors
        InputNodeId NodeName bExport OutHandle bDel).trace flags = flags) ∧
    (∀ h, flagsAfter (CreateInputNodeForBrush w InputBrushObject BrushActor ExcludeActors
        InputNodeId NodeName bExport OutHandle bDel).trace flags h = true →
      flags h = true) := by
  have hEq : CreateInputNodeForBrush w InputBrushObject BrushActor ExcludeActors InputNodeId
      NodeName bExport OutHandle bDel
    = ⟨some true, NodeId, (w.NodeExistsAndIsNotDirty (identifierOf BrushActor)).2,
        if bDel then []
        else [⟨.UpdateInputNodeCanBeDeleted
                (w.NodeExistsAndIsNotDirty (identifierOf BrushActor)).2 false,
               w.UpdateInputNodeCanBeDeleted
                (w.NodeExistsAndIsNotDirty (identifierOf BrushActor)).2 false⟩]⟩ := by
    cases bDel <;>
      simp [CreateInputNodeForBrush, hActor, hBrush, hIgnore, hExists, hNode, Frame.exit,
        Frame.log]
  rw [hEq]
  refine ⟨rfl, ?_, ?_, ?_, ?_⟩
  · intro e he
    cases bDel with
    | true => simp at he
    | false =>
      simp only [Bool.false_eq_true, if_false, List.mem_singleton] at he
      subst he
      exact ⟨rfl, rfl⟩
  · intro hDel hOk
    subst hDel
    simp [flagsAfter, markCanBeDeleted, hOk]
  · intro hDel
    subst hDel
    simp [flagsAfter]
  · intro h hflag
    cases bDel with
    | true => simpa [flagsAfter] using hflag
    | false =>
      simp only [Bool.false_eq_true, if_false, flagsAfter, markCanBeDeleted] at hflag
      by_cases hOk : w.UpdateInputNodeCanBeDeleted
          (w.NodeExistsAndIsNotDirty (identifierOf BrushActor)).2 false = true
      · simp only [hOk, if_true] at hflag
        by_cases hh : h = (w.NodeExistsAndIsNotDirty (identifierOf BrushActor)).2
        · simp [hh] at hflag
        · simpa [hh] using hflag
      · simpa [hOk] using hflag

theorem deletable_flag_on_reuse_witness :
    (CreateInputNodeForBrush (registeredWorld sampleModel) sampleInput sampleBrush none 42
      "brush" false none false).trace
      = [⟨.UpdateInputNodeCanBeDeleted (some 9) false, true⟩] ∧
    flagsAfter (CreateInputNodeForBrush (registeredWorld sampleModel) sampleInput sampleBrush
      none 42 "brush" false none false).trace (fun _ => true) (some 9) = false ∧
    flagsAfter (CreateInputNodeForBrush (registeredWorld sampleModel) sampleInput sampleBrush
      none 42 "brush" false none true).trace (fun _ => false) = (fun _ => false) :=
  ⟨by decide,
   (deletable_flag_on_reuse (registeredWorld sampleModel) sampleInput sampleBrush none 42
      "brush" false none false 33 (fun _ => true) rfl rfl rfl rfl rfl).2.2.1 rfl rfl,
   (deletable_flag_on_reuse (registeredWorld sampleModel) sampleInput sampleBrush none 42
      "brush" false none true 33 (fun _ => false) rfl rfl rfl rfl rfl).2.2.2.1 rfl⟩

/-! ## C19: merge replacement -/

theorem isSuccess_success : HAPI_Result.HAPI_RESULT_SUCCESS.isSuccess = true := rfl

theorem le_foldl_max (l : List HAPI_NodeId) :
    ∀ (a : HAPI_NodeId), a ≤ l.foldl max a ∧ ∀ x ∈ l, x ≤ l.foldl max a := by
  induction l with
  | nil => intro a; simp
  | cons y rest ih =>
    intro a
    simp only [List.foldl_cons, List.mem_cons]
    obtain ⟨h1, h2⟩ := ih (max a y)
    refine ⟨le_trans (le_max_left a y) h1, ?_⟩
    rintro x (hx | hx)
    · rw [hx]; exact le_trans (le_max_right a y) h1
    · exact h2 x hx

theorem freshId_not_valid (s : MergeSession) : s.freshId ∉ s.valid := by
  intro h
  have := (le_foldl_max s.valid (-1)).2 _ h
  simp only [MergeSession.freshId] at this
  linarith

theorem freshId_nonneg (s : MergeSession) : 0 ≤ s.freshId := by
  have := (le_foldl_max s.valid (-1)).1
  simp only [MergeSession.freshId]
  linarith

theorem connectInputs_spec (n : HAPI_NodeId) (ids : List HAPI_NodeId) :
    ∀ (i : Nat) (s : MergeSession) (tr : List Event),
      (s.inputs n).length = i →
      (connectInputs n ids i s tr).1 = true →
      (connectInputs n ids i s tr).2.1.inputs n = s.inputs n ++ ids ∧
      (connectInputs n ids i s tr).2.1.valid = s.valid ∧
      (connectInputs n ids i s tr).2.1.deleteAnswer = s.deleteAnswer ∧
      (∃ more, (connectInputs n ids i s tr).2.2 = tr ++ more ∧
        ∀ e ∈ more, e.call.isDeleteNode = false) := by
  induction ids with
  | nil =>
    intro i s tr _ _
    exact ⟨by simp [connectInputs], rfl, rfl, [], by simp [connectInputs], by simp⟩
  | cons m rest ih =>
    intro i s tr hlen hret
    by_cases hOk : (s.connectAnswer n i m).isSuccess = true
    · have hstep : connectInputs n (m :: rest) i s tr
          = connectInputs n rest (i + 1)
              { s with
                inputs := fun k => if k = n then setInput (s.inputs n) i m else s.inputs k }
              (tr ++ [⟨.ConnectNodeInput n i m 0, true⟩]) := by
        simp [connectInputs, MergeSession.ConnectNodeInput, hOk, isSuccess_success]
      rw [hstep] at hret ⊢
      have hset : setInput (s.inputs n) i m = s.inputs n ++ [m] := by
        simp [setInput, hlen]
      obtain ⟨h1, h2, h3, more, h4, h5⟩ := ih (i + 1) _ _ (by simp [hset, hlen]) hret
      refine ⟨?_, h2, h3, ⟨.ConnectNodeInput n i m 0, true⟩ :: more, ?_, ?_⟩
      · rw [h1]
        simp [hset]
      · rw [h4]
        simp
      · intro e he
        rcases List.mem_cons.1 he with he | he
        · subst he; rfl
        · exact h5 e he
    · simp [connectInputs, MergeSession.ConnectNodeInput, hOk] at hret

/-- C19. Merge replacement: for every call of CreateMergeSOP with the id (>= 0) of an
existing merge node and a list of node ids to connect, after a successful call the inputs
of the resulting merge node are exactly the given list in order; the old merge node is no
longer valid, and every DeleteNode of the trace is for the old node, succeeded, and comes
after the successful creation of the new merge node, which is the first call; and
InOutMergeNodeId holds the id of the new node, which is valid and was not valid before. -/
theorem merge_replacement (s : MergeSession) (InOutMergeNodeId : HAPI_NodeId)
    (InNodeIdsToConnect : List HAPI_NodeId) (InMergeNodeName : String)
    (hOld : 0 ≤ InOutMergeNodeId)
    (hExisting : s.IsHoudiniNodeValid InOutMergeNodeId = true)
    (hRet : (CreateMergeSOP s InOutMergeNodeId InNodeIdsToConnect InMergeNodeName).ret = true) :
    (CreateMergeSOP s InOutMergeNodeId InNodeIdsToConnect InMergeNodeName).session.inputs
      (CreateMergeSOP s InOutMergeNodeId InNodeIdsToConnect InMergeNodeName).InOutMergeNodeId
      = InNodeIdsToConnect ∧
    (CreateMergeSOP s InOutMergeNodeId InNodeIdsToConnect InMergeNodeName).InOutMergeNodeId
      = s.freshId ∧
    s.IsHoudiniNodeValid s.freshId = false ∧
    (CreateMergeSOP s InOutMergeNodeId InNodeIdsToConnect InMergeNodeName).session.IsHoudiniNodeValid
      s.freshId = true ∧
    (CreateMergeSOP s InOutMergeNodeId InNodeIdsToConnect InMergeNodeName).session.IsHoudiniNodeValid
      InOutMergeNodeId = false ∧
    (∃ rest, (CreateMergeSOP s InOutMergeNodeId InNodeIdsToConnect InMergeNodeName).trace
      = ⟨.CreateNode (-1) "SOP/merge" InMergeNodeName, true⟩ :: rest ∧
      ⟨.DeleteNode InOutMergeNodeId, true⟩ ∈ rest) ∧
    (∀ (pre post : List Event) (n : HAPI_NodeId) (ok : Bool),
      (CreateMergeSOP s InOutMergeNodeId InNodeIdsToConnect InMergeNodeName).trace
        = pre ++ ⟨.DeleteNode n, ok⟩ :: post →
      n = InOutMergeNodeId ∧ ok = true ∧
      ⟨.CreateNode (-1) "SOP/merge" InMergeNodeName, true⟩ ∈ pre) := by
  have hfresh := freshId_not_valid s
  have hOldValid : InOutMergeNodeId ∈ s.valid := by
    simpa [MergeSession.IsHoudiniNodeValid] using hExisting
  by_cases hCreate : s.createAnswer.isSuccess = true
  swap
  · simp [CreateMergeSOP, MergeSession.CreateNode, hCreate] at hRet
  have hNewValid : ({ s with
      valid := s.freshId :: s.valid
      inputs := fun n => if n = s.freshId then [] else s.inputs n } :
        MergeSession).IsHoudiniNodeValid s.freshId = true := by
    simp [MergeSession.IsHoudiniNodeValid]
  cases hConn : connectInputs s.freshId InNodeIdsToConnect 0
      { s with
        valid := s.freshId :: s.valid
        inputs := fun n => if n = s.freshId then [] else s.inputs n }
      [⟨.CreateNode (-1) "SOP/merge" InMergeNodeName, true⟩] with
  | mk ok r =>
  obtain ⟨s2, tr2⟩ := r
  cases ok with
  | false =>
    simp [CreateMergeSOP, MergeSession.CreateNode, hCreate, hNewValid, SetMergeSOPInputs,
      isSuccess_success, hConn] at hRet
  | true =>
  obtain ⟨hIn, hVal, hDelAns, more, hTr, hMore⟩ := connectInputs_spec s.freshId
    InNodeIdsToConnect 0
    { s with
      valid := s.freshId :: s.valid
      inputs := fun n => if n = s.freshId then [] else s.inputs n }
    [⟨.CreateNode (-1) "SOP/merge" InMergeNodeName, true⟩]
    (by simp) (by rw [hConn])
  rw [hConn] at hIn hVal hDelAns hTr
  simp only [if_true, List.nil_append] at hIn hVal hDelAns hTr
  have hne : InOutMergeNodeId ≠ s.freshId := by
    intro heq
    rw [heq] at hOldValid
    exact hfresh hOldValid
  have hOldValid2 : s2.IsHoudiniNodeValid InOutMergeNodeId = true := by
    simp [MergeSession.IsHoudiniNodeValid, hVal, hOldValid]
  by_cases hDel : (s2.deleteAnswer InOutMergeNodeId).isSuccess = true
  swap
  · simp [CreateMergeSOP, MergeSession.CreateNode, hCreate, hNewValid, SetMergeSOPInputs,
      isSuccess_success, hConn, hOld, hOldValid2, MergeSession.DeleteNode, hDel] at hRet
  have hEq : CreateMergeSOP s InOutMergeNodeId InNodeIdsToConnect InMergeNodeName
      = ⟨true, s.freshId,
          { s2 with valid := s2.valid.filter (fun n => n ≠ InOutMergeNodeId) },
          tr2 ++ [⟨.DeleteNode InOutMergeNodeId, true⟩]⟩ := by
    simp [CreateMergeSOP, MergeSession.CreateNode, hCreate, hNewValid, SetMergeSOPInputs,
      isSuccess_success, hConn, hOld, hOldValid2, MergeSession.DeleteNode, hDel]
  rw [hEq]
  refine ⟨hIn, rfl, by simp [MergeSession.IsHoudiniNodeValid, hfresh], ?_, ?_, ?_, ?_⟩
  · simp [MergeSession.IsHoudiniNodeValid, hVal, hne.symm]
  · simp [MergeSession.IsHoudiniNodeValid]
  · exact ⟨more ++ [⟨.DeleteNode InOutMergeNodeId, true⟩], by simp [hTr], by simp⟩
  · intro pre post n ok heq
    simp only at heq
    have hnot : (⟨.DeleteNode n, ok⟩ : Event) ∉ tr2 := by
      rw [hTr]
      intro hmem
      rcases List.mem_cons.1 hmem with hmem | hmem
      · simp at hmem
      · have := hMore _ hmem
        simp [Call.isDeleteNode] at this
    obtain ⟨hpre, hev⟩ := eq_of_append_singleton heq hnot
    simp only [Event.mk.injEq, Call.DeleteNode.injEq] at hev
    refine ⟨hev.1, hev.2, ?_⟩
    rw [hpre, hTr]
    simp

theorem merge_replacement_witness :
    (CreateMergeSOP sampleSession 3 [8, 7] "merge").ret = true ∧
    sampleSession.inputs 3 = [7, 8, 7] ∧
    (CreateMergeSOP sampleSession 3 [8, 7] "merge").InOutMergeNodeId = 9 ∧
    (CreateMergeSOP sampleSession 3 [8, 7] "merge").session.inputs 9 = [8, 7] ∧
    (CreateMergeSOP sampleSession 3 [8, 7] "merge").session.IsHoudiniNodeValid 3 = false ∧
    (CreateMergeSOP sampleSession 3 [8, 7] "merge").trace
      = [⟨.CreateNode (-1) "SOP/merge" "merge", true⟩, ⟨.ConnectNodeInput 9 0 8 0, true⟩,
         ⟨.ConnectNodeInput 9 1 7 0, true⟩, ⟨.DeleteNode 3, true⟩] :=
  ⟨by decide, by decide, by decide,
   (by decide : (CreateMergeSOP sampleSession 3 [8, 7] "merge").InOutMergeNodeId = 9) ▸
     (merge_replacement sampleSession 3 [8, 7] "merge" (by decide) (by decide) (by decide)).1,
   (merge_replacement sampleSession 3 [8, 7] "merge" (by decide) (by decide)
     (by decide)).2.2.2.2.1,
   by decide⟩

/-! ## C27: the node id of the caller -/

/-- C27. Caller's node id is ignored: two calls of CreateInputNodeForBrush that pass the
validity checks of lines 67-74 and differ only in the value of InputNodeId on entry have
the same outcome: the same calls with the same answers, the same returned value, the same
final InputNodeId and the same final OutHandle. -/
theorem caller_node_id_ignored (w : World) (InputBrushObject : UHoudiniInputBrush)
    (BrushActor : ABrush) (ExcludeActors : Option (List Nat))
    (InputNodeId InputNodeId' : HAPI_NodeId)
    (NodeName : String) (bExport : Bool) (OutHandle : FUnrealObjectInputHandle)
    (bDel : Bool)
    (hActor : BrushActor.IsValid = true) (hBrush : BrushActor.BrushIsValid = true)
    (hIgnore : InputBrushObject.ShouldIgnoreThisInput = false) :
    CreateInputNodeForBrush w InputBrushObject BrushActor ExcludeActors InputNodeId NodeName
      bExport OutHandle bDel
    = CreateInputNodeForBrush w InputBrushObject BrushActor ExcludeActors InputNodeId' NodeName
      bExport OutHandle bDel := by
  unfold CreateInputNodeForBrush
  simp only [hActor, hBrush, hIgnore, Bool.not_true, Bool.false_eq_true, if_false]
  cases (if (w.NodeExistsAndIsNotDirty (identifierOf BrushActor)).1 = true then
      w.GetHAPINodeId (w.NodeExistsAndIsNotDirty (identifierOf BrushActor)).2 else none) with
  | some NodeId => cases bDel <;> simp [Frame.exit, Frame.log]
  | none => simp [Frame.log]

theorem caller_node_id_ignored_witness :
    CreateInputNodeForBrush (staleWorld sampleModel) sampleInput sampleBrush none 42 "brush"
      false none true
    = CreateInputNodeForBrush (staleWorld sampleModel) sampleInput sampleBrush none 7 "brush"
      false none true ∧
    (CreateInputNodeForBrush (staleWorld sampleModel) sampleInput sampleBrush none 7 "brush"
      false none true).InputNodeId = 5 :=
  ⟨caller_node_id_ignored (staleWorld sampleModel) sampleInput sampleBrush none 42 7 "brush"
    false none true rfl rfl rfl, by decide⟩

/-! ## C28: the handle of a successful call -/

theorem checkAll_of_ret {f : Frame} {steps : List (Call × Bool)} {k : Frame → Outcome}
    (h : (checkAll f steps k).ret = some true) :
    checkAll f steps k = k { f with trace := f.trace ++ issued steps } := by
  unfold checkAll at h ⊢
  by_cases hall : steps.all (fun s => s.2) = true
  · simp only [hall, if_true]
  · simp [hall, Frame.exit] at h

theorem endsRegistered_uploadVertexData {w : World} {Identifier : FUnrealObjectInputIdentifier}
    {bExport bDel : Bool} {InputObjectNodeId : HAPI_NodeId} {NumNodes : Nat} {NumIndices : Int}
    {FaceCountBuffer : List Int} {b : VertexBuffers} {f : Frame}
    (h : (uploadVertexData w Identifier bExport bDel InputObjectNodeId NumNodes NumIndices
      FaceCountBuffer b f).ret = some true) :
    EndsRegistered w Identifier bDel InputObjectNodeId f.InputNodeId f.OutHandle
      (uploadVertexData w Identifier bExport bDel InputObjectNodeId NumNodes NumIndices
        FaceCountBuffer b f) := by
  unfold uploadVertexData at h ⊢
  rw [checkAll_of_ret h]
  by_cases hadd : (w.AddNodeOrUpdateNode Identifier f.InputNodeId InputObjectNodeId bDel).1
      = true
  · simp [EndsRegistered, Frame.exit, Frame.log, hadd]
  · simp [EndsRegistered, Frame.exit, Frame.log, hadd]

theorem endsRegistered_uploadGeometry {w : World} {ActorTransform : FTransform}
    {BrushModel : UModel} {Identifier : FUnrealObjectInputIdentifier} {bExport bDel : Bool}
    {InputObjectNodeId : HAPI_NodeId} {NumIndices : Int} {FaceCountBuffer : List Int}
    {f : Frame}
    (h : (uploadGeometry w ActorTransform BrushModel Identifier bExport bDel InputObjectNodeId
      NumIndices FaceCountBuffer f).ret = some true) :
    EndsRegistered w Identifier bDel InputObjectNodeId f.InputNodeId f.OutHandle
      (uploadGeometry w ActorTransform BrushModel Identifier bExport bDel InputObjectNodeId
        NumIndices FaceCountBuffer f) := by
  unfold uploadGeometry at h ⊢
  have hk1 := checkAll_of_ret h
  rw [hk1] at h ⊢
  cases hpos : positionLoop w ActorTransform BrushModel.Points 0
      (List.replicate BrushModel.Points.length ⟨0, 0, 0⟩) with
  | none => simp [hpos, Frame.exit] at h
  | some OutPosition =>
    simp only [hpos] at h ⊢
    have hk2 := checkAll_of_ret h
    rw [hk2] at h ⊢
    cases hb : buildVertexBuffers w ActorTransform BrushModel NumIndices with
    | none => simp [hb, Frame.exit] at h
    | some b =>
      simp only [hb] at h ⊢
      exact endsRegistered_uploadVertexData h

theorem endsRegistered_uploadBrush {w : World} {InputBrushObject : UHoudiniInputBrush}
    {BrushActor : ABrush} {Identifier : FUnrealObjectInputIdentifier} {bExport bDel : Bool}
    {InputObjectNodeId : HAPI_NodeId} {f : Frame}
    (h : (uploadBrush w InputBrushObject BrushActor Identifier bExport bDel InputObjectNodeId
      f).ret = some true) :
    ((brushModelOf w InputBrushObject).Points.length = 0 ∧
      (uploadBrush w InputBrushObject BrushActor Identifier bExport bDel InputObjectNodeId
        f).InputNodeId = -1) ∨
    EndsRegistered w Identifier bDel InputObjectNodeId f.InputNodeId f.OutHandle
      (uploadBrush w InputBrushObject BrushActor Identifier bExport bDel InputObjectNodeId
        f) := by
  unfold uploadBrush at h ⊢
  unfold brushModelOf
  by_cases hEmpty :
    (w.BuildModelFromBrushes (w.FindIntersectingSubtractiveBrushes InputBrushObject)).Points.length
      = 0
  · left
    simp [hEmpty, Frame.exit, Frame.log]
  · right
    simp only [hEmpty, if_false] at h ⊢
    cases hfc : faceCountLoop
      (w.BuildModelFromBrushes (w.FindIntersectingSubtractiveBrushes InputBrushObject)).Nodes 0
      (0, SetNumUninitialized w.UninitInt
        (w.BuildModelFromBrushes
          (w.FindIntersectingSubtractiveBrushes InputBrushObject)).Nodes.length) with
    | none => simp [hfc, Frame.exit] at h
    | some r =>
      obtain ⟨NumIndices, FaceCountBuffer⟩ := r
      simp only [hfc] at h ⊢
      have hk3 := checkAll_of_ret h
      rw [hk3] at h ⊢
      exact endsRegistered_uploadGeometry h

theorem endsRegistered_createOrUpdateNode {w : World} {InputBrushObject : UHoudiniInputBrush}
    {BrushActor : ABrush} {Identifier : FUnrealObjectInputIdentifier}
    {FinalInputNodeName : String} {ParentNodeId : HAPI_NodeId} {bExport bDel : Bool}
    {f : Frame}
    (h : (createOrUpdateNode w InputBrushObject BrushActor Identifier FinalInputNodeName
      ParentNodeId bExport bDel f).ret = some true) :
    ((brushModelOf w InputBrushObject).Points.length = 0 ∧
      (createOrUpdateNode w InputBrushObject BrushActor Identifier FinalInputNodeName
        ParentNodeId bExport bDel f).InputNodeId = -1) ∨
    ∃ n, EndsRegistered w Identifier bDel (w.HapiGetParentNodeId n) n f.OutHandle
      (createOrUpdateNode w InputBrushObject BrushActor Identifier FinalInputNodeName
        ParentNodeId bExport bDel f) := by
  unfold createOrUpdateNode at h ⊢
  by_cases hValid : w.IsHoudiniNodeValid f.InputNodeId = true
  · simp only [hValid, if_true] at h ⊢
    rcases endsRegistered_uploadBrush h with h' | h'
    · exact Or.inl h'
    · exact Or.inr ⟨_, h'⟩
  · simp only [hValid, Bool.false_eq_true, if_false] at h ⊢
    have hk4 := checkAll_of_ret h
    rw [hk4] at h ⊢
    by_cases hNew : w.IsHoudiniNodeValid (w.CreateInputNode FinalInputNodeName ParentNodeId).2
        = true
    · simp only [hNew, Bool.not_true, Bool.false_eq_true, if_false] at h ⊢
      have hk5 := checkAll_of_ret h
      rw [hk5] at h ⊢
      rcases endsRegistered_uploadBrush h with h' | h'
      · exact Or.inl h'
      · exact Or.inr ⟨_, h'⟩
    · simp [hNew, Frame.exit] at h

/-- C28, as the code has it. Handle on success: whenever CreateInputNodeForBrush returns
true with InputNodeId >= 0, either the call reused a node, and OutHandle is the handle of
the lookup, whose node id is InputNodeId; or the last call of the run is AddNodeOrUpdateNode
for the brush's identifier and InputNodeId, and OutHandle is the handle that call gave when
it succeeded and still holds the value it had on entry when it reported a failure. -/
theorem handle_on_success (w : World) (InputBrushObject : UHoudiniInputBrush)
    (BrushActor : ABrush) (ExcludeActors : Option (List Nat)) (InputNodeId : HAPI_NodeId)
    (NodeName : String) (bExport : Bool) (OutHandle : FUnrealObjectInputHandle)
    (bDel : Bool)
    (hRet : (CreateInputNodeForBrush w InputBrushObject BrushActor ExcludeActors InputNodeId
      NodeName bExport OutHandle bDel).ret = some true)
    (hId : 0 ≤ (CreateInputNodeForBrush w InputBrushObject BrushActor ExcludeActors InputNodeId
      NodeName bExport OutHandle bDel).InputNodeId) :
    ((w.NodeExistsAndIsNotDirty (identifierOf BrushActor)).1 = true ∧
      w.GetHAPINodeId (w.NodeExistsAndIsNotDirty (identifierOf BrushActor)).2
        = some (CreateInputNodeForBrush w InputBrushObject BrushActor ExcludeActors InputNodeId
          NodeName bExport OutHandle bDel).InputNodeId ∧
      (CreateInputNodeForBrush w InputBrushObject BrushActor ExcludeActors InputNodeId NodeName
        bExport OutHandle bDel).OutHandle
        = (w.NodeExistsAndIsNotDirty (identifierOf BrushActor)).2) ∨
    EndsRegistered w (identifierOf BrushActor) bDel
      (w.HapiGetParentNodeId (CreateInputNodeForBrush w InputBrushObject BrushActor
        ExcludeActors InputNodeId NodeName bExport OutHandle bDel).InputNodeId)
      (CreateInputNodeForBrush w InputBrushObject BrushActor ExcludeActors InputNodeId NodeName
        bExport OutHandle bDel).InputNodeId
      OutHandle
      (CreateInputNodeForBrush w InputBrushObject BrushActor ExcludeActors InputNodeId NodeName
        bExport OutHandle bDel) := by
  by_cases hActor : BrushActor.IsValid = true
  swap
  · simp [CreateInputNodeForBrush, hActor, Frame.exit] at hRet
  by_cases hBrush : BrushActor.BrushIsValid = true
  swap
  · simp [CreateInputNodeForBrush, hBrush, Frame.exit] at hRet
  by_cases hIgnore : InputBrushObject.ShouldIgnoreThisInput = false
  swap
  · simp [CreateInputNodeForBrush, hIgnore, Frame.exit] at hRet
  by_cases hReuse : (w.NodeExistsAndIsNotDirty (identifierOf BrushActor)).1 = true →
      w.GetHAPINodeId (w.NodeExistsAndIsNotDirty (identifierOf BrushActor)).2 = none
  · right
    have hlookup : (if (w.NodeExistsAndIsNotDirty (identifierOf BrushActor)).1 = true then
        w.GetHAPINodeId (w.NodeExistsAndIsNotDirty (identifierOf BrushActor)).2 else none)
        = none := by
      split
      · exact hReuse (by assumption)
      · rfl
    unfold CreateInputNodeForBrush at hRet hId ⊢
    simp only [hActor, hBrush, hIgnore, hlookup, Bool.not_true, Bool.false_eq_true,
      if_false] at hRet hId ⊢
    rcases endsRegistered_createOrUpdateNode hRet with ⟨_, hEmpty⟩ | ⟨n, hReg⟩
    · rw [hEmpty] at hId
      simp at hId
    · have hId' := hReg.1
      rw [hId']
      exact hReg
  · left
    simp only [Classical.not_imp] at hReuse
    obtain ⟨hExists, hNode⟩ := hReuse
    obtain ⟨NodeId, hNode⟩ := Option.ne_none_iff_exists'.1 hNode
    cases bDel <;>
      simp [CreateInputNodeForBrush, hActor, hBrush, hIgnore, hExists, hNode, Frame.exit,
        Frame.log]

theorem handle_on_success_witness :
    (CreateInputNodeForBrush (okWorld sampleModel) sampleInput sampleBrush none 42 "brush"
      false (some 77) true).ret = some true ∧
    (CreateInputNodeForBrush (okWorld sampleModel) sampleInput sampleBrush none 42 "brush"
      false (some 77) true).InputNodeId = 5 ∧
    (CreateInputNodeForBrush (okWorld sampleModel) sampleInput sampleBrush none 42 "brush"
      false (some 77) true).OutHandle = some 7 ∧
    ((((okWorld sampleModel).NodeExistsAndIsNotDirty (identifierOf sampleBrush)).1 = true ∧
      (okWorld sampleModel).GetHAPINodeId
        ((okWorld sampleModel).NodeExistsAndIsNotDirty (identifierOf sampleBrush)).2
        = some (CreateInputNodeForBrush (okWorld sampleModel) sampleInput sampleBrush none 42
          "brush" false (some 77) true).InputNodeId ∧
      (CreateInputNodeForBrush (okWorld sampleModel) sampleInput sampleBrush none 42 "brush"
        false (some 77) true).OutHandle
        = ((okWorld sampleModel).NodeExistsAndIsNotDirty (identifierOf sampleBrush)).2) ∨
    EndsRegistered (okWorld sampleModel) (identifierOf sampleBrush) true
      ((okWorld sampleModel).HapiGetParentNodeId (CreateInputNodeForBrush
        (okWorld sampleModel) sampleInput sampleBrush none 42 "brush" false (some 77)
        true).InputNodeId)
      (CreateInputNodeForBrush (okWorld sampleModel) sampleInput sampleBrush none 42 "brush"
        false (some 77) true).InputNodeId
      (some 77)
      (CreateInputNodeForBrush (okWorld sampleModel) sampleInput sampleBrush none 42 "brush"
        false (some 77) true)) :=
  ⟨by decide, by decide, by decide,
   handle_on_success (okWorld sampleModel) sampleInput sampleBrush none 42 "brush" false
    (some 77) true (by decide) (by decide)⟩

/-- C28 as stated fails when the registry refuses the registration: the call uploads and
commits the geometry to node 5, AddNodeOrUpdateNode reports a failure, and the call
returns true with InputNodeId = 5 while OutHandle still holds the value it had on entry,
which no call of the run gave out. -/
theorem unregistered_call_returns_true :
    (CreateInputNodeForBrush (registrationFailsWorld sampleModel) sampleInput sampleBrush none
      42 "brush" false (some 77) true).ret = some true ∧
    (CreateInputNodeForBrush (registrationFailsWorld sampleModel) sampleInput sampleBrush none
      42 "brush" false (some 77) true).InputNodeId = 5 ∧
    (CreateInputNodeForBrush (registrationFailsWorld sampleModel) sampleInput sampleBrush none
      42 "brush" false (some 77) true).OutHandle = some 77 ∧
    (CreateInputNodeForBrush (registrationFailsWorld sampleModel) sampleInput sampleBrush none
      42 "brush" false (some 77) true).trace.getLast?
      = some ⟨.AddNodeOrUpdateNode (identifierOf sampleBrush) 5 105 true, false⟩ ∧
    (∀ e ∈ (CreateInputNodeForBrush (registrationFailsWorld sampleModel) sampleInput
        sampleBrush none 42 "brush" false (some 77) true).trace,
      e.call.isAddNodeOrUpdateNode = true → e.ok = false) ∧
    ((registrationFailsWorld sampleModel).NodeExistsAndIsNotDirty
      (identifierOf sampleBrush)).1 = false := by
  decide

/-! ## C21: update in place -/

theorem rebuildScript_valid (w : World) (InputBrushObject : UHoudiniInputBrush)
    (BrushActor : ABrush) (NodeName : String) (bExport bDel : Bool)
    (hValid : w.IsHoudiniNodeValid (registeredNodeId w BrushActor) = true) :
    rebuildScript w InputBrushObject BrushActor NodeName bExport bDel
    = brushScript w InputBrushObject BrushActor (identifierOf BrushActor) bExport bDel
        (w.HapiGetParentNodeId (registeredNodeId w BrushActor))
        (registeredNodeId w BrushActor) := by
  simp only [rebuildScript, nodeScript, hValid, if_true]

theorem createsNode_brushScript {w : World} {InputBrushObject : UHoudiniInputBrush}
    {BrushActor : ABrush} {Identifier : FUnrealObjectInputIdentifier} {bExport bDel : Bool}
    {InputObjectNodeId InputNodeId : HAPI_NodeId} {e : Event}
    (h : e ∈ (brushScript w InputBrushObject BrushActor Identifier bExport bDel
      InputObjectNodeId InputNodeId).trace) :
    e.call.createsNode = false := by
  rcases mem_brushScript_trace h with ⟨_, he⟩ | ⟨_, NumIndices, FaceCountBuffer, _, he⟩
  · subst he; rfl
  · rcases he with ⟨c, hc, he⟩ | he
    · unfold transformSteps at hc
      split at hc
      · simp only [List.mem_singleton] at hc
        subst hc; subst he; rfl
      · simp at hc
    · rcases mem_geometryScript_trace he with ⟨c, hc, he⟩ | ⟨pos, _, c, hc, he⟩ |
        ⟨b, _, ⟨c, hc, he⟩ | he⟩
      · simp only [partSteps, List.mem_cons, List.mem_singleton, List.not_mem_nil,
          or_false] at hc
        rcases hc with hc | hc <;> subst hc <;> subst he <;> rfl
      · simp only [positionSteps, List.mem_singleton] at hc
        subst hc; subst he; rfl
      · simp only [vertexDataSteps, List.mem_cons, List.mem_singleton, List.not_mem_nil,
          or_false] at hc
        rcases hc with hc | hc | hc | hc | hc | hc | hc | hc <;> subst hc <;> subst he <;> rfl
      · subst he; rfl

/-- C21. Update in place: for every call of CreateInputNodeForBrush in which the registry
entry for the identifier is dirty but its node id is still a valid node, no input node and
no clean node is created; every upload and the registration go to the existing node id;
for a model with points InputNodeId is that id on return, and when the call returns true
the geometry was committed to that id and the last call registers that id for the
identifier. -/
theorem update_in_place (w : World) (InputBrushObject : UHoudiniInputBrush)
    (BrushActor : ABrush) (ExcludeActors : Option (List Nat)) (InputNodeId : HAPI_NodeId)
    (NodeName : String) (bExport : Bool) (OutHandle : FUnrealObjectInputHandle)
    (bDel : Bool)
    (hUpdate : UpdatesInPlace w InputBrushObject BrushActor) :
    (∀ e ∈ (CreateInputNodeForBrush w InputBrushObject BrushActor ExcludeActors InputNodeId
        NodeName bExport OutHandle bDel).trace,
      e.call.createsNode = false ∧
      ∀ n, e.call.uploadTarget = some n → n = registeredNodeId w BrushActor) ∧
    ((brushModelOf w InputBrushObject).Points.length ≠ 0 →
      (CreateInputNodeForBrush w InputBrushObject BrushActor ExcludeActors InputNodeId NodeName
        bExport OutHandle bDel).InputNodeId = registeredNodeId w BrushActor ∧
      ((CreateInputNodeForBrush w InputBrushObject BrushActor ExcludeActors InputNodeId NodeName
          bExport OutHandle bDel).ret = some true →
        ⟨.HapiCommitGeo (registeredNodeId w BrushActor), true⟩
          ∈ (CreateInputNodeForBrush w InputBrushObject BrushActor ExcludeActors InputNodeId
            NodeName bExport OutHandle bDel).trace ∧
        ∃ ok, (CreateInputNodeForBrush w InputBrushObject BrushActor ExcludeActors InputNodeId
            NodeName bExport OutHandle bDel).trace.getLast?
          = some ⟨.AddNodeOrUpdateNode (identifierOf BrushActor) (registeredNodeId w BrushActor)
              (w.HapiGetParentNodeId (registeredNodeId w BrushActor)) bDel, ok⟩)) := by
  obtain ⟨hActor, hBrush, hIgnore, hReuse, hValid⟩ := hUpdate
  obtain ⟨htrace, hret⟩ := rebuild_closed_form w InputBrushObject BrushActor ExcludeActors
    InputNodeId NodeName bExport OutHandle bDel hActor hBrush hIgnore hReuse
  rw [rebuildScript_valid w InputBrushObject BrushActor NodeName bExport bDel hValid]
    at htrace hret
  have hReach : ReachesModelBuilding w InputBrushObject BrushActor NodeName bDel :=
    ⟨hActor, hBrush, hIgnore, hReuse, Or.inl hValid⟩
  have hTarget : targetNodeId w BrushActor NodeName bDel = registeredNodeId w BrushActor := by
    simp [targetNodeId, hValid]
  have hEq := reaches_eq_uploadBrush w InputBrushObject BrushActor ExcludeActors InputNodeId
    NodeName bExport OutHandle bDel hReach
  rw [hTarget] at hEq
  refine ⟨?_, ?_⟩
  · intro e he
    rw [htrace] at he
    rcases List.mem_cons.1 he with he | he
    · subst he
      exact ⟨rfl, fun n hn => by simp [Call.uploadTarget] at hn⟩
    · exact ⟨createsNode_brushScript he, fun n hn => uploadTarget_brushScript he hn⟩
  · intro hne
    refine ⟨?_, ?_⟩
    · rw [hEq, inputNodeId_uploadBrush]
      simp [hne]
    · intro hTrue
      refine ⟨?_, ?_⟩
      · rw [htrace]
        apply List.mem_cons_of_mem
        rw [hret] at hTrue
        exact commit_of_ret_brushScript hne hTrue
      · rw [hEq] at hTrue ⊢
        rcases endsRegistered_uploadBrush hTrue with ⟨hEmpty, _⟩ | ⟨_, hLast, _⟩
        · exact absurd hEmpty hne
        · exact ⟨_, hLast⟩

theorem update_in_place_witness :
    UpdatesInPlace (dirtyWorld sampleModel) sampleInput sampleBrush ∧
    registeredNodeId (dirtyWorld sampleModel) sampleBrush = 33 ∧
    (CreateInputNodeForBrush (dirtyWorld sampleModel) sampleInput sampleBrush none 42 "brush"
      false none true).InputNodeId = registeredNodeId (dirtyWorld sampleModel) sampleBrush ∧
    (⟨.HapiCommitGeo (registeredNodeId (dirtyWorld sampleModel) sampleBrush), true⟩ : Event)
      ∈ (CreateInputNodeForBrush (dirtyWorld sampleModel) sampleInput sampleBrush none 42
        "brush" false none true).trace :=
  ⟨by decide, by decide,
   ((update_in_place (dirtyWorld sampleModel) sampleInput sampleBrush none 42 "brush" false
      none true (by decide)).2 (by decide)).1,
   (((update_in_place (dirtyWorld sampleModel) sampleInput sampleBrush none 42 "brush" false
      none true (by decide)).2 (by decide)).2 (by decide)).1⟩

/-! ## C26: when the transform is uploaded -/

theorem mem_after_trace_all {pre : List (Call × Bool)} {s : Script} {e : Event}
    (h : e ∈ (Script.after pre s).trace) :
    (∃ c ∈ pre, e = ⟨c.1, c.2⟩) ∨ (pre.all (fun c => c.2) = true ∧ e ∈ s.trace) := by
  rw [trace_after, List.mem_append] at h
  rcases h with h | h
  · exact Or.inl (mem_issued h)
  · by_cases hall : pre.all (fun c => c.2) = true
    · simp only [hall, if_true] at h
      exact Or.inr ⟨hall, h⟩
    · simp [hall] at h

theorem transformCalls_append (a b : List Event) :
    transformCalls (a ++ b) = transformCalls a ++ transformCalls b := by
  simp [transformCalls]

theorem transformCalls_eq_nil {tr : List Event}
    (h : ∀ e ∈ tr, e.call.isSetObjectTransform = false) : transformCalls tr = [] := by
  simp only [transformCalls, List.filter_eq_nil_iff]
  intro e he
  simp [h e he]

theorem transformCalls_geometryScript (w : World) (ActorTransform : FTransform)
    (BrushModel : UModel) (Identifier : FUnrealObjectInputIdentifier) (bExport bDel : Bool)
    (InputObjectNodeId InputNodeId : HAPI_NodeId) (NumIndices : Int)
    (FaceCountBuffer : List Int) :
    transformCalls (geometryScript w ActorTransform BrushModel Identifier bExport bDel
      InputObjectNodeId InputNodeId NumIndices FaceCountBuffer).trace = [] := by
  apply transformCalls_eq_nil
  intro e he
  have := uploadTarget_geometryScript he
  cases hc : e.call <;> simp [hc, Call.uploadTarget, Call.isSetObjectTransform] at this ⊢

/-- A run that issues a geometry call has reached model building. -/
theorem reaches_of_geometry {w : World} {InputBrushObject : UHoudiniInputBrush}
    {BrushActor : ABrush} {ExcludeActors : Option (List Nat)} {InputNodeId : HAPI_NodeId}
    {NodeName : String} {bExport : Bool} {OutHandle : FUnrealObjectInputHandle}
    {bDel : Bool} {e : Event}
    (he : e ∈ (CreateInputNodeForBrush w InputBrushObject BrushActor ExcludeActors InputNodeId
      NodeName bExport OutHandle bDel).trace)
    (hg : e.call.isGeometryCall = true) :
    ReachesModelBuilding w InputBrushObject BrushActor NodeName bDel := by
  by_cases hActor : BrushActor.IsValid = true
  swap
  · simp [CreateInputNodeForBrush, hActor, Frame.exit] at he
  by_cases hBrush : BrushActor.BrushIsValid = true
  swap
  · simp [CreateInputNodeForBrush, hBrush, Frame.exit] at he
  by_cases hIgnore : InputBrushObject.ShouldIgnoreThisInput = false
  swap
  · simp [CreateInputNodeForBrush, hIgnore, Frame.exit] at he
  by_cases hReuse : (w.NodeExistsAndIsNotDirty (identifierOf BrushActor)).1 = true →
      w.GetHAPINodeId (w.NodeExistsAndIsNotDirty (identifierOf BrushActor)).2 = none
  swap
  · simp only [Classical.not_imp] at hReuse
    obtain ⟨hExists, hNode⟩ := hReuse
    obtain ⟨NodeId, hNode⟩ := Option.ne_none_iff_exists'.1 hNode
    cases bDel
    · simp only [CreateInputNodeForBrush, hActor, hBrush, hIgnore, hExists, hNode, Frame.exit,
        Frame.log, Bool.not_true, Bool.not_false, Bool.false_eq_true, if_false, if_true,
        List.nil_append, List.mem_singleton] at he
      subst he
      simp [Call.isGeometryCall] at hg
    · simp [CreateInputNodeForBrush, hActor, hBrush, hIgnore, hExists, hNode, Frame.exit,
        Frame.log] at he
  refine ⟨hActor, hBrush, hIgnore, hReuse, ?_⟩
  by_cases hValid : w.IsHoudiniNodeValid (registeredNodeId w BrushActor) = true
  · exact Or.inl hValid
  · right
    have hStale : w.IsHoudiniNodeValid (registeredNodeId w BrushActor) = false := by
      simpa using hValid
    rw [(rebuild_closed_form w InputBrushObject BrushActor ExcludeActors InputNodeId NodeName
      bExport OutHandle bDel hActor hBrush hIgnore hReuse).1,
      rebuildScript_stale w InputBrushObject BrushActor NodeName bExport bDel hStale] at he
    rcases List.mem_cons.1 he with he | he
    · subst he; simp [Call.isGeometryCall] at hg
    · rcases mem_after_trace_all he with ⟨c, hc, he⟩ | ⟨hOk, he⟩
      · simp only [List.mem_singleton] at hc
        subst hc; subst he
        simp [Call.isGeometryCall] at hg
      · simp only [List.all_cons, List.all_nil, Bool.and_true] at hOk
        by_cases hNew : w.IsHoudiniNodeValid (createdNode w BrushActor NodeName bDel).2 = true
        · simp only [hNew, Bool.not_true, Bool.false_eq_true, if_false] at he
          rcases mem_after_trace_all he with ⟨c, hc, he⟩ | ⟨hClean, _⟩
          · simp only [cleanNodeSteps, List.mem_cons, List.mem_singleton, List.not_mem_nil,
              or_false] at hc
            rcases hc with hc | hc | hc <;> subst hc <;> subst he <;>
              simp [Call.isGeometryCall] at hg
          · refine ⟨hOk, hNew, ?_⟩
            simpa [cleanNodeSteps] using hClean
        · simp [hNew, Script.trace, issued] at he

theorem transformCalls_setupTrace (w : World) (BrushActor : ABrush) (NodeName : String)
    (bDel : Bool) : transformCalls (setupTrace w BrushActor NodeName bDel) = [] := by
  apply transformCalls_eq_nil
  intro e he
  simp only [setupTrace, List.mem_cons] at he
  rcases he with he | he
  · subst he; rfl
  · split at he
    · simp at he
    · simp only [List.mem_cons, List.mem_singleton, List.not_mem_nil, or_false] at he
      rcases he with he | he | he | he <;> subst he <;> rfl

theorem not_geometry_setupTrace (w : World) (BrushActor : ABrush) (NodeName : String)
    (bDel : Bool) : ∀ e ∈ setupTrace w BrushActor NodeName bDel,
      e.call.isGeometryCall = false := by
  intro e he
  simp only [setupTrace, List.mem_cons] at he
  rcases he with he | he
  · subst he; rfl
  · split at he
    · simp at he
    · simp only [List.mem_cons, List.mem_singleton, List.not_mem_nil, or_false] at he
      rcases he with he | he | he | he <;> subst he <;> rfl

/-- C26. Transform upload condition: in every execution of CreateInputNodeForBrush that
issues a geometry call, the SetObjectTransform calls of the run are: none when the actor
transform equals identity, and otherwise exactly one, for the object node of the node the
geometry goes to, with the actor's transform, and it succeeded. -/
theorem transform_upload_condition (w : World) (InputBrushObject : UHoudiniInputBrush)
    (BrushActor : ABrush) (ExcludeActors : Option (List Nat)) (InputNodeId : HAPI_NodeId)
    (NodeName : String) (bExport : Bool) (OutHandle : FUnrealObjectInputHandle)
    (bDel : Bool) (e : Event)
    (he : e ∈ (CreateInputNodeForBrush w InputBrushObject BrushActor ExcludeActors InputNodeId
      NodeName bExport OutHandle bDel).trace)
    (hg : e.call.isGeometryCall = true) :
    transformCalls (CreateInputNodeForBrush w InputBrushObject BrushActor ExcludeActors
      InputNodeId NodeName bExport OutHandle bDel).trace
    = (if w.IsIdentity BrushActor.ActorTransform then []
       else [⟨.SetObjectTransform
                (w.HapiGetParentNodeId (targetNodeId w BrushActor NodeName bDel))
                BrushActor.ActorTransform, true⟩]) ∧
    e.call.uploadTarget = some (targetNodeId w BrushActor NodeName bDel) := by
  have hReach := reaches_of_geometry he hg
  have hEq := reaches_eq_uploadBrush w InputBrushObject BrushActor ExcludeActors InputNodeId
    NodeName bExport OutHandle bDel hReach
  have hRuns := runs_uploadBrush w InputBrushObject BrushActor (identifierOf BrushActor) bExport
    bDel (w.HapiGetParentNodeId (targetNodeId w BrushActor NodeName bDel))
    ⟨targetNodeId w BrushActor NodeName bDel, OutHandle, setupTrace w BrushActor NodeName bDel⟩
  rw [← hEq] at hRuns
  obtain ⟨htrace, _⟩ := hRuns
  simp only at htrace
  rw [htrace] at he ⊢
  rw [transformCalls_append, transformCalls_setupTrace, List.nil_append]
  rcases List.mem_append.1 he with he | he
  · rw [not_geometry_setupTrace w BrushActor NodeName bDel e he] at hg
    simp at hg
  · unfold brushScript at he ⊢
    by_cases hEmpty : (brushModelOf w InputBrushObject).Points.length = 0
    · simp only [hEmpty, if_true, Script.trace, issued, List.all_nil, List.nil_append,
        List.mem_singleton] at he
      subst he
      simp [Call.isGeometryCall] at hg
    · simp only [hEmpty, if_false] at he ⊢
      cases hfc : faceCountLoop (brushModelOf w InputBrushObject).Nodes 0
          (0, SetNumUninitialized w.UninitInt (brushModelOf w InputBrushObject).Nodes.length) with
      | none => rw [hfc] at he; exact absurd he (not_mem_stopped_trace e)
      | some r =>
        rw [hfc] at he
        simp only
        rcases mem_after_trace_all he with ⟨c, hc, he⟩ | ⟨hall, he⟩
        · unfold transformSteps at hc
          split at hc
          · simp only [List.mem_singleton] at hc
            subst hc; subst he
            simp [Call.isGeometryCall] at hg
          · simp at hc
        · refine ⟨?_, uploadTarget_geometryScript he⟩
          rw [trace_after, transformCalls_append, issued_of_all hall]
          simp only [hall, if_true, transformCalls_geometryScript, List.append_nil]
          unfold transformSteps
          by_cases hId : w.IsIdentity BrushActor.ActorTransform = true
          · simp [hId, transformCalls]
          · simp [hId, transformCalls, Call.isSetObjectTransform]

theorem transform_upload_condition_witness :
    (⟨.SetPartInfo 5 0 (makePart 9 [3, 3, 0, 3] 4), true⟩ : Event)
      ∈ (CreateInputNodeForBrush (mirrorWorld sampleModel) sampleInput mirroredBrush none 42
        "brush" false none true).trace ∧
    transformCalls (CreateInputNodeForBrush (mirrorWorld sampleModel) sampleInput mirroredBrush
      none 42 "brush" false none true).trace
      = [⟨.SetObjectTransform 105 1, true⟩] ∧
    transformCalls (CreateInputNodeForBrush (okWorld sampleModel) sampleInput sampleBrush
      none 42 "brush" false none true).trace = [] :=
  ⟨by decide,
   (transform_upload_condition (mirrorWorld sampleModel) sampleInput mirroredBrush none 42
      "brush" false none true ⟨.SetPartInfo 5 0 (makePart 9 [3, 3, 0, 3] 4), true⟩
      (by decide) rfl).1.trans (by decide),
   (transform_upload_condition (okWorld sampleModel) sampleInput sampleBrush none 42
      "brush" false none true ⟨.SetPartInfo 5 0 (makePart 9 [3, 3, 0, 3] 4), true⟩
      (by decide) rfl).1.trans (by decide)⟩

/-! ## The content of the vertex buffers -/

theorem take_set_succ {α : Type} (l : List α) :
    ∀ (i : Nat) (v : α), i < l.length → (l.set i v).take (i + 1) = l.take i ++ [v] := by
  induction l with
  | nil => intro i v h; simp at h
  | cons x xs ih =>
    intro i v h
    cases i with
    | zero => simp
    | succ j =>
      simp only [List.set_cons_succ, List.take_succ_cons, List.cons_append, List.cons.injEq,
        true_and]
      exact ih j v (by simpa using h)

/-- The vertices of one node: what the loop appends below the cursor of the three
buffers. -/
theorem nodeVertexLoop_content {w : World} {ActorTransform : FTransform} {BrushModel : UModel}
    {Node : FBspNode} {Surf : FBspSurf} (left : Nat) :
    ∀ (k : Nat) (b b' : VertexBuffers),
      nodeVertexLoop w ActorTransform BrushModel Node Surf left k b = some b' →
      (b'.Indices.take b'.iVertex).map some
        = (b.Indices.take b.iVertex).map some
          ++ (List.range' k left).map (fun (j : Nat) =>
              (readAt BrushModel.Verts (Node.iVertPool + j)).map (fun Vert => Vert.pVertex)) ∧
      (b'.OutNormals.take b'.iVertex).map some
        = (b.OutNormals.take b.iVertex).map some
          ++ List.replicate left (surfNormal w ActorTransform BrushModel Surf) ∧
      (b'.OutUV.take b'.iVertex).map some
        = (b.OutUV.take b.iVertex).map some
          ++ (List.range' k left).map (fun (j : Nat) =>
              (readAt BrushModel.Verts (Node.iVertPool + j)).bind
                (fun Vert => surfUV w BrushModel Surf Vert.pVertex)) := by
  induction left with
  | zero =>
    intro k b b' h
    simp only [nodeVertexLoop, Option.some.injEq] at h
    subst h
    simp
  | succ left ih =>
    intro k b b' h
    obtain ⟨Vert, N, vU, vV, Position, Base, hVert, hI, hN, hON, hvU, hvV, hPos, hBase, hUV,
      hrec⟩ := nodeVertexLoop_succ_inv h
    obtain ⟨h1, h2, h3⟩ := ih _ _ _ hrec
    simp only at h1 h2 h3
    rw [take_set_succ _ _ _ hI] at h1
    rw [take_set_succ _ _ _ hON] at h2
    rw [take_set_succ _ _ _ hUV] at h3
    refine ⟨?_, ?_, ?_⟩
    · rw [h1]
      simp [List.range'_succ, hVert]
    · rw [h2]
      simp [List.replicate_succ, surfNormal, hN]
    · rw [h3]
      simp [List.range'_succ, hVert, surfUV, hvU, hvV, hPos, hBase]

/-- The node loop: what it appends below the cursor of the three buffers. -/
theorem nodeLoop_content {w : World} {ActorTransform : FTransform} {BrushModel : UModel}
    (nodes : List FBspNode) :
    ∀ (k : Nat) (b b' : VertexBuffers),
      nodeLoop w ActorTransform BrushModel nodes k b = some b' →
      (b'.Indices.take b'.iVertex).map some
        = (b.Indices.take b.iVertex).map some ++ nodes.flatMap (nodePoolIndices BrushModel) ∧
      (b'.OutNormals.take b'.iVertex).map some
        = (b.OutNormals.take b.iVertex).map some
          ++ nodes.flatMap (nodeNormals w ActorTransform BrushModel) ∧
      (b'.OutUV.take b'.iVertex).map some
        = (b.OutUV.take b.iVertex).map some ++ nodes.flatMap (nodeUVs w BrushModel) := by
  induction nodes with
  | nil =>
    intro k b b' h
    simp only [nodeLoop, Option.some.injEq] at h
    subst h
    simp
  | cons Node rest ih =>
    intro k b b' h
    obtain ⟨Surf, b1, hSurf, hb1, _, hrec⟩ := nodeLoop_cons_inv h
    obtain ⟨h1, h2, h3⟩ := nodeVertexLoop_content _ _ _ _ hb1
    obtain ⟨g1, g2, g3⟩ := ih _ _ _ hrec
    simp only at g1 g2 g3
    refine ⟨?_, ?_, ?_⟩
    · rw [g1, h1]
      simp [nodePoolIndices, List.range_eq_range']
    · rw [g2, h2]
      simp [nodeNormals, hSurf]
    · rw [g3, h3]
      simp [nodeUVs, hSurf, List.range_eq_range']

/-- The three vertex buffers of a run that gets to the upload, with NumIndices as the
face count loop computed it: every element was written, and the buffers are the
flattened point indices, normals and UVs of the nodes. -/
theorem vertexBuffers_content {w : World} {ActorTransform : FTransform} {BrushModel : UModel}
    {NumIndices : Int} {FaceCountBuffer : List Int} {b : VertexBuffers}
    (hfc : faceCountLoop BrushModel.Nodes 0
      (0, SetNumUninitialized w.UninitInt BrushModel.Nodes.length)
      = some (NumIndices, FaceCountBuffer))
    (hb : buildVertexBuffers w ActorTransform BrushModel NumIndices = some b) :
    b.iVertex = b.Indices.length ∧
    b.Indices.map some = flattenedIndices BrushModel ∧
    b.OutNormals.map some = BrushModel.Nodes.flatMap (nodeNormals w ActorTransform BrushModel) ∧
    b.OutUV.map some = BrushModel.Nodes.flatMap (nodeUVs w BrushModel) := by
  obtain ⟨_, hsum⟩ := faceCountLoop_eq hfc
  obtain ⟨_, hI, hN, hU, _, hcur, _⟩ := buildVertexBuffers_spec hb
  simp only at hsum
  rw [sum_cast_numVertices] at hsum
  have hEndI : b.iVertex = b.Indices.length := by omega
  have hEndN : b.iVertex = b.OutNormals.length := by omega
  have hEndU : b.iVertex = b.OutUV.length := by omega
  unfold buildVertexBuffers at hb
  split at hb
  · simp at hb
  · obtain ⟨g1, g2, g3⟩ := nodeLoop_content _ _ _ _ hb
    simp only [List.take_zero, List.map_nil, List.nil_append] at g1 g2 g3
    refine ⟨hEndI, ?_, ?_, ?_⟩
    · unfold flattenedIndices
      rw [← g1, hEndI, List.take_length]
    · rw [← g2, hEndN, List.take_length]
    · rw [← g3, hEndU, List.take_length]

/-! ## C22: the index and face count buffers -/

/-- C22. Index and face-count buffers are a faithful flattening: in every run, the
uploaded face-count buffer is exactly the list of NumVertices of the BSP nodes in node
order, zero counts included, and the uploaded vertex-index buffer is exactly the
concatenation, in node order, of the point indices pVertex of the vertex-pool entries
iVertPool .. iVertPool + NumVertices - 1 of each node, in pool order. -/
theorem faithful_flattening (w : World) (InputBrushObject : UHoudiniInputBrush)
    (BrushActor : ABrush) (ExcludeActors : Option (List Nat)) (InputNodeId : HAPI_NodeId)
    (NodeName : String) (bExport : Bool) (OutHandle : FUnrealObjectInputHandle)
    (bDel : Bool) :
    (∀ (FaceCounts : List Int) (n : HAPI_NodeId) (p : Int) (ok : Bool),
      ⟨.HapiSetFaceCounts FaceCounts n p, ok⟩ ∈ (CreateInputNodeForBrush w InputBrushObject
        BrushActor ExcludeActors InputNodeId NodeName bExport OutHandle bDel).trace →
      FaceCounts = (brushModelOf w InputBrushObject).Nodes.map
        (fun Node => (Node.NumVertices : Int))) ∧
    (∀ (Indices : List Int) (n : HAPI_NodeId) (p : Int) (ok : Bool),
      ⟨.HapiSetVertexList Indices n p, ok⟩ ∈ (CreateInputNodeForBrush w InputBrushObject
        BrushActor ExcludeActors InputNodeId NodeName bExport OutHandle bDel).trace →
      Indices.map some = flattenedIndices (brushModelOf w InputBrushObject)) := by
  refine ⟨?_, ?_⟩
  · intro FaceCounts n p ok h
    obtain ⟨NumIndices, hfc⟩ := setFaceCounts_inv h
    exact (faceCountLoop_eq hfc).1
  · intro Indices n p ok h
    obtain ⟨NumIndices, FaceCountBuffer, b, hfc, hb, hI⟩ := setVertexList_inv h
    subst hI
    exact (vertexBuffers_content hfc hb).2.1

theorem faithful_flattening_witness :
    ([3, 3, 0, 3] : List Int)
      = (brushModelOf (okWorld sampleModel) sampleInput).Nodes.map
        (fun Node => (Node.NumVertices : Int)) ∧
    ([0, 1, 2, 0, 2, 3, 1, 2, 3] : List Int).map some
      = flattenedIndices (brushModelOf (okWorld sampleModel) sampleInput) ∧
    flattenedIndices sampleModel
      = [some 0, some 1, some 2, some 0, some 2, some 3, some 1, some 2, some 3] :=
  ⟨(faithful_flattening (okWorld sampleModel) sampleInput sampleBrush none 42 "brush" false
      none true).1 [3, 3, 0, 3] 5 0 true (by decide),
   (faithful_flattening (okWorld sampleModel) sampleInput sampleBrush none 42 "brush" false
      none true).2 [0, 1, 2, 0, 2, 3, 1, 2, 3] 5 0 true (by decide),
   by decide⟩

/-! ## C24, C25: normals and UVs -/

theorem setAttributeData_vertex_inv {w : World} {InputBrushObject : UHoudiniInputBrush}
    {BrushActor : ABrush} {ExcludeActors : Option (List Nat)} {InputNodeId : HAPI_NodeId}
    {NodeName : String} {bExport : Bool} {OutHandle : FUnrealObjectInputHandle}
    {bDel : Bool} {NodeId : HAPI_NodeId} {PartId : Int} {Name : String}
    {Info : HAPI_AttributeInfo} {Data : List FVector3f} {ok : Bool}
    (h : ⟨.SetAttributeData NodeId PartId Name Info Data, ok⟩ ∈ (CreateInputNodeForBrush w
      InputBrushObject BrushActor ExcludeActors InputNodeId NodeName bExport OutHandle
      bDel).trace)
    (hOwner : Info.owner = .HAPI_ATTROWNER_VERTEX) :
    ∃ NumIndices FaceCountBuffer b,
      faceCountLoop (brushModelOf w InputBrushObject).Nodes 0
        (0, SetNumUninitialized w.UninitInt (brushModelOf w InputBrushObject).Nodes.length)
        = some (NumIndices, FaceCountBuffer) ∧
      buildVertexBuffers w BrushActor.ActorTransform (brushModelOf w InputBrushObject)
        NumIndices = some b ∧
      ((Name = w.HAPI_UNREAL_ATTRIB_NORMAL ∧ Data = b.OutNormals) ∨
       (Name = w.HAPI_UNREAL_ATTRIB_UV ∧ Data = b.OutUV)) := by
  obtain ⟨T, NumIndices, FaceCountBuffer, hfc, hcases⟩ := geometry_call_cases h rfl
  rcases hcases with hc | hc | ⟨pos, hpos, hc⟩ | ⟨b, hb, hc⟩
  · simp at hc
  · simp at hc
  · simp only [Call.SetAttributeData.injEq] at hc
    obtain ⟨_, _, _, hInfo, _⟩ := hc
    rw [hInfo] at hOwner
    simp [AttributeInfoPointVector] at hOwner
  · refine ⟨NumIndices, FaceCountBuffer, b, hfc, hb, ?_⟩
    rcases hc with hc | hc | hc | hc | hc | hc | hc | hc <;>
      simp only [Call.SetAttributeData.injEq, reduceCtorEq] at hc
    · exact Or.inl ⟨hc.2.2.1, hc.2.2.2.2⟩
    · exact Or.inr ⟨hc.2.2.1, hc.2.2.2.2⟩

theorem mem_of_readAt {α : Type} {a : List α} {i : Int} {v : α} (h : readAt a i = some v) :
    v ∈ a := by
  unfold readAt at h
  split at h
  · exact List.getElem?_mem h
  · simp at h

/-- C24. Normals are per-face constant and axis-swapped: the vertex attribute data
uploaded under the normal's name are, node by node, the normal of the node's surface
repeated once per vertex of the node; that normal is the image of the surface normal under
the transpose adjoint of the inverse actor transform, safe-normalised, with its Y and Z
components swapped, neither negated nor divided by the position scale factor; so every
uploaded normal has the length that GetSafeNormal gave it, and it is the zero vector or
of length 1 to the accuracy of GetSafeNormal: for every bound, when the square of the
length of each answer of GetSafeNormal on the model's vectors is 0 or within the bound of
1, so is the square of the length of each uploaded normal; the bound 0 is the exact
case. -/
theorem normals_per_face (w : World) (InputBrushObject : UHoudiniInputBrush)
    (BrushActor : ABrush) (ExcludeActors : Option (List Nat)) (InputNodeId : HAPI_NodeId)
    (NodeName : String) (bExport : Bool) (OutHandle : FUnrealObjectInputHandle)
    (bDel : Bool) (NodeId : HAPI_NodeId) (PartId : Int)
    (Info : HAPI_AttributeInfo) (Data : List FVector3f) (ok : Bool)
    (h : ⟨.SetAttributeData NodeId PartId w.HAPI_UNREAL_ATTRIB_NORMAL Info Data, ok⟩
      ∈ (CreateInputNodeForBrush w InputBrushObject BrushActor ExcludeActors InputNodeId
        NodeName bExport OutHandle bDel).trace)
    (hOwner : Info.owner = .HAPI_ATTROWNER_VERTEX)
    (hNames : w.HAPI_UNREAL_ATTRIB_NORMAL ≠ w.HAPI_UNREAL_ATTRIB_UV) :
    Data.map some = (brushModelOf w InputBrushObject).Nodes.flatMap
      (fun Node => List.replicate Node.NumVertices
        ((readAt (brushModelOf w InputBrushObject).Surfs Node.iSurf).bind (fun Surf =>
          (readAt (brushModelOf w InputBrushObject).Vectors Surf.vNormal).map (fun N =>
            (⟨(w.GetSafeNormal (w.NmlInvXform BrushActor.ActorTransform N)).X,
              (w.GetSafeNormal (w.NmlInvXform BrushActor.ActorTransform N)).Z,
              (w.GetSafeNormal (w.NmlInvXform BrushActor.ActorTransform N)).Y⟩
                : FVector3f))))) ∧
    (∀ v ∈ Data, ∃ N ∈ (brushModelOf w InputBrushObject).Vectors,
      v = ⟨(w.GetSafeNormal (w.NmlInvXform BrushActor.ActorTransform N)).X,
           (w.GetSafeNormal (w.NmlInvXform BrushActor.ActorTransform N)).Z,
           (w.GetSafeNormal (w.NmlInvXform BrushActor.ActorTransform N)).Y⟩ ∧
      v.DotProduct v = (w.GetSafeNormal (w.NmlInvXform BrushActor.ActorTransform N)).DotProduct
        (w.GetSafeNormal (w.NmlInvXform BrushActor.ActorTransform N))) ∧
    (∀ ε : ℚ,
      (∀ N ∈ (brushModelOf w InputBrushObject).Vectors,
        w.GetSafeNormal (w.NmlInvXform BrushActor.ActorTransform N) = ⟨0, 0, 0⟩ ∨
        (1 - ε ≤ (w.GetSafeNormal (w.NmlInvXform BrushActor.ActorTransform N)).DotProduct
            (w.GetSafeNormal (w.NmlInvXform BrushActor.ActorTransform N)) ∧
          (w.GetSafeNormal (w.NmlInvXform BrushActor.ActorTransform N)).DotProduct
            (w.GetSafeNormal (w.NmlInvXform BrushActor.ActorTransform N)) ≤ 1 + ε)) →
      ∀ v ∈ Data, v = ⟨0, 0, 0⟩ ∨ (1 - ε ≤ v.DotProduct v ∧ v.DotProduct v ≤ 1 + ε)) := by
  obtain ⟨NumIndices, FaceCountBuffer, b, hfc, hb, hData⟩ := setAttributeData_vertex_inv h hOwner
  have hData : Data = b.OutNormals := by
    rcases hData with ⟨_, hD⟩ | ⟨hN, _⟩
    · exact hD
    · exact absurd hN hNames
  have hContent : Data.map some = (brushModelOf w InputBrushObject).Nodes.flatMap
      (nodeNormals w BrushActor.ActorTransform (brushModelOf w InputBrushObject)) := by
    rw [hData]
    exact (vertexBuffers_content hfc hb).2.2.1
  have hEach : ∀ v ∈ Data, ∃ N ∈ (brushModelOf w InputBrushObject).Vectors,
      v = ⟨(w.GetSafeNormal (w.NmlInvXform BrushActor.ActorTransform N)).X,
           (w.GetSafeNormal (w.NmlInvXform BrushActor.ActorTransform N)).Z,
           (w.GetSafeNormal (w.NmlInvXform BrushActor.ActorTransform N)).Y⟩ ∧
      v.DotProduct v = (w.GetSafeNormal (w.NmlInvXform BrushActor.ActorTransform N)).DotProduct
        (w.GetSafeNormal (w.NmlInvXform BrushActor.ActorTransform N)) := by
    intro v hv
    have hmem : some v ∈ Data.map some := List.mem_map_of_mem _ hv
    rw [hContent] at hmem
    obtain ⟨Node, _, hNode⟩ := List.mem_flatMap.1 hmem
    have hEq := (List.mem_replicate.1 hNode).2
    obtain ⟨Surf, _, hSurf⟩ := Option.bind_eq_some.1 hEq.symm
    obtain ⟨N, hN, hv'⟩ := Option.map_eq_some'.1 hSurf
    refine ⟨N, mem_of_readAt hN, hv'.symm, ?_⟩
    rw [← hv']
    simp only [FVector3f.DotProduct]
    ring
  refine ⟨hContent, hEach, ?_⟩
  intro ε hSafe v hv
  obtain ⟨N, hN, hvEq, hLen⟩ := hEach v hv
  rcases hSafe N hN with hZero | hUnit
  · left
    rw [hvEq, hZero]
  · right
    rw [hLen]
    exact hUnit

theorem normals_per_face_witness :
    (List.replicate 3 (⟨11863283 / 16777216, 0, 11863283 / 16777216⟩ : FVector3f)).map some
      = (brushModelOf (floatWorld floatModel) sampleInput).Nodes.flatMap
        (fun Node => List.replicate Node.NumVertices
          ((readAt (brushModelOf (floatWorld floatModel) sampleInput).Surfs Node.iSurf).bind
            (fun Surf =>
              (readAt (brushModelOf (floatWorld floatModel) sampleInput).Vectors
                Surf.vNormal).map (fun N =>
                (⟨((floatWorld floatModel).GetSafeNormal
                    ((floatWorld floatModel).NmlInvXform sampleBrush.ActorTransform N)).X,
                  ((floatWorld floatModel).GetSafeNormal
                    ((floatWorld floatModel).NmlInvXform sampleBrush.ActorTransform N)).Z,
                  ((floatWorld floatModel).GetSafeNormal
                    ((floatWorld floatModel).NmlInvXform sampleBrush.ActorTransform N)).Y⟩
                    : FVector3f))))) ∧
    (∀ v ∈ List.replicate 3 (⟨11863283 / 16777216, 0, 11863283 / 16777216⟩ : FVector3f),
      v = ⟨0, 0, 0⟩ ∨
      (1 - 1 / 10000000 ≤ v.DotProduct v ∧ v.DotProduct v ≤ 1 + 1 / 10000000)) ∧
    (⟨11863283 / 16777216, 0, 11863283 / 16777216⟩ : FVector3f) ≠ ⟨0, 0, 0⟩ ∧
    (⟨11863283 / 16777216, 0, 11863283 / 16777216⟩ : FVector3f).DotProduct
      ⟨11863283 / 16777216, 0, 11863283 / 16777216⟩ ≠ 1 :=
  ⟨(normals_per_face (floatWorld floatModel) sampleInput sampleBrush none 42 "brush" false
      none true 5 0 (AttributeInfoVertexVector 3)
      (List.replicate 3 ⟨11863283 / 16777216, 0, 11863283 / 16777216⟩) true
      (by decide!) rfl (by decide)).1,
   (normals_per_face (floatWorld floatModel) sampleInput sampleBrush none 42 "brush" false
      none true 5 0 (AttributeInfoVertexVector 3)
      (List.replicate 3 ⟨11863283 / 16777216, 0, 11863283 / 16777216⟩) true
      (by decide!) rfl (by decide)).2.2 (1 / 10000000) (by decide!),
   by decide!, by decide!⟩

/-- C25. UV projection: the vertex attribute data uploaded under the UV's name are, node by
node and vertex by vertex in pool order, the triples (d.vU / texelScale, -(d.vV) /
texelScale, 0), where d is the vertex's model point, untransformed, minus the base point
of the node's surface, vU, vV are the texture vectors of the surface, and the difference,
the dot products and the quotients are those of float arithmetic; a vertex whose point is
the base point gets (0, 0, 0), as a float difference of equal vectors is zero, a float dot
product with the zero vector is zero and zero divided by the texel scale is zero; and a
run of the same input brush with any other actor, whatever its transform, uploads the
same UVs. -/
theorem uv_projection (w : World) (InputBrushObject : UHoudiniInputBrush)
    (BrushActor : ABrush) (ExcludeActors : Option (List Nat)) (InputNodeId : HAPI_NodeId)
    (NodeName : String) (bExport : Bool) (OutHandle : FUnrealObjectInputHandle)
    (bDel : Bool) (NodeId : HAPI_NodeId) (PartId : Int)
    (Info : HAPI_AttributeInfo) (Data : List FVector3f) (ok : Bool)
    (h : ⟨.SetAttributeData NodeId PartId w.HAPI_UNREAL_ATTRIB_UV Info Data, ok⟩
      ∈ (CreateInputNodeForBrush w InputBrushObject BrushActor ExcludeActors InputNodeId
        NodeName bExport OutHandle bDel).trace)
    (hOwner : Info.owner = .HAPI_ATTROWNER_VERTEX)
    (hNames : w.HAPI_UNREAL_ATTRIB_NORMAL ≠ w.HAPI_UNREAL_ATTRIB_UV) :
    Data.map some = (brushModelOf w InputBrushObject).Nodes.flatMap
      (nodeUVs w (brushModelOf w InputBrushObject)) ∧
    ((∀ a, w.VectorSubtract a a = ⟨0, 0, 0⟩) → (∀ v, w.DotProduct ⟨0, 0, 0⟩ v = 0) →
      w.FloatDivide 0 w.GetGlobalBSPTexelScale = 0 →
      ∀ (Surf : FBspSurf) (pVertex : Int) (uv : FVector3f),
        surfUV w (brushModelOf w InputBrushObject) Surf pVertex = some uv →
        readAt (brushModelOf w InputBrushObject).Points pVertex
          = readAt (brushModelOf w InputBrushObject).Points Surf.pBase →
        uv = ⟨0, 0, 0⟩) ∧
    (∀ (BrushActor' : ABrush) (ExcludeActors' : Option (List Nat))
      (InputNodeId' : HAPI_NodeId) (NodeName' : String) (bExport' : Bool)
      (OutHandle' : FUnrealObjectInputHandle) (bDel' : Bool) (NodeId' : HAPI_NodeId)
      (PartId' : Int) (Info' : HAPI_AttributeInfo) (Data' : List FVector3f) (ok' : Bool),
      ⟨.SetAttributeData NodeId' PartId' w.HAPI_UNREAL_ATTRIB_UV Info' Data', ok'⟩
        ∈ (CreateInputNodeForBrush w InputBrushObject BrushActor' ExcludeActors' InputNodeId'
          NodeName' bExport' OutHandle' bDel').trace →
      Info'.owner = .HAPI_ATTROWNER_VERTEX → Data' = Data) := by
  have hAll : ∀ (BrushActor' : ABrush) (ExcludeActors' : Option (List Nat))
      (InputNodeId' : HAPI_NodeId) (NodeName' : String) (bExport' : Bool)
      (OutHandle' : FUnrealObjectInputHandle) (bDel' : Bool) (NodeId' : HAPI_NodeId)
      (PartId' : Int) (Info' : HAPI_AttributeInfo) (Data' : List FVector3f) (ok' : Bool),
      ⟨.SetAttributeData NodeId' PartId' w.HAPI_UNREAL_ATTRIB_UV Info' Data', ok'⟩
        ∈ (CreateInputNodeForBrush w InputBrushObject BrushActor' ExcludeActors' InputNodeId'
          NodeName' bExport' OutHandle' bDel').trace →
      Info'.owner = .HAPI_ATTROWNER_VERTEX →
      Data'.map some = (brushModelOf w InputBrushObject).Nodes.flatMap
        (nodeUVs w (brushModelOf w InputBrushObject)) := by
    intro BrushActor' ExcludeActors' InputNodeId' NodeName' bExport' OutHandle' bDel' NodeId'
      PartId' Info' Data' ok' h' hOwner'
    obtain ⟨NumIndices, FaceCountBuffer, b, hfc, hb, hData⟩ :=
      setAttributeData_vertex_inv h' hOwner'
    have hData : Data' = b.OutUV := by
      rcases hData with ⟨hN, _⟩ | ⟨_, hD⟩
      · exact absurd hN.symm hNames
      · exact hD
    rw [hData]
    exact (vertexBuffers_content hfc hb).2.2.2
  have hContent := hAll BrushActor ExcludeActors InputNodeId NodeName bExport OutHandle bDel
    NodeId PartId Info Data ok h hOwner
  refine ⟨hContent, ?_, ?_⟩
  · intro hSub hDot hDiv Surf pVertex uv hUV hSame
    simp only [surfUV, Option.bind_eq_bind, Option.bind_eq_some, Option.some.injEq] at hUV
    obtain ⟨vU, _, vV, _, Position, hPos, Base, hBase, hEq⟩ := hUV
    rw [hSame, hBase] at hPos
    obtain rfl := Option.some.inj hPos
    rw [← hEq, hSub, hDot, hDot, neg_zero, hDiv]
  · intro BrushActor' ExcludeActors' InputNodeId' NodeName' bExport' OutHandle' bDel' NodeId'
      PartId' Info' Data' ok' h' hOwner'
    have h1 := hAll BrushActor' ExcludeActors' InputNodeId' NodeName' bExport' OutHandle' bDel'
      NodeId' PartId' Info' Data' ok' h' hOwner'
    rw [← hContent] at h1
    exact List.map_injective_iff.2 (Option.some_injective _) h1

theorem uv_projection_witness :
    (⟨.SetAttributeData 5 0 "uv" (AttributeInfoVertexVector 3)
        [⟨0, 0, 0⟩, ⟨5368709 / 536870912, -(16106127 / 536870912), 0⟩,
         ⟨16106127 / 536870912, 0, 0⟩], true⟩ : Event)
      ∈ (CreateInputNodeForBrush (floatWorld floatModel) sampleInput sampleBrush none 42 "brush"
        false none true).trace ∧
    ([⟨0, 0, 0⟩, ⟨5368709 / 536870912, -(16106127 / 536870912), 0⟩,
      ⟨16106127 / 536870912, 0, 0⟩] : List FVector3f).map some
      = (brushModelOf (floatWorld floatModel) sampleInput).Nodes.flatMap
        (nodeUVs (floatWorld floatModel) (brushModelOf (floatWorld floatModel) sampleInput)) ∧
    (∀ (Surf : FBspSurf) (pVertex : Int) (uv : FVector3f),
      surfUV (floatWorld floatModel) (brushModelOf (floatWorld floatModel) sampleInput) Surf
        pVertex = some uv →
      readAt (brushModelOf (floatWorld floatModel) sampleInput).Points pVertex
        = readAt (brushModelOf (floatWorld floatModel) sampleInput).Points Surf.pBase →
      uv = ⟨0, 0, 0⟩) ∧
    (⟨5368709 / 536870912, -(16106127 / 536870912), 0⟩ : FVector3f)
      ≠ ⟨1 / 100, -(3 / 100), 0⟩ :=
  ⟨by decide!,
   (uv_projection (floatWorld floatModel) sampleInput sampleBrush none 42 "brush" false none
      true 5 0 (AttributeInfoVertexVector 3)
      [⟨0, 0, 0⟩, ⟨5368709 / 536870912, -(16106127 / 536870912), 0⟩,
       ⟨16106127 / 536870912, 0, 0⟩] true
      (by decide!) rfl (by decide)).1,
   (uv_projection (floatWorld floatModel) sampleInput sampleBrush none 42 "brush" false none
      true 5 0 (AttributeInfoVertexVector 3)
      [⟨0, 0, 0⟩, ⟨5368709 / 536870912, -(16106127 / 536870912), 0⟩,
       ⟨16106127 / 536870912, 0, 0⟩] true
      (by decide!) rfl (by decide)).2.1
      (fun a => by simp [floatWorld, roundToFloat])
      (fun v => by simp [floatWorld, roundToFloat])
      (by simp [floatWorld, roundToFloat]),
   by decide!⟩

/-! ## C23: the vertex loop stays in bounds -/

theorem readAt_of_lt {α : Type} {a : List α} {i : Int} (h0 : 0 ≤ i) (h1 : i < a.length) :
    ∃ v, readAt a i = some v ∧ v ∈ a := by
  have hlt : i.toNat < a.length := by omega
  refine ⟨a[i.toNat], ?_, List.getElem_mem _⟩
  simp [readAt, h0, List.getElem?_eq_getElem hlt]

theorem readAt_set_cast {α : Type} {a : List α} {i : Nat} {v : α} (h : i < a.length) :
    readAt (a.set i v) (i : Int) = some v := by
  simp [readAt, List.getElem?_set_self h]

theorem writeAt_of_lt {α : Type} {a : List α} {i : Nat} {v : α} (h : i < a.length) :
    writeAt a i v = some (a.set i v) := by
  simp [writeAt, h]

/-- The vertices of one node do not stop the run when the surface's vectors and base
point exist, the vertices lie in the pool with points that exist, and the buffers have
room above the cursor. -/
theorem nodeVertexLoop_total {w : World} {ActorTransform : FTransform} {BrushModel : UModel}
    {Node : FBspNode} {Surf : FBspSurf}
    (hNormal : ∃ N, readAt BrushModel.Vectors Surf.vNormal = some N)
    (hTexU : ∃ vU, readAt BrushModel.Vectors Surf.vTextureU = some vU)
    (hTexV : ∃ vV, readAt BrushModel.Vectors Surf.vTextureV = some vV)
    (hBase : ∃ Base, readAt BrushModel.Points Surf.pBase = some Base)
    (left : Nat) :
    ∀ (k : Nat) (b : VertexBuffers),
      (∀ j : Nat, k ≤ j → j < k + left →
        ∃ Vert Position, readAt BrushModel.Verts (Node.iVertPool + j) = some Vert ∧
          readAt BrushModel.Points Vert.pVertex = some Position) →
      b.iVertex + left ≤ b.Indices.length →
      b.iVertex + left ≤ b.OutNormals.length →
      b.iVertex + left ≤ b.OutUV.length →
      ∃ b', nodeVertexLoop w ActorTransform BrushModel Node Surf left k b = some b' := by
  obtain ⟨N, hN⟩ := hNormal
  obtain ⟨vU, hvU⟩ := hTexU
  obtain ⟨vV, hvV⟩ := hTexV
  obtain ⟨Base, hB⟩ := hBase
  induction left with
  | zero =>
    intro k b _ _ _ _
    exact ⟨b, rfl⟩
  | succ left ih =>
    intro k b hV hI hNo hU
    obtain ⟨Vert, Position, hVert, hPos⟩ := hV k (le_refl _) (by omega)
    have hw1 := writeAt_of_lt (a := b.Indices) (i := b.iVertex) (v := Vert.pVertex)
      (by omega)
    have hr := readAt_set_cast (a := b.Indices) (i := b.iVertex) (v := Vert.pVertex)
      (by omega)
    have hstep : nodeVertexLoop w ActorTransform BrushModel Node Surf (left + 1) k b
        = nodeVertexLoop w ActorTransform BrushModel Node Surf left (k + 1)
          { b with
            iVertex := b.iVertex + 1
            Indices := b.Indices.set b.iVertex Vert.pVertex
            OutNormals := b.OutNormals.set b.iVertex
              ⟨(w.GetSafeNormal (w.NmlInvXform ActorTransform N)).X,
               (w.GetSafeNormal (w.NmlInvXform ActorTransform N)).Z,
               (w.GetSafeNormal (w.NmlInvXform ActorTransform N)).Y⟩
            OutUV := b.OutUV.set b.iVertex
              ⟨w.FloatDivide (w.DotProduct (w.VectorSubtract Position Base) vU)
                 w.GetGlobalBSPTexelScale,
               w.FloatDivide (-(w.DotProduct (w.VectorSubtract Position Base) vV))
                 w.GetGlobalBSPTexelScale, 0⟩ } := by
      simp only [nodeVertexLoop, hVert, hw1, hN, hvU, hvV, hr, hPos, hB, Option.bind_eq_bind,
        Option.some_bind, writeAt_of_lt (show b.iVertex < b.OutNormals.length by omega),
        writeAt_of_lt (show b.iVertex < b.OutUV.length by omega)]
    rw [hstep]
    apply ih
    · intro j hj1 hj2
      exact hV j (by omega) (by omega)
    · simp only [List.length_set]; omega
    · simp only [List.length_set]; omega
    · simp only [List.length_set]; omega

/-- The node loop does not stop the run on a well-formed model when the buffers have room
above the cursor. -/
theorem nodeLoop_total {w : World} {ActorTransform : FTransform} {BrushModel : UModel}
    (hWF : WellFormed BrushModel) (nodes : List FBspNode) :
    ∀ (k : Nat) (b : VertexBuffers),
      (∀ Node ∈ nodes, Node ∈ BrushModel.Nodes) →
      k + nodes.length ≤ b.MaterialIndices.length →
      b.iVertex + (nodes.map (fun n => n.NumVertices)).sum ≤ b.Indices.length →
      b.iVertex + (nodes.map (fun n => n.NumVertices)).sum ≤ b.OutNormals.length →
      b.iVertex + (nodes.map (fun n => n.NumVertices)).sum ≤ b.OutUV.length →
      ∃ b', nodeLoop w ActorTransform BrushModel nodes k b = some b' := by
  obtain ⟨hNodes, hVerts, hSurfs⟩ := hWF
  induction nodes with
  | nil =>
    intro k b _ _ _ _ _
    exact ⟨b, rfl⟩
  | cons Node rest ih =>
    intro k b hMem hM hI hN hU
    simp only [List.map_cons, List.sum_cons, List.length_cons] at hM hI hN hU
    obtain ⟨hS0, hS1, hP0, hP1⟩ := hNodes Node (hMem Node (by simp))
    obtain ⟨Surf, hSurf, hSurfMem⟩ := readAt_of_lt hS0 hS1
    obtain ⟨hB0, hB1, hN0, hN1, hU0, hU1, hV0, hV1⟩ := hSurfs Surf hSurfMem
    obtain ⟨Nrm, hNrm, _⟩ := readAt_of_lt hN0 hN1
    obtain ⟨vU, hvU, _⟩ := readAt_of_lt hU0 hU1
    obtain ⟨vV, hvV, _⟩ := readAt_of_lt hV0 hV1
    obtain ⟨Base, hBase, _⟩ := readAt_of_lt hB0 hB1
    obtain ⟨b1, hb1⟩ := @nodeVertexLoop_total w ActorTransform BrushModel Node Surf
      ⟨Nrm, hNrm⟩ ⟨vU, hvU⟩ ⟨vV, hvV⟩ ⟨Base, hBase⟩ Node.NumVertices 0 b
      (by
        intro j _ hj
        obtain ⟨Vert, hVert, hVertMem⟩ := readAt_of_lt
          (a := BrushModel.Verts) (i := Node.iVertPool + j) (by omega) (by omega)
        obtain ⟨hp0, hp1⟩ := hVerts Vert hVertMem
        obtain ⟨Position, hPos, _⟩ := readAt_of_lt hp0 hp1
        exact ⟨Vert, Position, hVert, hPos⟩)
      (by omega) (by omega) (by omega)
    obtain ⟨f1, f2, f3, f4, f5, _, _⟩ := nodeVertexLoop_frame _ _ _ _ hb1
    have hw := writeAt_of_lt (a := b1.MaterialIndices) (i := k)
      (v := (FindOrAdd b1.MaterialMap Surf.Material b1.MaterialMap.length).2)
      (by rw [f5]; omega)
    have hstep : nodeLoop w ActorTransform BrushModel (Node :: rest) k b
        = nodeLoop w ActorTransform BrushModel rest (k + 1)
          { b1 with
            MaterialMap := (FindOrAdd b1.MaterialMap Surf.Material b1.MaterialMap.length).1
            MaterialIndices := b1.MaterialIndices.set k
              (FindOrAdd b1.MaterialMap Surf.Material b1.MaterialMap.length).2 } := by
      simp only [nodeLoop, hSurf, hb1, hw, Option.bind_eq_bind, Option.some_bind]
    rw [hstep]
    apply ih
    · intro Node' hNode'
      exact hMem Node' (by simp [hNode'])
    · simp only [List.length_set]; rw [f5]; omega
    · simp only; omega
    · simp only; omega
    · simp only; omega

theorem vertexCursors_eq (left : Nat) :
    ∀ iVertex : Nat, vertexCursors left iVertex = (List.range' iVertex left, iVertex + left) := by
  induction left with
  | zero => intro iVertex; rfl
  | succ left ih =>
    intro iVertex
    simp only [vertexCursors, ih, List.range'_succ, Prod.mk.injEq, true_and]
    omega

theorem nodeCursors_eq (nodes : List FBspNode) :
    ∀ iVertex : Nat, nodeCursors nodes iVertex
      = (List.range' iVertex (nodes.map (fun n => n.NumVertices)).sum,
         iVertex + (nodes.map (fun n => n.NumVertices)).sum) := by
  induction nodes with
  | nil => intro iVertex; rfl
  | cons Node rest ih =>
    intro iVertex
    simp only [nodeCursors, vertexCursors_eq, ih, List.map_cons, List.sum_cons, Prod.mk.injEq]
    refine ⟨?_, by omega⟩
    rw [List.range'_append_1, Nat.add_comm]

/-- C23. Buffers fully initialised and accesses in bounds: on a well-formed brush model,
with NumIndices as the face count loop computed it, the vertex loop of
CreateInputNodeForBrush does not stop at a range check; its write cursor takes the values
0 .. NumIndices - 1 in order, each once, and ends equal to NumIndices, the length of the
index, normal and UV buffers; and every element of the three buffers was written: the
buffers are the flattened point indices, normals and UVs of the nodes, with nothing left of
the uninitialised memory. -/
theorem vertex_loop_in_bounds (w : World) (ActorTransform : FTransform) (BrushModel : UModel)
    (NumIndices : Int) (FaceCountBuffer : List Int)
    (hWF : WellFormed BrushModel)
    (hfc : faceCountLoop BrushModel.Nodes 0
      (0, SetNumUninitialized w.UninitInt BrushModel.Nodes.length)
      = some (NumIndices, FaceCountBuffer)) :
    ∃ b, buildVertexBuffers w ActorTransform BrushModel NumIndices = some b ∧
      (b.iVertex : Int) = NumIndices ∧
      nodeCursors BrushModel.Nodes 0 = (List.range b.iVertex, b.iVertex) ∧
      b.Indices.length = b.iVertex ∧ b.OutNormals.length = b.iVertex ∧
      b.OutUV.length = b.iVertex ∧
      b.Indices.map some = flattenedIndices BrushModel ∧
      b.OutNormals.map some
        = BrushModel.Nodes.flatMap (nodeNormals w ActorTransform BrushModel) ∧
      b.OutUV.map some = BrushModel.Nodes.flatMap (nodeUVs w BrushModel) := by
  obtain ⟨_, hsum⟩ := faceCountLoop_eq hfc
  simp only at hsum
  rw [sum_cast_numVertices] at hsum
  have hnn : ¬ NumIndices < 0 := by omega
  have htoNat : NumIndices.toNat = (BrushModel.Nodes.map (fun n => n.NumVertices)).sum := by
    omega
  obtain ⟨b, hb⟩ : ∃ b, buildVertexBuffers w ActorTransform BrushModel NumIndices = some b := by
    unfold buildVertexBuffers
    simp only [hnn, if_false]
    apply nodeLoop_total hWF
    · intro Node hNode; exact hNode
    · simp [length_SetNumUninitialized]
    · simp [length_SetNumUninitialized, htoNat]
    · simp [length_SetNumUninitialized, htoNat]
    · simp [length_SetNumUninitialized, htoNat]
  obtain ⟨_, hI, hN, hU, _, hcur, _⟩ := buildVertexBuffers_spec hb
  obtain ⟨_, c1, c2, c3⟩ := vertexBuffers_content hfc hb
  refine ⟨b, hb, by omega, ?_, by omega, by omega, by omega, c1, c2, c3⟩
  rw [nodeCursors_eq, hcur, List.range_eq_range']
  simp

theorem vertex_loop_in_bounds_witness :
    WellFormed sampleModel ∧
    ∃ b, buildVertexBuffers (okWorld sampleModel) 0 sampleModel 9 = some b ∧
      (b.iVertex : Int) = 9 ∧
      nodeCursors sampleModel.Nodes 0 = (List.range b.iVertex, b.iVertex) ∧
      b.Indices.length = b.iVertex ∧ b.OutNormals.length = b.iVertex ∧
      b.OutUV.length = b.iVertex ∧
      b.Indices.map some = flattenedIndices sampleModel ∧
      b.OutNormals.map some
        = sampleModel.Nodes.flatMap (nodeNormals (okWorld sampleModel) 0 sampleModel) ∧
      b.OutUV.map some = sampleModel.Nodes.flatMap (nodeUVs (okWorld sampleModel) sampleModel) :=
  ⟨by decide,
   vertex_loop_in_bounds (okWorld sampleModel) 0 sampleModel 9 [3, 3, 0, 3] (by decide)
    (by decide)⟩

end HoudiniBrush
